import Mathlib

/-!
# Trust marks and delegation in `oidfed`

A shallow embedding of the trust-mark code of `trustmark.go`, of the entity configuration of
`federation.go` and of the struct generator of `internal/generators/metadata.go`.

* Go `error` results are `Option Error` (`none` is `nil`); `(value, error)` results are
  `Except Error value`.
* Methods with a pointer receiver that write a lazily filled cache (`TrustMark.Delegation`,
  `TrustMarkInfo.TrustMark` and the verification methods calling them) return the updated
  receiver next to their result.
* Collaborators that live outside `trustmark.go` (JOSE parsing and signature verification,
  JSON decoding, the metadata resolver, the clock, the two JWT type constants) are the fields of
  `Env`; every theorem quantifies over them. The clock has one reading, `Env.now`, for the
  whole of a call.
* The issuing methods hand a payload to a signer, which is a collaborator as well: they return,
  next to their result, the list of the payloads handed to the signer.
* A registry that is the nil map is `none`; an assignment to an entry of the nil map, which
  panics at run time, has the result `none`.
* The parses the two lazy caches make are listed by `TrustMark.DelegationParses` and
  `TrustMarkInfo.TrustMarkParses`, the tokens one call hands to the parser.
* A JSON text is kept as the JSON value it denotes; an object is the list of its members.
* A `time.Duration` counts nanoseconds in an `int64`, and so does the clock; `int64` wraps a
  product around as Go does.
* `TrustMarkTypes` lists the keys of the registry in the order of its entries; Go leaves the
  order open, and the statements about the list do not depend on it.
* The generator of `internal/generators/metadata.go` writes text to two builders; the field
  lines it writes are kept as records (`FieldLine`), from which `generateCombinedStruct` makes
  the text. The structs of `metadata_input.go` are given as the parser of Go reads them.
* The file has three parts: the embedding, a concrete federation in namespace `demo`, and the
  theorems.
-/

namespace oidfed

/-! ## Errors (`github.com/pkg/errors`) -/

/-- An error value: a plain message, or a cause wrapped with a message. -/
inductive Error where
  | msg (s : String)
  | wrap (cause : Error) (s : String)
deriving DecidableEq, Repr

namespace errors

/-- The call `errors.New(s)`. -/
def New (s : String) : Error := Error.msg s

/-- The call `errors.Errorf(format, arg)` for a format with one `%s` verb, given as the text
before and after the verb. -/
def Errorf (before arg after : String) : Error := Error.msg (before ++ arg ++ after)

/-- The call `errors.Wrap(err, s)`, which is `nil` when `err` is `nil`. -/
def Wrap (err : Option Error) (s : String) : Option Error :=
  match err with
  | none => none
  | some e => some (Error.wrap e s)

end errors

/-! ## Data model -/

/-- A decoded JSON value, the model of Go `interface{}` in the `Extra` maps. -/
inductive JSONValue where
  | null
  | bool (b : Bool)
  | number (n : Int)
  | string (s : String)
  | array (xs : List JSONValue)
  | object (kvs : List (String × JSONValue))

/-- A Go `map[string]V`, as an association list read with `List.lookup`. -/
abbrev GoMap (V : Type) := List (String × V)

/-- The `Extra` field `map[string]interface{}`; the nil map is the empty list. -/
abbrev Extra := GoMap JSONValue

namespace unixtime

/-- A point in time `unixtime.Unixtime`, as a number of clock ticks. -/
abbrev Unixtime := Int

/-- Modelled from the spec: the error kind NotYetValid of the time validator; package
`unixtime` is not among the sources. -/
def ErrNotYetValid : Error := Error.msg "NotYetValid"

/-- Modelled from the spec: the error kind Expired of the time validator; package `unixtime`
is not among the sources. -/
def ErrExpired : Error := Error.msg "Expired"

/-- Modelled from the spec: `unixtime.VerifyTime`, which is not among the sources. Section 4.2:
fails NotYetValid if issuedAt is strictly after now; fails Expired if expiresAt is present and
strictly before now; no clock-skew grace. -/
def VerifyTime (now : Unixtime) (iat : Unixtime) (exp : Option Unixtime) : Option Error :=
  if now < iat then some ErrNotYetValid
  else
    match exp with
    | some e => if e < now then some ErrExpired else none
    | none => none

end unixtime

namespace jwks

/-- A key set `jwks.JWKS`: the list of the identifiers of its keys. -/
structure JWKS where
  keys : List String := []
deriving DecidableEq, Repr

/-- The method `JWKS.Len`. -/
def JWKS.Len (k : JWKS) : Nat := k.keys.length

end jwks

namespace jwx

/-- A parsed signed statement `jwx.ParsedJWT`: the raw token, the type tag declared in its
header (if any) and its payload bytes. -/
structure ParsedJWT where
  RawJWT : String
  typ : Option String
  payload : String
deriving DecidableEq, Repr

/-- Modelled from the spec: `ParsedJWT.VerifyType`, which is not among the sources. Section 4.1:
the declared type must equal the expected constant. -/
def ParsedJWT.VerifyType (m : ParsedJWT) (typ : String) : Bool :=
  m.typ == some typ

/-- The method `ParsedJWT.Payload`. -/
def ParsedJWT.Payload (m : ParsedJWT) : String := m.payload

end jwx

/-- The struct `DelegationJWT`. -/
structure DelegationJWT where
  Issuer : String := ""
  Subject : String := ""
  TrustMarkType : String := ""
  IssuedAt : unixtime.Unixtime := 0
  ExpiresAt : Option unixtime.Unixtime := none
  Ref : String := ""
  Extra : Extra := []
  jwtMsg : Option jwx.ParsedJWT := none

/-- The struct `TrustMark`; `jwtMsg` and `delegation` are its unexported fields. -/
structure TrustMark where
  Issuer : String := ""
  Subject : String := ""
  TrustMarkType : String := ""
  IssuedAt : unixtime.Unixtime := 0
  LogoURI : String := ""
  ExpiresAt : Option unixtime.Unixtime := none
  Ref : String := ""
  DelegationJWT : String := ""
  Extra : Extra := []
  jwtMsg : Option jwx.ParsedJWT := none
  delegation : Option oidfed.DelegationJWT := none

/-- The struct `TrustMarkInfo`; `trustmark` is its unexported cache of the parsed mark. -/
structure TrustMarkInfo where
  TrustMarkType : String := ""
  TrustMarkJWT : String := ""
  Extra : Extra := []
  trustmark : Option TrustMark := none

/-- The struct `Metadata` (generated, declared outside the sources): its content as a JSON
object. -/
structure Metadata where
  fields : Extra := []

/-- The struct `TrustMarkOwnerSpec` (declared outside `trustmark.go`): the fields read here. -/
structure TrustMarkOwnerSpec where
  ID : String := ""
  JWKS : jwks.JWKS := {}
deriving DecidableEq, Repr

/-- The struct `EntityStatementPayload` (declared outside `trustmark.go`): the fields read
or written here. `TrustMarkIssuers` is `none` for the nil map, which the code tests for. -/
structure EntityStatementPayload where
  Subject : String := ""
  JWKS : jwks.JWKS := {}
  TrustMarkIssuers : Option (GoMap (List String)) := none
  TrustMarkOwners : GoMap TrustMarkOwnerSpec := []
  Issuer : String := ""
  IssuedAt : unixtime.Unixtime := 0
  ExpiresAt : unixtime.Unixtime := 0
  AuthorityHints : List String := []
  Metadata : Option Metadata := none
  TrustMarks : List TrustMarkInfo := []
  Extra : Extra := []

/-- The struct `EntityStatement`: the fields read here. -/
structure EntityStatement where
  JWKS : jwks.JWKS := {}

/-- The struct `apimodel.ResolveRequest`: the fields written here. -/
structure ResolveRequest where
  Subject : String := ""
  TrustAnchor : List String := []
  EntityTypes : List String := []
deriving DecidableEq, Repr

/-- An element of a trust chain: a message carrying its raw token. -/
structure JWSMessage where
  RawJWT : String
deriving DecidableEq, Repr

/-- The struct `ResolveResponsePayload`: the field read here. -/
structure ResolveResponsePayload where
  TrustChain : List JWSMessage := []

/-- The value of the package variable `DefaultMetadataResolver`, by the two arms of the type
switch in `getTrustMarkIssuerJWKS`. -/
inductive MetadataResolver where
  | LocalMetadataResolver
      (resolveResponsePayloadWithoutTrustMarks : ResolveRequest → Except Error ResolveResponsePayload)
  | default (ResolveResponsePayload : ResolveRequest → Except Error ResolveResponsePayload)

/-- The collaborators of the verification code. -/
structure Env where
  /-- The reading of the clock, `time.Now()`. -/
  now : unixtime.Unixtime
  /-- The constant `oidfedconst.JWTTypeTrustMark`. -/
  JWTTypeTrustMark : String
  /-- The constant `oidfedconst.JWTTypeTrustMarkDelegation`. -/
  JWTTypeTrustMarkDelegation : String
  /-- The function `jwx.Parse`. -/
  Parse : String → Except Error jwx.ParsedJWT
  /-- The method `ParsedJWT.VerifyWithSet` on a possibly nil receiver; only its error result is
  used. -/
  VerifyWithSet : Option jwx.ParsedJWT → jwks.JWKS → Option Error
  /-- The helper `unmarshalWithExtra` at a `TrustMark` target: the target with its decoded
  fields, and the extra fields. -/
  unmarshalTrustMark : String → TrustMark → Except Error (TrustMark × Extra)
  /-- The helper `unmarshalWithExtra` at a `DelegationJWT` target. -/
  unmarshalDelegationJWT : String → DelegationJWT → Except Error (DelegationJWT × Extra)
  /-- The package variable `DefaultMetadataResolver`. -/
  DefaultMetadataResolver : MetadataResolver
  /-- The function `ParseEntityStatement`. -/
  ParseEntityStatement : String → Except Error (Option EntityStatement)
  /-- The function `GetEntityConfiguration`. -/
  GetEntityConfiguration : String → Except Error (Option EntityStatement)
  /-- The constant `defaultEntityConfigurationLifetime`, in seconds. -/
  defaultEntityConfigurationLifetime : Int

/-! ## Parsing -/

/-- The method `TrustMark.UnmarshalJSON`. JSON decoding writes exported fields only, so the
unexported `jwtMsg` and `delegation` keep the receiver's values. -/
def TrustMark.UnmarshalJSON (env : Env) (tm : TrustMark) (data : String) : Except Error TrustMark :=
  match env.unmarshalTrustMark data tm with
  | .error err => .error err
  | .ok (tmi, extra) =>
    .ok { tmi with Extra := extra, jwtMsg := tm.jwtMsg, delegation := tm.delegation }

/-- The method `DelegationJWT.UnmarshalJSON`; the unexported `jwtMsg` keeps the receiver's
value. -/
def DelegationJWT.UnmarshalJSON (env : Env) (djwt : DelegationJWT) (data : String) :
    Except Error DelegationJWT :=
  match env.unmarshalDelegationJWT data djwt with
  | .error err => .error err
  | .ok (tmi, extra) => .ok { tmi with Extra := extra, jwtMsg := djwt.jwtMsg }

/-- The error of `ParseTrustMark` for a token of another type. -/
def errTrustMarkType (env : Env) : Error :=
  errors.Errorf "trustmark jwt does not have '" env.JWTTypeTrustMark "' JWT type"

/-- The error of `parseDelegationJWT` for a token of another type. -/
def errDelegationType (env : Env) : Error :=
  errors.Errorf "trustmark delegation jwt does not have '" env.JWTTypeTrustMarkDelegation
    "' JWT type"

/-- The function `ParseTrustMark`. -/
def ParseTrustMark (env : Env) (data : String) : Except Error TrustMark :=
  match env.Parse data with
  | .error err => .error err
  | .ok m =>
    if !m.VerifyType env.JWTTypeTrustMark then
      .error (errTrustMarkType env)
    else
      let t : TrustMark := { jwtMsg := some m }
      match t.UnmarshalJSON env m.Payload with
      | .error err => .error err
      | .ok t => .ok t

/-- The function `parseDelegationJWT`. -/
def parseDelegationJWT (env : Env) (delegationJWT : String) : Except Error DelegationJWT :=
  match env.Parse delegationJWT with
  | .error err => .error err
  | .ok m =>
    if !m.VerifyType env.JWTTypeTrustMarkDelegation then
      .error (errDelegationType env)
    else
      let d : DelegationJWT := { jwtMsg := some m }
      match d.UnmarshalJSON env m.Payload with
      | .error err => .error err
      | .ok d => .ok d

/-- The method `TrustMarkInfo.TrustMark`: the cached mark when it has a parsed message, else
the parse of the raw token, cached on success. -/
def TrustMarkInfo.TrustMark (env : Env) (tm : TrustMarkInfo) :
    Except Error oidfed.TrustMark × TrustMarkInfo :=
  let parsed : Except Error oidfed.TrustMark × TrustMarkInfo :=
    match ParseTrustMark env tm.TrustMarkJWT with
    | .error err => (.error err, tm)
    | .ok t => (.ok t, { tm with trustmark := some t })
  match tm.trustmark with
  | none => parsed
  | some t =>
    match t.jwtMsg with
    | none => parsed
    | some _ => (.ok t, tm)

/-- The method `TrustMark.Delegation`: the cached delegation, else none for an empty token,
else the parse of the token, cached on success. -/
def TrustMark.Delegation (env : Env) (tm : TrustMark) :
    Except Error (Option oidfed.DelegationJWT) × TrustMark :=
  match tm.delegation with
  | some d => (.ok (some d), tm)
  | none =>
    if tm.DelegationJWT = "" then (.ok none, tm)
    else
      match parseDelegationJWT env tm.DelegationJWT with
      | .error err => (.error err, tm)
      | .ok d => (.ok (some d), { tm with delegation := some d })

/-! ## Issuer key resolution -/

/-- The type switch of `getTrustMarkIssuerJWKS`: the call it makes on the resolver, of either
kind, with a request. -/
def MetadataResolver.resolve (r : MetadataResolver) (req : ResolveRequest) :
    Except Error ResolveResponsePayload :=
  match r with
  | .LocalMetadataResolver resolveResponsePayloadWithoutTrustMarks =>
    resolveResponsePayloadWithoutTrustMarks req
  | .default ResolveResponsePayload => ResolveResponsePayload req

/-- The function `getTrustMarkIssuerJWKS`. -/
def getTrustMarkIssuerJWKS (env : Env) (trustMarkIssuer : String) (ta : EntityStatementPayload) :
    Except Error jwks.JWKS :=
  if trustMarkIssuer = ta.Subject then .ok ta.JWKS
  else
    let resolveRequest : ResolveRequest :=
      { Subject := trustMarkIssuer, TrustAnchor := [ta.Subject] }
    let resolved : Except Error ResolveResponsePayload :=
      match env.DefaultMetadataResolver with
      | .LocalMetadataResolver resolveResponsePayloadWithoutTrustMarks =>
        resolveResponsePayloadWithoutTrustMarks resolveRequest
      | .default ResolveResponsePayload => ResolveResponsePayload resolveRequest
    match resolved with
    | .error err => .error (Error.wrap err "error while resolving trust mark issuer")
    | .ok res =>
      let statement : Except Error (Option EntityStatement) :=
        match res.TrustChain with
        | first :: _ => env.ParseEntityStatement first.RawJWT
        | [] => env.GetEntityConfiguration trustMarkIssuer
      match statement with
      | .error err =>
        .error (Error.wrap err "error while parsing trust mark issuer entity statement")
      | .ok none => .error (errors.New "no jwks found for trust mark issuer")
      | .ok (some tmi) =>
        if tmi.JWKS.Len = 0 then .error (errors.New "no jwks found for trust mark issuer")
        else .ok tmi.JWKS

/-! ## Verification -/

/-- The method `DelegationJWT.VerifyExternal`. -/
def DelegationJWT.VerifyExternal (env : Env) (djwt : DelegationJWT) (jwks : jwks.JWKS) :
    Option Error :=
  match unixtime.VerifyTime env.now djwt.IssuedAt djwt.ExpiresAt with
  | some err => errors.Wrap (some err) "verify delegation jwt"
  | none => errors.Wrap (env.VerifyWithSet djwt.jwtMsg jwks) "verify delegation jwt"

/-- The method `DelegationJWT.VerifyFederation`. -/
def DelegationJWT.VerifyFederation (env : Env) (djwt : DelegationJWT)
    (ta : EntityStatementPayload) : Option Error :=
  match unixtime.VerifyTime env.now djwt.IssuedAt djwt.ExpiresAt with
  | some err => errors.Wrap (some err) "verify delegation jwt"
  | none =>
    match ta.TrustMarkOwners.lookup djwt.TrustMarkType with
    | none => some (errors.New "verify delegation jwt: unknown trust mark owner")
    | some owner => errors.Wrap (env.VerifyWithSet djwt.jwtMsg owner.JWKS) "verify delegation jwt"

/-- The method `TrustMark.VerifyExternal`; `tmo` is the variadic owner argument. The second
component is the receiver after the call (its delegation cache may have been filled). -/
def TrustMark.VerifyExternal (env : Env) (tm : TrustMark) (jwks : jwks.JWKS)
    (tmo : List TrustMarkOwnerSpec) : Option Error × TrustMark :=
  match unixtime.VerifyTime env.now tm.IssuedAt tm.ExpiresAt with
  | some err => (some err, tm)
  | none =>
    match env.VerifyWithSet tm.jwtMsg jwks with
    | some err => (errors.Wrap (some err) "verify trustmark", tm)
    | none =>
      match tmo with
      | [] => (none, tm)
      | tmo0 :: _ =>
        match tm.Delegation env with
        | (.error err, tm) =>
          (errors.Wrap (some err) "verify trustmark: parsing delegation jwt", tm)
        | (.ok none, tm) =>
          (some (errors.New "verify trustmark: no delegation jwt in trust mark"), tm)
        | (.ok (some delegation), tm) =>
          if delegation.TrustMarkType != tm.TrustMarkType then
            (some (errors.New "verify trustmark: delegation jwt not for this trust mark"), tm)
          else if delegation.Subject != tm.Issuer then
            (some (errors.New "verify trustmark: delegation jwt not for this trust mark issuer"),
              tm)
          else if delegation.Issuer != tmo0.ID then
            (some (errors.New "verify trustmark: delegation jwt not issued by trust mark owner"),
              tm)
          else (delegation.VerifyExternal env tmo0.JWKS, tm)

/-- The allow-list check at the head of `TrustMark.VerifyFederation`: the error it returns, if
any. -/
def issuerAllowed (tm : TrustMark) (ta : EntityStatementPayload) : Option Error :=
  match ta.TrustMarkIssuers with
  | none => none
  | some issuers =>
    match issuers.lookup tm.TrustMarkType with
    | none => none
    | some tmis =>
      if !tmis.contains tm.Issuer then
        some (errors.New "verify trustmark: trust mark issuer is not allowed by trust anchor")
      else none

/-- The method `TrustMark.VerifyFederation`. -/
def TrustMark.VerifyFederation (env : Env) (tm : TrustMark) (ta : EntityStatementPayload) :
    Option Error × TrustMark :=
  match issuerAllowed tm ta with
  | some err => (some err, tm)
  | none =>
    match getTrustMarkIssuerJWKS env tm.Issuer ta with
    | .error err => (some err, tm)
    | .ok jwks =>
      match ta.TrustMarkOwners.lookup tm.TrustMarkType with
      | none => tm.VerifyExternal env jwks []
      | some tmo => tm.VerifyExternal env jwks [tmo]

/-- The error of the `TrustMarkInfo` verification methods for a mark of another type. -/
def errTypeClaim : Error :=
  errors.New "trust mark object claim 'trust_mark_type' does not match JWT claim"

/-- The method `TrustMarkInfo.VerifyFederation`. The mark verified is the one the info caches,
so the info after the call holds the mark after its verification. -/
def TrustMarkInfo.VerifyFederation (env : Env) (tm : TrustMarkInfo)
    (ta : EntityStatementPayload) : Option Error × TrustMarkInfo :=
  match tm.TrustMark env with
  | (.error err, tm) => (some err, tm)
  | (.ok mark, tm) =>
    if mark.TrustMarkType != tm.TrustMarkType then (some errTypeClaim, tm)
    else
      match mark.VerifyFederation env ta with
      | (err, mark) => (err, { tm with trustmark := some mark })

/-- The method `TrustMarkInfo.VerifyExternal`. -/
def TrustMarkInfo.VerifyExternal (env : Env) (tm : TrustMarkInfo) (jwks : jwks.JWKS)
    (tmo : List TrustMarkOwnerSpec) : Option Error × TrustMarkInfo :=
  match tm.TrustMark env with
  | (.error err, tm) => (some err, tm)
  | (.ok mark, tm) =>
    if mark.TrustMarkType != tm.TrustMarkType then (some errTypeClaim, tm)
    else
      match mark.VerifyExternal env jwks tmo with
      | (err, mark) => (err, { tm with trustmark := some mark })

/-! ## Issuing trust marks and delegations -/

/-- The assignment `m[k] = v` in a map that is not nil: the entry for `k` is replaced where it
stands, or added at the end. -/
def GoMap.assign {V : Type} (m : GoMap V) (k : String) (v : V) : GoMap V :=
  match m with
  | [] => [(k, v)]
  | (k1, v1) :: rest => if k1 = k then (k, v) :: rest else (k1, v1) :: GoMap.assign rest k v

/-- The read `m[k]` in a map that may be nil (`none`): the nil map has no entries. -/
def GoMap.index {V : Type} (m : Option (GoMap V)) (k : String) : Option V :=
  match m with
  | none => none
  | some entries => entries.lookup k

namespace time

/-- A `time.Duration`, in clock ticks. -/
abbrev Duration := Int

end time

namespace unixtime

/-- The struct `unixtime.DurationInSeconds`, which wraps a `time.Duration`. -/
structure DurationInSeconds where
  Duration : time.Duration := 0
deriving DecidableEq, Repr

end unixtime

/-- The struct `TrustMarkSpec`. -/
structure TrustMarkSpec where
  TrustMarkType : String := ""
  Lifetime : unixtime.DurationInSeconds := {}
  Ref : String := ""
  LogoURI : String := ""
  Extra : Extra := []
  IncludeExtraClaimsInInfo : Bool := false
  DelegationJWT : String := ""

/-- The signing capability `TrustMarkSigner` (declared outside `trustmark.go`): its method
`JWT` at a trust mark. -/
structure TrustMarkSigner where
  JWT : TrustMark → Except Error String

/-- The signing capability `TrustMarkDelegationSigner` (declared outside `trustmark.go`): its
method `JWT` at a delegation. -/
structure TrustMarkDelegationSigner where
  JWT : DelegationJWT → Except Error String

/-- The struct `TrustMarkIssuer`; `trustMarks` is its unexported registry, `none` for the nil
map of an issuer that `NewTrustMarkIssuer` did not build. -/
structure TrustMarkIssuer where
  EntityID : String
  TrustMarkSigner : TrustMarkSigner
  trustMarks : Option (GoMap TrustMarkSpec)

/-- The struct `OwnedTrustMark`. -/
structure OwnedTrustMark where
  ID : String := ""
  DelegationLifetime : time.Duration := 0
  Ref : String := ""
  Extra : Extra := []

/-- The struct `TrustMarkOwner`; `ownedTrustMarks` is its unexported registry, `none` for the
nil map of an owner that `NewTrustMarkOwner` did not build. -/
structure TrustMarkOwner where
  EntityID : String
  TrustMarkDelegationSigner : TrustMarkDelegationSigner
  ownedTrustMarks : Option (GoMap OwnedTrustMark)

/-- The function `NewTrustMarkIssuer`. -/
def NewTrustMarkIssuer (entityID : String) (signer : TrustMarkSigner)
    (trustMarkSpecs : List TrustMarkSpec) : TrustMarkIssuer :=
  { EntityID := entityID
    TrustMarkSigner := signer
    trustMarks := some (trustMarkSpecs.foldl (fun m tms => m.assign tms.TrustMarkType tms) []) }

/-- The method `TrustMarkIssuer.AddTrustMark`: the issuer after the call, or `none` for the
run-time panic of an assignment to an entry of the nil map. -/
def TrustMarkIssuer.AddTrustMark (tmi : TrustMarkIssuer) (spec : TrustMarkSpec) :
    Option TrustMarkIssuer :=
  match tmi.trustMarks with
  | none => none
  | some m => some { tmi with trustMarks := some (m.assign spec.TrustMarkType spec) }

/-- The error of `IssueTrustMark` and of `TrustMarkOwner.DelegationJWT` for a type without
entry in the registry. -/
def errUnknownTrustMark (trustMarkType : String) : Error :=
  errors.Errorf "unknown trustmark '" trustMarkType "'"

/-- The method `TrustMarkIssuer.IssueTrustMark`; `lifetime` is the variadic argument. The second
component lists the trust marks handed to the signer. -/
def TrustMarkIssuer.IssueTrustMark (env : Env) (tmi : TrustMarkIssuer)
    (trustMarkType sub : String) (lifetime : List time.Duration) :
    Except Error TrustMarkInfo × List TrustMark :=
  match GoMap.index tmi.trustMarks trustMarkType with
  | none => (.error (errUnknownTrustMark trustMarkType), [])
  | some spec =>
    let now := env.now
    let tm : TrustMark :=
      { Issuer := tmi.EntityID
        Subject := sub
        TrustMarkType := spec.TrustMarkType
        IssuedAt := now
        LogoURI := spec.LogoURI
        Ref := spec.Ref
        DelegationJWT := spec.DelegationJWT
        Extra := spec.Extra }
    let lf : time.Duration :=
      match lifetime with
      | [] => spec.Lifetime.Duration
      | lifetime0 :: _ => lifetime0
    let tm : TrustMark := if lf ≠ 0 then { tm with ExpiresAt := some (now + lf) } else tm
    match tmi.TrustMarkSigner.JWT tm with
    | .error err => (.error err, [tm])
    | .ok jwt =>
      let extra : Extra := if spec.IncludeExtraClaimsInInfo then spec.Extra else []
      (.ok { TrustMarkType := spec.TrustMarkType
             TrustMarkJWT := jwt
             Extra := extra
             trustmark := some tm }, [tm])

/-- The function `NewTrustMarkOwner`. -/
def NewTrustMarkOwner (entityID : String) (signer : TrustMarkDelegationSigner)
    (ownedTrustMarks : List OwnedTrustMark) : TrustMarkOwner :=
  { EntityID := entityID
    TrustMarkDelegationSigner := signer
    ownedTrustMarks := some (ownedTrustMarks.foldl (fun m tms => m.assign tms.ID tms) []) }

/-- The method `TrustMarkOwner.AddTrustMark`: the owner after the call, or `none` for the
run-time panic of an assignment to an entry of the nil map. -/
def TrustMarkOwner.AddTrustMark (tmo : TrustMarkOwner) (spec : OwnedTrustMark) :
    Option TrustMarkOwner :=
  match tmo.ownedTrustMarks with
  | none => none
  | some m => some { tmo with ownedTrustMarks := some (m.assign spec.ID spec) }

/-- The method `TrustMarkOwner.DelegationJWT`; `lifetime` is the variadic argument. The second
component lists the delegations handed to the signer. The expiry is set when the configured
`DelegationLifetime` is not zero, as the source tests it, and is then `now + lf`. -/
def TrustMarkOwner.DelegationJWT (env : Env) (tmo : TrustMarkOwner)
    (trustMarkType sub : String) (lifetime : List time.Duration) :
    Except Error String × List oidfed.DelegationJWT :=
  match GoMap.index tmo.ownedTrustMarks trustMarkType with
  | none => (.error (errUnknownTrustMark trustMarkType), [])
  | some spec =>
    let now := env.now
    let delegation : oidfed.DelegationJWT :=
      { Issuer := tmo.EntityID
        Subject := sub
        TrustMarkType := spec.ID
        IssuedAt := now
        Ref := spec.Ref
        Extra := spec.Extra }
    let lf : time.Duration :=
      match lifetime with
      | [] => spec.DelegationLifetime
      | lifetime0 :: _ => lifetime0
    let delegation : oidfed.DelegationJWT :=
      if spec.DelegationLifetime ≠ 0 then { delegation with ExpiresAt := some (now + lf) }
      else delegation
    (tmo.TrustMarkDelegationSigner.JWT delegation, [delegation])

/-- The method `TrustMarkIssuer.TrustMarkTypes`. Go ranges over a map in an order it does not
specify; here the keys come in the order of the entries, and the nil map has none. -/
def TrustMarkIssuer.TrustMarkTypes (tmi : TrustMarkIssuer) : List String :=
  match tmi.trustMarks with
  | none => []
  | some trustMarks => trustMarks.foldl (fun trustMarkTypes e => trustMarkTypes ++ [e.1]) []

/-- Successive calls of `TrustMarkIssuer.AddTrustMark`, one for each spec in order: the issuer
after the calls, or `none` when a call panics. -/
def TrustMarkIssuer.AddTrustMarks :
    TrustMarkIssuer → List TrustMarkSpec → Option TrustMarkIssuer
  | tmi, [] => some tmi
  | tmi, spec :: rest =>
    match tmi.AddTrustMark spec with
    | none => none
    | some tmi1 => TrustMarkIssuer.AddTrustMarks tmi1 rest

/-- Successive calls of `TrustMarkOwner.AddTrustMark`, one for each entry in order: the owner
after the calls, or `none` when a call panics. -/
def TrustMarkOwner.AddTrustMarks :
    TrustMarkOwner → List OwnedTrustMark → Option TrustMarkOwner
  | tmo, [] => some tmo
  | tmo, spec :: rest =>
    match tmo.AddTrustMark spec with
    | none => none
    | some tmo1 => TrustMarkOwner.AddTrustMarks tmo1 rest

/-- The registry of an issuer is in order: it is not nil and every key is the type of the spec
stored under it. It holds for every issuer built by `NewTrustMarkIssuer`, and `AddTrustMark`
keeps it. -/
def TrustMarkIssuer.registryOK (tmi : TrustMarkIssuer) : Prop :=
  tmi.trustMarks ≠ none ∧
    ∀ k spec, GoMap.index tmi.trustMarks k = some spec → spec.TrustMarkType = k

/-- The registry of an owner is in order: it is not nil and every key is the id of the entry
stored under it. It holds for every owner built by `NewTrustMarkOwner`, and `AddTrustMark`
keeps it. -/
def TrustMarkOwner.registryOK (tmo : TrustMarkOwner) : Prop :=
  tmo.ownedTrustMarks ≠ none ∧
    ∀ k spec, GoMap.index tmo.ownedTrustMarks k = some spec → spec.ID = k

/-! ## Lists of infos, and the parses the lazy caches make -/

/-- The type `TrustMarkInfos`, a slice of `TrustMarkInfo`. -/
abbrev TrustMarkInfos := List TrustMarkInfo

/-- The method `TrustMarkInfos.VerifiedFederation`. Each element is copied into the loop
variable, verified there, and the copy after its verification is appended when there is no
error. -/
def TrustMarkInfos.VerifiedFederation (env : Env) (tms : TrustMarkInfos)
    (ta : EntityStatementPayload) : TrustMarkInfos :=
  tms.foldl
    (fun verified tm =>
      match tm.VerifyFederation env ta with
      | (none, tm) => verified ++ [tm]
      | (some _, _) => verified)
    []

/-- The method `TrustMarkInfos.VerifiedExternal`. -/
def TrustMarkInfos.VerifiedExternal (env : Env) (tms : TrustMarkInfos) (jwks : jwks.JWKS)
    (tmo : List TrustMarkOwnerSpec) : TrustMarkInfos :=
  tms.foldl
    (fun verified tm =>
      match tm.VerifyExternal env jwks tmo with
      | (none, tm) => verified ++ [tm]
      | (some _, _) => verified)
    []

/-- The method `TrustMarkInfos.Find`: `none` is the nil pointer. -/
def TrustMarkInfos.Find (tms : TrustMarkInfos) (matcher : TrustMarkInfo → Bool) :
    Option TrustMarkInfo :=
  match tms with
  | [] => none
  | tm :: rest => if matcher tm then some tm else TrustMarkInfos.Find rest matcher

/-- The method `TrustMarkInfos.FindByID`. -/
def TrustMarkInfos.FindByID (tms : TrustMarkInfos) (id : String) : Option TrustMarkInfo :=
  TrustMarkInfos.Find tms (fun info => info.TrustMarkType == id)

/-- The tokens one call of `TrustMark.Delegation` hands to `parseDelegationJWT`: the embedded
token when nothing is cached and the token is not empty, and nothing otherwise. -/
def TrustMark.DelegationParses (tm : TrustMark) : List String :=
  match tm.delegation with
  | some _ => []
  | none => if tm.DelegationJWT = "" then [] else [tm.DelegationJWT]

/-- The tokens one call of `TrustMarkInfo.TrustMark` hands to `ParseTrustMark`: the raw token
when no mark with a parsed message is cached, and nothing otherwise. -/
def TrustMarkInfo.TrustMarkParses (tm : TrustMarkInfo) : List String :=
  match tm.trustmark with
  | none => [tm.TrustMarkJWT]
  | some t =>
    match t.jwtMsg with
    | none => [tm.TrustMarkJWT]
    | some _ => []

/-- The outcome of `n` successive calls of `TrustMarkInfo.TrustMark` on one info: the results
of the calls, the tokens handed to `ParseTrustMark`, both in the order of the calls, and the
info after the calls. -/
def TrustMarkInfo.TrustMarkTimes (env : Env) :
    Nat → TrustMarkInfo → List (Except Error oidfed.TrustMark) × List String × TrustMarkInfo
  | 0, tm => ([], [], tm)
  | n + 1, tm =>
    match TrustMarkInfo.TrustMarkTimes env n (tm.TrustMark env).2 with
    | (results, parses, tm1) =>
      ((tm.TrustMark env).1 :: results, tm.TrustMarkParses ++ parses, tm1)

/-! ## The JSON form of an info -/

/-- The fixed schema of a `TrustMarkInfo`, as `json.Marshal` writes it by the tags of the
struct: `trust_mark_type` and `trust_mark`, both strings; `Extra` and the cached mark are left
out. -/
def TrustMarkInfo.explicitFields (tm : TrustMarkInfo) : JSONValue :=
  JSONValue.object
    [("trust_mark_type", JSONValue.string tm.TrustMarkType),
     ("trust_mark", JSONValue.string tm.TrustMarkJWT)]

/-- Modelled from the spec: the helper `extraMarshalHelper`, which is not among the sources.
Section 6: the extra fields are merged into the object of the fixed schema at the same top
level, not nested. An entry is assigned as in a map. -/
def extraMarshalHelper (explicitFields : JSONValue) (extra : Extra) : Except Error JSONValue :=
  match explicitFields with
  | JSONValue.object kvs =>
    .ok (JSONValue.object (extra.foldl (fun m kv => GoMap.assign m kv.1 kv.2) kvs))
  | _ => .error (Error.msg "json: cannot unmarshal into Go value of type map")

/-- Modelled from the spec: the decoding of one string field of the fixed schema within
`unmarshalWithExtra`, which is not among the sources: a field that is absent or null leaves the
target as it is, a string sets it, another value is an error. -/
def decodeStringField (kvs : GoMap JSONValue) (key : String) (current : String) :
    Except Error String :=
  match kvs.lookup key with
  | none => .ok current
  | some JSONValue.null => .ok current
  | some (JSONValue.string s) => .ok s
  | some _ => .error (Error.msg ("json: cannot unmarshal field " ++ key ++ " into string"))

/-- Modelled from the spec: the helper `unmarshalWithExtra`, which is not among the sources,
at a `TrustMarkInfo` target. Section 6: the fields of the fixed schema are decoded into the
target, and the fields that are not part of it are returned as the extra fields. -/
def unmarshalWithExtraInfo (data : JSONValue) (target : TrustMarkInfo) :
    Except Error (TrustMarkInfo × Extra) :=
  match data with
  | JSONValue.object kvs =>
    match decodeStringField kvs "trust_mark_type" target.TrustMarkType with
    | .error err => .error err
    | .ok trustMarkType =>
      match decodeStringField kvs "trust_mark" target.TrustMarkJWT with
      | .error err => .error err
      | .ok trustMarkJWT =>
        .ok ({ target with TrustMarkType := trustMarkType, TrustMarkJWT := trustMarkJWT },
          kvs.filter (fun kv => kv.1 != "trust_mark_type" && kv.1 != "trust_mark"))
  | _ => .error (Error.msg "json: cannot unmarshal into Go value of type oidfed.trustMarkInfo")

/-- The method `TrustMarkInfo.MarshalJSON`; the JSON text is kept as the JSON value it
denotes. -/
def TrustMarkInfo.MarshalJSON (tm : TrustMarkInfo) : Except Error JSONValue :=
  extraMarshalHelper tm.explicitFields tm.Extra

/-- The method `TrustMarkInfo.UnmarshalJSON`: the receiver after the call. Decoding writes the
exported fields only, so the cached mark stays the one of the receiver. -/
def TrustMarkInfo.UnmarshalJSON (tm : TrustMarkInfo) (data : JSONValue) :
    Except Error TrustMarkInfo :=
  match unmarshalWithExtraInfo data tm with
  | .error err => .error err
  | .ok (tmi, extra) => .ok { tmi with Extra := extra, trustmark := tm.trustmark }

/-! ## Trust anchors -/

/-- The struct `TrustAnchor`. -/
structure TrustAnchor where
  EntityID : String := ""
  JWKS : jwks.JWKS := {}
deriving DecidableEq, Repr

/-- The type `TrustAnchors`, a slice of `TrustAnchor`. -/
abbrev TrustAnchors := List TrustAnchor

/-- The method `TrustAnchors.EntityIDs`. -/
def TrustAnchors.EntityIDs (anchors : TrustAnchors) : List String :=
  anchors.foldl (fun entityIDs ta => entityIDs ++ [ta.EntityID]) []

/-- The function `NewTrustAnchorsFromEntityIDs`; `anchorIDs` is the variadic argument. -/
def NewTrustAnchorsFromEntityIDs (anchorIDs : List String) : TrustAnchors :=
  anchorIDs.foldl (fun anchors id => anchors ++ [{ EntityID := id }]) []

/-! ## Federation entities -/

/-- The value of an integer as an `int64`: Go arithmetic wraps around. -/
def int64 (x : Int) : Int := (x + 2 ^ 63) % 2 ^ 64 - 2 ^ 63

namespace time

/-- The constant `time.Second`: a `time.Duration` counts nanoseconds. -/
def Second : Duration := 1000000000

end time

/-- The signing capability `EntityStatementSigner` (declared outside the sources): its methods
`JWKS` and `JWT`. -/
structure EntityStatementSigner where
  JWKS : jwks.JWKS
  JWT : EntityStatementPayload → Except Error String

/-- The struct `EntityConfigurationTrustMarkConfig` (declared outside the sources): its field
`TrustMarkType` and what its method `TrustMarkJWT` returns. -/
structure EntityConfigurationTrustMarkConfig where
  TrustMarkType : String := ""
  TrustMarkJWT : Except Error String

/-- The struct `FederationEntity`. -/
structure FederationEntity where
  EntityID : String
  Metadata : Option Metadata
  AuthorityHints : List String
  ConfigurationLifetime : Int
  EntityStatementSigner : EntityStatementSigner
  jwks : jwks.JWKS
  TrustMarks : List EntityConfigurationTrustMarkConfig := []
  TrustMarkIssuers : Option (GoMap (List String)) := none
  TrustMarkOwners : GoMap TrustMarkOwnerSpec := []
  Extra : Extra := []

/-- The function `NewFederationEntity`; `configurationLifetime` is an `int64`. -/
def NewFederationEntity (env : Env) (entityID : String) (authorityHints : List String)
    (metadata : Option Metadata) (signer : EntityStatementSigner) (configurationLifetime : Int)
    (extra : Extra) : Except Error FederationEntity :=
  let configurationLifetime :=
    if configurationLifetime ≤ 0 then env.defaultEntityConfigurationLifetime
    else configurationLifetime
  .ok { EntityID := entityID
        Metadata := metadata
        AuthorityHints := authorityHints
        EntityStatementSigner := signer
        ConfigurationLifetime := configurationLifetime
        jwks := signer.JWKS
        Extra := extra }

/-- The method `FederationEntity.EntityConfigurationPayload`. The product
`time.Second * time.Duration(f.ConfigurationLifetime)` is an `int64` product; the time is
counted in nanoseconds. A trust mark whose token cannot be had is logged and left out. -/
def FederationEntity.EntityConfigurationPayload (env : Env) (f : FederationEntity) :
    EntityStatementPayload :=
  let now := env.now
  let tms : List TrustMarkInfo :=
    f.TrustMarks.foldl
      (fun tms tmc =>
        match tmc.TrustMarkJWT with
        | .error _ => tms
        | .ok tm => tms ++ [{ TrustMarkType := tmc.TrustMarkType, TrustMarkJWT := tm }])
      []
  { Issuer := f.EntityID
    Subject := f.EntityID
    IssuedAt := now
    ExpiresAt := now + int64 (time.Second * f.ConfigurationLifetime)
    JWKS := f.jwks
    AuthorityHints := f.AuthorityHints
    Metadata := f.Metadata
    TrustMarks := tms
    TrustMarkIssuers := f.TrustMarkIssuers
    TrustMarkOwners := f.TrustMarkOwners
    Extra := f.Extra }

/-! ## The generator of the metadata structs (`internal/generators/metadata.go`) -/

namespace ast

/-- A field type expression of `go/ast`, by the cases that `fieldTypeAsString` tells apart; the
operand of a selector is given as the text that `%s` prints for it. -/
inductive Expr where
  | Ident (Name : String)
  | SelectorExpr (X : String) (Sel : String)
  | StarExpr (X : Expr)
  | ArrayType (Elt : Expr)
  | MapType (Key : Expr) (Value : Expr)
  | other

/-- A field declaration `ast.Field`: its names, its type and the text of its tag, if it has
one. -/
structure Field where
  Names : List String
  Typ : Expr
  Tag : Option String := none

/-- A struct type `ast.StructType`, with the list of its field declarations. -/
structure StructType where
  Fields : List Field

end ast

namespace strings

/-- Whether a text, given by its characters, holds another one as a run of characters. -/
def containsChars : List Char → List Char → Bool
  | [], substr => substr.isPrefixOf []
  | c :: s, substr => substr.isPrefixOf (c :: s) || containsChars s substr

/-- The library function `strings.Contains`. -/
def Contains (s substr : String) : Bool := containsChars s.toList substr.toList

end strings

/-- The function `fieldTypeAsString`. -/
def fieldTypeAsString : ast.Expr → String
  | .Ident Name => Name
  | .SelectorExpr X Sel => X ++ "." ++ Sel
  | .StarExpr X => "*" ++ fieldTypeAsString X
  | .ArrayType Elt => "[]" ++ fieldTypeAsString Elt
  | .MapType Key Value => "map[" ++ fieldTypeAsString Key ++ "]" ++ fieldTypeAsString Value
  | .other => ""

/-- The function `fieldTypeAsPtrString`. -/
def fieldTypeAsPtrString : ast.Expr → String
  | .Ident Name => "*" ++ Name
  | .SelectorExpr X Sel => X ++ "." ++ Sel
  | .StarExpr X => "*" ++ fieldTypeAsString X
  | .ArrayType Elt => "[]" ++ fieldTypeAsString Elt
  | .MapType Key Value => "map[" ++ fieldTypeAsString Key ++ "]" ++ fieldTypeAsString Value
  | .other => ""

/-- One field line that `generateCombinedStruct` writes to a builder: the indentation, the
name of the field, its type and its tag, if it has one. -/
structure FieldLine where
  Indent : String
  Name : String
  Typ : String
  Tag : Option String
deriving DecidableEq, Repr

/-- The text of a field line: indentation, name, blank, type, then a blank and the tag if
there is one, and the end of the line. -/
def FieldLine.text (l : FieldLine) : String :=
  l.Indent ++ l.Name ++ " " ++ l.Typ ++
    (match l.Tag with
     | some tag => " " ++ tag
     | none => "") ++ "\n"

/-- The body that both loops of `generateCombinedStruct` run for a field name: unless the name
was seen, it is marked as seen and a line is written to each of the two builders. The state is
`seenFields` and the lines of `builderForType` and of `builderForTypeWithPtrs`. -/
def writeField (field : ast.Field) (fieldName : String)
    (st : GoMap Bool × List FieldLine × List FieldLine) :
    GoMap Bool × List FieldLine × List FieldLine :=
  if !(st.1.lookup fieldName).getD false then
    (st.1.assign fieldName true,
      st.2.1 ++ [⟨"    ", fieldName, fieldTypeAsString field.Typ, field.Tag⟩],
      st.2.2 ++ [⟨"    ", fieldName, fieldTypeAsPtrString field.Typ, field.Tag⟩])
  else st

/-- The field lines that `generateCombinedStruct` writes to `builderForType` and to
`builderForTypeWithPtrs`: the fixed line of `wasSet` in the first, then the loop over the names
of the fields of struct A, then the loop over those of struct B, which for
`FederationEntityMetadata` passes over the names that contain `JWKS`. -/
def generateCombinedStructLines (newStructName : String) (structA structB : ast.StructType) :
    List FieldLine × List FieldLine :=
  let seenFields : GoMap Bool := []
  let builderForType : List FieldLine := [⟨"\t", "wasSet", "map[string]bool", none⟩]
  let builderForTypeWithPtrs : List FieldLine := []
  let st :=
    structA.Fields.foldl
      (fun st field =>
        field.Names.foldl (fun st fieldName => writeField field fieldName st) st)
      (seenFields, builderForType, builderForTypeWithPtrs)
  let st :=
    structB.Fields.foldl
      (fun st field =>
        field.Names.foldl
          (fun st fieldName =>
            if newStructName = "FederationEntityMetadata" && strings.Contains fieldName "JWKS"
            then st
            else writeField field fieldName st)
          st)
      st
  (st.2.1, st.2.2)

/-- The function `generateCombinedStruct`: the two struct declarations, each with its opening
line, its field lines and its closing line, and an empty line between them. -/
def generateCombinedStruct (newStructName withPtrName : String)
    (structA structB : ast.StructType) : String :=
  let lines := generateCombinedStructLines newStructName structA structB
  let builderForType :=
    "type " ++ newStructName ++ " struct \x7b\n" ++
      String.join (lines.1.map FieldLine.text) ++ "\x7d\n"
  let builderForTypeWithPtrs :=
    "type " ++ withPtrName ++ " struct \x7b\n" ++
      String.join (lines.2.map FieldLine.text) ++ "\x7d\n"
  builderForType ++ "\n" ++ builderForTypeWithPtrs

/-! ## Cache invariants -/

/-- The delegation cache of a mark agrees with its embedded token: a cached delegation is the
parse of the (non-empty) token. It holds for every mark returned by `ParseTrustMark`, whose
cache is empty, and the methods keep it. -/
def TrustMark.cacheOK (env : Env) (tm : TrustMark) : Prop :=
  ∀ d, tm.delegation = some d →
    tm.DelegationJWT ≠ "" ∧ parseDelegationJWT env tm.DelegationJWT = .ok d

/-- The mark cache of an info agrees with its raw token: a cached mark with a parsed message is
the parse of the token, up to the delegation cache of the mark. It holds for an info without
cached mark and for one whose cached mark has no parsed message, and the methods keep it. -/
def TrustMarkInfo.cacheOK (env : Env) (tm : TrustMarkInfo) : Prop :=
  ∀ t, tm.trustmark = some t → t.jwtMsg ≠ none →
    ParseTrustMark env tm.TrustMarkJWT = .ok { t with delegation := none }

/-! ## A concrete federation

One anchor, one issuer, one owner and a handful of tokens, on which the statements below are
evaluated. -/

namespace demo

/-- The tokens: trust marks are signed by the issuer, delegations by the owner. -/
def Parse (raw : String) : Except Error jwx.ParsedJWT :=
  if raw = "mark.jws" then .ok ⟨raw, some "trust-mark+jwt", "mark.json"⟩
  else if raw = "plain.jws" then .ok ⟨raw, some "trust-mark+jwt", "plain.json"⟩
  else if raw = "mark2.jws" then .ok ⟨raw, some "trust-mark+jwt", "mark2.json"⟩
  else if raw = "mark3.jws" then .ok ⟨raw, some "trust-mark+jwt", "mark3.json"⟩
  else if raw = "foreign.jws" then .ok ⟨raw, some "trust-mark+jwt", "foreign.json"⟩
  else if raw = "grant.jws" then .ok ⟨raw, some "trust-mark-delegation+jwt", "grant.json"⟩
  else if raw = "grant2.jws" then .ok ⟨raw, some "trust-mark-delegation+jwt", "grant2.json"⟩
  else if raw = "grant3.jws" then .ok ⟨raw, some "trust-mark-delegation+jwt", "grant3.json"⟩
  else .error (Error.msg "invalid compact serialization")

/-- The key that signed a token: the owner signs the delegations, issuer2 the token
`foreign.jws`, issuer1 the other trust marks. -/
def signer (p : jwx.ParsedJWT) : String :=
  if p.typ = some "trust-mark-delegation+jwt" then "owner-key"
  else if p.RawJWT = "foreign.jws" then "issuer2-key"
  else "issuer1-key"

/-- A signature verifies when the key set holds the key of the signer. -/
def VerifyWithSet (m : Option jwx.ParsedJWT) (keys : jwks.JWKS) : Option Error :=
  match m with
  | none => some (Error.msg "missing message")
  | some p =>
    if keys.keys.contains (signer p) then none else some (Error.msg "could not verify")

/-- The payloads of the trust marks. -/
def unmarshalTrustMark (data : String) (into : TrustMark) : Except Error (TrustMark × Extra) :=
  if data = "mark.json" then
    .ok ({ into with Issuer := "https://issuer1", Subject := "https://sub.example",
                     TrustMarkType := "badge-A", IssuedAt := 100, ExpiresAt := some 3700,
                     DelegationJWT := "grant.jws" }, [])
  else if data = "plain.json" then
    .ok ({ into with Issuer := "https://issuer1", Subject := "https://sub.example",
                     TrustMarkType := "badge-A", IssuedAt := 100, ExpiresAt := some 3700 }, [])
  else if data = "mark2.json" then
    .ok ({ into with Issuer := "https://issuer1", Subject := "https://sub.example",
                     TrustMarkType := "badge-A", IssuedAt := 100, ExpiresAt := some 3700,
                     DelegationJWT := "grant2.jws" }, [])
  else if data = "mark3.json" then
    .ok ({ into with Issuer := "https://issuer1", Subject := "https://sub.example",
                     TrustMarkType := "badge-A", IssuedAt := 100, ExpiresAt := some 3700,
                     DelegationJWT := "grant3.jws" }, [])
  else if data = "foreign.json" then
    .ok ({ into with Issuer := "https://issuer2", Subject := "https://sub.example",
                     TrustMarkType := "badge-A", IssuedAt := 100, ExpiresAt := some 3700 }, [])
  else .error (Error.msg "unexpected end of JSON input")

/-- The payloads of the delegations: `grant` is for issuer1 and badge-A, `grant2` names
another subject, `grant3` another subject and another type. -/
def unmarshalDelegationJWT (data : String) (into : DelegationJWT) :
    Except Error (DelegationJWT × Extra) :=
  if data = "grant.json" then
    .ok ({ into with Issuer := "https://owner", Subject := "https://issuer1",
                     TrustMarkType := "badge-A", IssuedAt := 50 }, [])
  else if data = "grant2.json" then
    .ok ({ into with Issuer := "https://owner", Subject := "https://issuer2",
                     TrustMarkType := "badge-A", IssuedAt := 50 }, [])
  else if data = "grant3.json" then
    .ok ({ into with Issuer := "https://owner", Subject := "https://issuer2",
                     TrustMarkType := "badge-B", IssuedAt := 50 }, [])
  else .error (Error.msg "unexpected end of JSON input")

/-- The resolver: a one-element chain for issuer1, an empty chain for issuer2. -/
def resolve (req : ResolveRequest) : Except Error ResolveResponsePayload :=
  if req.Subject = "https://issuer1" then .ok { TrustChain := [⟨"issuer1.statement"⟩] }
  else if req.Subject = "https://issuer2" then .ok { TrustChain := [] }
  else .error (Error.msg "no trust chain")

/-- The entity statements. -/
def ParseEntityStatement (raw : String) : Except Error (Option EntityStatement) :=
  if raw = "issuer1.statement" then .ok (some { JWKS := { keys := ["issuer1-key"] } })
  else .error (Error.msg "invalid compact serialization")

/-- The entity configurations. -/
def GetEntityConfiguration (subject : String) : Except Error (Option EntityStatement) :=
  if subject = "https://issuer2" then .ok (some { JWKS := { keys := ["issuer2-key"] } })
  else .error (Error.msg "could not fetch")

/-- The environment of the concrete federation, at time 1000, with a default entity
configuration lifetime of one day. -/
def env : Env where
  now := 1000
  JWTTypeTrustMark := "trust-mark+jwt"
  JWTTypeTrustMarkDelegation := "trust-mark-delegation+jwt"
  Parse := Parse
  VerifyWithSet := VerifyWithSet
  unmarshalTrustMark := unmarshalTrustMark
  unmarshalDelegationJWT := unmarshalDelegationJWT
  DefaultMetadataResolver := MetadataResolver.default resolve
  ParseEntityStatement := ParseEntityStatement
  GetEntityConfiguration := GetEntityConfiguration
  defaultEntityConfigurationLifetime := 86400

/-- The key set of issuer1. -/
def issuerKeys : jwks.JWKS := { keys := ["issuer1-key"] }

/-- The owner of badge-A. -/
def owner : TrustMarkOwnerSpec := { ID := "https://owner", JWKS := { keys := ["owner-key"] } }

/-- The message of a trust mark token. -/
def markMsg (raw payload : String) : jwx.ParsedJWT := ⟨raw, some "trust-mark+jwt", payload⟩

/-- The parse of `mark.jws`: a badge-A mark of issuer1 embedding `grant.jws`. -/
def mark : TrustMark :=
  { Issuer := "https://issuer1", Subject := "https://sub.example", TrustMarkType := "badge-A",
    IssuedAt := 100, ExpiresAt := some 3700, DelegationJWT := "grant.jws",
    jwtMsg := some (markMsg "mark.jws" "mark.json") }

/-- The parse of `plain.jws`: a badge-A mark of issuer1 without delegation. -/
def plain : TrustMark :=
  { Issuer := "https://issuer1", Subject := "https://sub.example", TrustMarkType := "badge-A",
    IssuedAt := 100, ExpiresAt := some 3700,
    jwtMsg := some (markMsg "plain.jws" "plain.json") }

/-- The parse of `mark2.jws`, which embeds `grant2.jws`. -/
def mark2 : TrustMark :=
  { mark with DelegationJWT := "grant2.jws", jwtMsg := some (markMsg "mark2.jws" "mark2.json") }

/-- The parse of `mark3.jws`, which embeds `grant3.jws`. -/
def mark3 : TrustMark :=
  { mark with DelegationJWT := "grant3.jws", jwtMsg := some (markMsg "mark3.jws" "mark3.json") }

/-- The parse of `foreign.jws`: a badge-A mark of issuer2 without delegation. -/
def foreign : TrustMark :=
  { plain with Issuer := "https://issuer2",
               jwtMsg := some (markMsg "foreign.jws" "foreign.json") }

/-- The key set of issuer2. -/
def issuer2Keys : jwks.JWKS := { keys := ["issuer2-key"] }

/-- The message of a delegation token. -/
def grantMsg (raw payload : String) : jwx.ParsedJWT :=
  ⟨raw, some "trust-mark-delegation+jwt", payload⟩

/-- The parse of `grant.jws`: the owner delegates badge-A to issuer1. -/
def grant : DelegationJWT :=
  { Issuer := "https://owner", Subject := "https://issuer1", TrustMarkType := "badge-A",
    IssuedAt := 50, jwtMsg := some (grantMsg "grant.jws" "grant.json") }

/-- The parse of `grant2.jws`: the owner delegates badge-A to issuer2. -/
def grant2 : DelegationJWT :=
  { grant with Subject := "https://issuer2",
               jwtMsg := some (grantMsg "grant2.jws" "grant2.json") }

/-- The parse of `grant3.jws`: the owner delegates badge-B to issuer2. -/
def grant3 : DelegationJWT :=
  { grant2 with TrustMarkType := "badge-B",
                jwtMsg := some (grantMsg "grant3.jws" "grant3.json") }

/-- The anchor without owners: issuer1 may issue badge-A, which nobody owns. -/
def anchorNoOwner : EntityStatementPayload :=
  { Subject := "https://ta", JWKS := { keys := ["ta-key"] },
    TrustMarkIssuers := some [("badge-A", ["https://issuer1"])] }

/-- An info announcing badge-B around the badge-A token `mark.jws`. -/
def mislabelled : TrustMarkInfo := { TrustMarkType := "badge-B", TrustMarkJWT := "mark.jws" }

/-- An info announcing badge-A around the badge-A token `mark.jws`. -/
def labelled : TrustMarkInfo := { TrustMarkType := "badge-A", TrustMarkJWT := "mark.jws" }

/-- A payload decoder that accepts every payload. -/
def acceptTrustMark (_ : String) (into : TrustMark) : Except Error (TrustMark × Extra) :=
  .ok (into, [])

/-- A payload decoder that accepts every payload. -/
def acceptDelegationJWT (_ : String) (into : DelegationJWT) :
    Except Error (DelegationJWT × Extra) :=
  .ok (into, [])

/-- The anchor: issuer1 may issue badge-A, which the owner owns. -/
def anchor : EntityStatementPayload :=
  { Subject := "https://ta", JWKS := { keys := ["ta-key"] },
    TrustMarkIssuers := some [("badge-A", ["https://issuer1"])],
    TrustMarkOwners := [("badge-A", owner)] }

/-- The environment of the concrete federation at another time. -/
def envAt (t : unixtime.Unixtime) : Env := { env with now := t }

/-- The signer of issuer1: the token `mark.jws` for a mark with an embedded delegation, the
token `plain.jws` for one without. -/
def markSigner : TrustMarkSigner :=
  ⟨fun tm => if tm.DelegationJWT = "" then .ok "plain.jws" else .ok "mark.jws"⟩

/-- The spec of badge-A: one hour (3600 ticks), extra claims kept out of the info. -/
def badgeA : TrustMarkSpec :=
  { TrustMarkType := "badge-A", Lifetime := { Duration := 3600 },
    Extra := [("assurance", JSONValue.string "high")] }

/-- The spec of badge-B: no expiry, extra claims copied to the info, and an embedded delegation
that is no token at all. -/
def badgeB : TrustMarkSpec :=
  { TrustMarkType := "badge-B", Ref := "https://ref.example/b",
    LogoURI := "https://logo.example/b", Extra := [("assurance", JSONValue.string "low")],
    IncludeExtraClaimsInInfo := true, DelegationJWT := "not a token" }

/-- An earlier spec of badge-A, of ten ticks. -/
def badgeAOld : TrustMarkSpec := { TrustMarkType := "badge-A", Lifetime := { Duration := 10 } }

/-- The issuer issuer1, configured for badge-A (twice) and badge-B. -/
def issuer : TrustMarkIssuer :=
  NewTrustMarkIssuer "https://issuer1" markSigner [badgeAOld, badgeB, badgeA]

/-- The signer of the owner: the token `grant.jws`. -/
def delegationSigner : TrustMarkDelegationSigner := ⟨fun _ => .ok "grant.jws"⟩

/-- The entry of badge-A at the owner: delegations without expiry. -/
def ownedA : OwnedTrustMark := { ID := "badge-A", Ref := "https://ref.example/a" }

/-- The entry of badge-B at the owner: delegations of one hour. -/
def ownedB : OwnedTrustMark := { ID := "badge-B", DelegationLifetime := 3600 }

/-- The owner entity, which owns badge-A and badge-B. -/
def ownerEntity : TrustMarkOwner :=
  NewTrustMarkOwner "https://owner" delegationSigner [ownedA, ownedB]

/-- An issuer that `NewTrustMarkIssuer` did not build: its registry is the nil map. -/
def bareIssuer : TrustMarkIssuer :=
  { EntityID := "https://issuer1", TrustMarkSigner := markSigner, trustMarks := none }

/-- A resolver that always fails. -/
def failingResolver : MetadataResolver :=
  MetadataResolver.default (fun _ => .error (Error.msg "no trust chain"))

/-- An environment whose resolver returns, for issuer3, a chain whose first element does not
parse. -/
def envBrokenChain : Env :=
  { env with
    DefaultMetadataResolver :=
      MetadataResolver.default (fun _ => .ok { TrustChain := [⟨"garbage"⟩] }) }

/-- An info around a token that does not parse. -/
def broken : TrustMarkInfo := { TrustMarkType := "badge-A", TrustMarkJWT := "garbage" }

/-- An info around the token `plain.jws`, of a mark without delegation. -/
def plainInfo : TrustMarkInfo := { TrustMarkType := "badge-A", TrustMarkJWT := "plain.jws" }

/-- An info around the token `mark3.jws`, whose embedded delegation is for another issuer and
type. -/
def info3 : TrustMarkInfo := { TrustMarkType := "badge-A", TrustMarkJWT := "mark3.jws" }

/-- The anchor with an empty list of issuers for badge-A. -/
def anchorNobody : EntityStatementPayload :=
  { Subject := "https://issuer1", JWKS := issuerKeys,
    TrustMarkIssuers := some [("badge-A", [])] }

/-- The delegation `grant` with an issuedAt after the time 1000 of the environment. -/
def grantEarly : DelegationJWT := { grant with IssuedAt := 2000 }

/-- An info with two extra fields. -/
def richInfo : TrustMarkInfo :=
  { TrustMarkType := "badge-A", TrustMarkJWT := "mark.jws",
    Extra := [("assurance", JSONValue.string "high"), ("level", JSONValue.number 3)] }

/-- The signer of entity statements of issuer1. -/
def statementSigner : EntityStatementSigner :=
  { JWKS := issuerKeys, JWT := fun _ => .ok "issuer1.statement" }

/-- The delegation `grant` with the issuer and the subject claims of somebody else. -/
def grantForged : DelegationJWT :=
  { grant with Issuer := "https://mallory", Subject := "https://nobody" }

/-- A trust mark configuration whose token is at hand. -/
def configA : EntityConfigurationTrustMarkConfig :=
  { TrustMarkType := "badge-A", TrustMarkJWT := .ok "mark.jws" }

/-- A trust mark configuration whose token cannot be had. -/
def configFailing : EntityConfigurationTrustMarkConfig :=
  { TrustMarkType := "badge-C", TrustMarkJWT := .error (Error.msg "could not fetch") }

/-- A trust mark configuration whose token is at hand. -/
def configB : EntityConfigurationTrustMarkConfig :=
  { TrustMarkType := "badge-B", TrustMarkJWT := .ok "plain.jws" }

/-- The federation entity issuer1 with three configured trust marks, the second failing. -/
def entity : FederationEntity :=
  { EntityID := "https://issuer1", Metadata := none, AuthorityHints := ["https://ta"],
    ConfigurationLifetime := 3600, EntityStatementSigner := statementSigner,
    jwks := issuerKeys, TrustMarks := [configA, configFailing, configB] }

/-- The environment of the concrete federation with one more token, `old.jws`: a delegation
of the owner to issuer1 for badge-A that expired at 500, before the time 1000. -/
def envOld : Env :=
  { env with
    Parse := fun raw =>
      if raw = "old.jws" then .ok ⟨raw, some "trust-mark-delegation+jwt", "old.json"⟩
      else Parse raw
    unmarshalDelegationJWT := fun data into =>
      if data = "old.json" then
        .ok ({ into with Issuer := "https://owner", Subject := "https://issuer1",
                         TrustMarkType := "badge-A", IssuedAt := 50, ExpiresAt := some 500 }, [])
      else unmarshalDelegationJWT data into }

/-- A spec of badge-A of one hour that embeds the expired delegation `old.jws`. -/
def badgeAExpired : TrustMarkSpec :=
  { TrustMarkType := "badge-A", Lifetime := { Duration := 3600 }, DelegationJWT := "old.jws" }

/-- The issuer issuer1 configured with the spec that embeds the expired delegation. -/
def issuerExpired : TrustMarkIssuer :=
  NewTrustMarkIssuer "https://issuer1" markSigner [badgeAExpired]

/-- A field declaration with one name and a json tag. -/
def field (name : String) (typ : ast.Expr) (json : String) : ast.Field :=
  { Names := [name], Typ := typ, Tag := some ("\x60json:\"" ++ json ++ "\"\x60") }

/-- The struct `commonMetadata` of `metadata_input.go`, as the parser of Go reads it. -/
def commonMetadata : ast.StructType :=
  { Fields := [
      field "SignedJWKSURI" (.Ident "string") "signed_jwks_uri,omitempty",
      field "JWKSURI" (.Ident "string") "jwks_uri,omitempty",
      field "JWKS" (.StarExpr (.SelectorExpr "jwks" "JWKS")) "jwks,omitempty",
      field "DisplayName" (.Ident "string") "display_name,omitempty",
      field "Description" (.Ident "string") "description,omitempty",
      field "Keywords" (.ArrayType (.Ident "string")) "keywords,omitempty",
      field "Contacts" (.ArrayType (.Ident "string")) "contacts,omitempty",
      field "LogoURI" (.Ident "string") "logo_uri,omitempty",
      field "PolicyURI" (.Ident "string") "policy_uri,omitempty",
      field "InformationURI" (.Ident "string") "information_uri,omitempty",
      field "OrganizationName" (.Ident "string") "organization_name,omitempty",
      field "OrganizationURI" (.Ident "string") "organization_uri,omitempty" ] }

/-- The struct `openIDRelyingPartyMetadata` of `metadata_input.go`. -/
def openIDRelyingPartyMetadata : ast.StructType :=
  { Fields := [
      field "Scope" (.Ident "string") "scope,omitempty",
      field "RedirectURIS" (.ArrayType (.Ident "string")) "redirect_uris,omitempty",
      field "ResponseTypes" (.ArrayType (.Ident "string")) "response_types,omitempty",
      field "GrantTypes" (.ArrayType (.Ident "string")) "grant_types,omitempty",
      field "ApplicationType" (.Ident "string") "application_type,omitempty",
      field "Contacts" (.ArrayType (.Ident "string")) "contacts,omitempty",
      field "ClientName" (.Ident "string") "client_name,omitempty",
      field "LogoURI" (.Ident "string") "logo_uri,omitempty",
      field "ClientURI" (.Ident "string") "client_uri,omitempty",
      field "PolicyURI" (.Ident "string") "policy_uri,omitempty",
      field "TOSURI" (.Ident "string") "tos_uri,omitempty",
      field "SectorIdentifierURI" (.Ident "string") "sector_identifier_uri,omitempty",
      field "SubjectType" (.Ident "string") "subject_type,omitempty",
      field "IDTokenSignedResponseAlg" (.Ident "string") "id_token_signed_response_alg,omitempty",
      field "IDTokenEncryptedResponseAlg" (.Ident "string")
        "id_token_encrypted_response_alg,omitempty",
      field "IDTokenEncryptedResponseEnc" (.Ident "string")
        "id_token_encrypted_response_enc,omitempty",
      field "UserinfoSignedResponseAlg" (.Ident "string") "userinfo_signed_response_alg,omitempty",
      field "UserinfoEncryptedResponseAlg" (.Ident "string")
        "userinfo_encrypted_response_alg,omitempty",
      field "UserinfoEncryptedResponseEnc" (.Ident "string")
        "userinfo_encrypted_response_enc,omitempty",
      field "RequestSignedResponseAlg" (.Ident "string") "request_signed_response_alg,omitempty",
      field "RequestEncryptedResponseAlg" (.Ident "string")
        "request_encrypted_response_alg,omitempty",
      field "RequestEncryptedResponseEnc" (.Ident "string")
        "request_encrypted_response_enc,omitempty",
      field "TokenEndpointAuthMethod" (.Ident "string") "token_endpoint_auth_method,omitempty",
      field "TokenEndpointAuthSigningAlg" (.Ident "string")
        "token_endpoint_auth_signing_alg,omitempty",
      field "DefaultMaxAge" (.Ident "int64") "default_max_age,omitempty",
      field "RequireAuthTime" (.Ident "bool") "require_auth_time,omitempty",
      field "DefaultACRValues" (.ArrayType (.Ident "string")) "default_acr_values,omitempty",
      field "InitiateLoginURI" (.Ident "string") "initiate_login_uri,omitempty",
      field "RequestURIs" (.ArrayType (.Ident "string")) "request_uris,omitempty",
      field "SoftwareID" (.Ident "string") "software_id,omitempty",
      field "SoftwareVersion" (.Ident "string") "software_version,omitempty",
      field "ClientID" (.Ident "string") "client_id,omitempty",
      field "ClientSecret" (.Ident "string") "client_secret,omitempty",
      field "ClientIDIssuedAt" (.Ident "int64") "client_id_issued_at,omitempty",
      field "ClientSecretExpiresAt" (.Ident "int64") "client_secret_expires_at,omitempty",
      field "RegistrationAccessToken" (.Ident "string") "registration_access_token,omitempty",
      field "RegistrationClientURI" (.Ident "string") "registration_client_uri,omitempty",
      field "ClaimsRedirectURIs" (.ArrayType (.Ident "string")) "claims_redirect_uris,omitempty",
      field "NFVTokenSignedResponseAlg" (.Ident "string")
        "nfv_token_signed_response_alg,omitempty",
      field "NFVTokenEncryptedResponseAlg" (.Ident "string")
        "nfv_token_encrypted_response_alg,omitempty",
      field "NFVTokenEncryptedResponseEnc" (.Ident "string")
        "nfv_token_encrypted_response_enc,omitempty",
      field "TLSClientCertificateBoundAccessTokens" (.Ident "bool")
        "tls_client_certificate_bound_access_tokens,omitempty",
      field "TLSClientAuthSubjectDN" (.Ident "string") "tls_client_auth_subject_dn,omitempty",
      field "TLSClientAuthSANDNS" (.Ident "string") "tls_client_auth_san_dns,omitempty",
      field "TLSClientAuthSANURI" (.Ident "string") "tls_client_auth_san_uri,omitempty",
      field "TLSClientAuthSANIP" (.Ident "string") "tls_client_auth_san_ip,omitempty",
      field "TLSClientAuthSANEMAIL" (.Ident "string") "tls_client_auth_san_email,omitempty",
      field "RequireSignedRequestObject" (.Ident "bool") "require_signed_request_object,omitempty",
      field "RequirePushedAuthorizationRequests" (.Ident "bool")
        "require_pushed_authorization_requests,omitempty",
      field "IntrospectionSignedResponseAlg" (.Ident "string")
        "introspection_signed_response_alg,omitempty",
      field "IntrospectionEncryptedResponseAlg" (.Ident "string")
        "introspection_encrypted_response_alg,omitempty",
      field "IntrospectionEncryptedResponseEnc" (.Ident "string")
        "introspection_encrypted_response_enc,omitempty",
      field "FrontchannelLogoutURI" (.Ident "string") "frontchannel_logout_uri,omitempty",
      field "FrontchannelLogoutSessionRequired" (.Ident "bool")
        "frontchannel_logout_session_required,omitempty",
      field "BackchannelLogoutURI" (.Ident "string") "backchannel_logout_uri,omitempty",
      field "BackchannelLogoutSessionRequired" (.Ident "bool")
        "backchannel_logout_session_required,omitempty",
      field "PostLogoutRedirectURIs" (.ArrayType (.Ident "string"))
        "post_logout_redirect_uris,omitempty",
      field "AuthorizationDetailsTypes" (.ArrayType (.Ident "string"))
        "authorization_details_types,omitempty",
      field "ClientRegistrationTypes" (.ArrayType (.Ident "string")) "client_registration_types",
      field "Extra" (.MapType (.Ident "string") (.Ident "any")) "-" ] }

/-- The struct `federationEntityMetadata` of `metadata_input.go`. -/
def federationEntityMetadata : ast.StructType :=
  { Fields := [
      field "FederationFetchEndpoint" (.Ident "string") "federation_fetch_endpoint,omitempty",
      field "FederationListEndpoint" (.Ident "string") "federation_list_endpoint,omitempty",
      field "FederationResolveEndpoint" (.Ident "string") "federation_resolve_endpoint,omitempty",
      field "FederationTrustMarkStatusEndpoint" (.Ident "string")
        "federation_trust_mark_status_endpoint,omitempty",
      field "FederationTrustMarkListEndpoint" (.Ident "string")
        "federation_trust_mark_list_endpoint,omitempty",
      field "FederationTrustMarkEndpoint" (.Ident "string")
        "federation_trust_mark_endpoint,omitempty",
      field "FederationHistoricalLKeysEndpoint" (.Ident "string")
        "federation_historical_keys_endpoint,omitempty",
      field "Extra" (.MapType (.Ident "string") (.Ident "any")) "-" ] }

/-- A struct with a field of the name `wasSet`. -/
def structWasSet : ast.StructType :=
  { Fields := [{ Names := ["wasSet"], Typ := .Ident "bool" }] }

/-- A struct without fields. -/
def structEmpty : ast.StructType := { Fields := [] }

end demo

/-! ## Lemmas on parsing and the caches -/

/-- The method `TrustMark.UnmarshalJSON` keeps the unexported fields of its receiver. -/
theorem UnmarshalJSON_delegation {env : Env} {t0 t : TrustMark} {data : String}
    (h : t0.UnmarshalJSON env data = .ok t) :
    t.delegation = t0.delegation ∧ t.jwtMsg = t0.jwtMsg := by
  unfold TrustMark.UnmarshalJSON at h
  split at h
  · cases h
  · cases h
    exact ⟨rfl, rfl⟩

/-- A mark returned by `ParseTrustMark` carries the parsed message of its token, whose declared
type is the trust-mark type constant, and has an empty delegation cache. -/
theorem ParseTrustMark_ok {env : Env} {data : String} {t : TrustMark}
    (h : ParseTrustMark env data = .ok t) :
    ∃ m, env.Parse data = .ok m ∧ m.typ = some env.JWTTypeTrustMark ∧
      t.jwtMsg = some m ∧ t.delegation = none := by
  unfold ParseTrustMark at h
  split at h
  · cases h
  · rename_i m hm
    split at h
    · cases h
    · rename_i hty
      dsimp only at h
      split at h
      · cases h
      · rename_i t1 hu
        cases h
        have := UnmarshalJSON_delegation hu
        refine ⟨m, hm, ?_, this.2, this.1⟩
        simpa [jwx.ParsedJWT.VerifyType] using hty

/-- A delegation returned by `parseDelegationJWT` carries the parsed message of its token, whose
declared type is the delegation type constant. -/
theorem parseDelegationJWT_ok {env : Env} {data : String} {d : DelegationJWT}
    (h : parseDelegationJWT env data = .ok d) :
    ∃ m, env.Parse data = .ok m ∧ m.typ = some env.JWTTypeTrustMarkDelegation ∧
      d.jwtMsg = some m := by
  unfold parseDelegationJWT at h
  split at h
  · cases h
  · rename_i m hm
    split at h
    · cases h
    · rename_i hty
      dsimp only at h
      split at h
      · cases h
      · rename_i d1 hu
        cases h
        refine ⟨m, hm, ?_, ?_⟩
        · simpa [jwx.ParsedJWT.VerifyType] using hty
        · unfold DelegationJWT.UnmarshalJSON at hu
          split at hu
          · cases hu
          · cases hu
            rfl

/-- A mark returned by `ParseTrustMark` satisfies the cache invariant. -/
theorem ParseTrustMark_cacheOK {env : Env} {data : String} {t : TrustMark}
    (h : ParseTrustMark env data = .ok t) : t.cacheOK env := by
  obtain ⟨m, -, -, -, hd⟩ := ParseTrustMark_ok h
  intro d hc
  rw [hd] at hc
  cases hc

/-- Under the cache invariant `TrustMark.Delegation` returns the parse of the embedded token
(none for the empty token), and changes nothing but the cache. -/
theorem Delegation_of_cacheOK {env : Env} {tm : TrustMark} (h : tm.cacheOK env) :
    (tm.Delegation env).1 =
        (if tm.DelegationJWT = "" then .ok none
         else
          match parseDelegationJWT env tm.DelegationJWT with
          | .error err => .error err
          | .ok d => .ok (some d)) ∧
      (tm.Delegation env).2.TrustMarkType = tm.TrustMarkType ∧
      (tm.Delegation env).2.Issuer = tm.Issuer ∧
      (tm.Delegation env).2.cacheOK env := by
  unfold TrustMark.Delegation
  cases hc : tm.delegation with
  | some d =>
    obtain ⟨hne, hp⟩ := h d hc
    simp [hne, hp, TrustMark.cacheOK, hc]
  | none =>
    by_cases he : tm.DelegationJWT = ""
    · simp [he, TrustMark.cacheOK, hc]
    · cases hp : parseDelegationJWT env tm.DelegationJWT with
      | error err => simp [he, hp, TrustMark.cacheOK, hc]
      | ok d => simp [he, hp, TrustMark.cacheOK]


/-- Under the cache invariant, the error of `TrustMark.VerifyExternal` with an owner is a
function of the parse of the embedded token. -/
theorem VerifyExternal_owner_eq {env : Env} {m : TrustMark} (hm : m.cacheOK env)
    (K : jwks.JWKS) (o : TrustMarkOwnerSpec) (rest : List TrustMarkOwnerSpec) :
    (m.VerifyExternal env K (o :: rest)).1 =
      match unixtime.VerifyTime env.now m.IssuedAt m.ExpiresAt with
      | some err => some err
      | none =>
        match env.VerifyWithSet m.jwtMsg K with
        | some err => some (Error.wrap err "verify trustmark")
        | none =>
          if m.DelegationJWT = "" then
            some (errors.New "verify trustmark: no delegation jwt in trust mark")
          else
            match parseDelegationJWT env m.DelegationJWT with
            | .error err => some (Error.wrap err "verify trustmark: parsing delegation jwt")
            | .ok d =>
              if d.TrustMarkType ≠ m.TrustMarkType then
                some (errors.New "verify trustmark: delegation jwt not for this trust mark")
              else if d.Subject ≠ m.Issuer then
                some (errors.New
                  "verify trustmark: delegation jwt not for this trust mark issuer")
              else if d.Issuer ≠ o.ID then
                some (errors.New
                  "verify trustmark: delegation jwt not issued by trust mark owner")
              else d.VerifyExternal env o.JWKS := by
  obtain ⟨h1, h2, h3, -⟩ := Delegation_of_cacheOK hm
  unfold TrustMark.VerifyExternal
  cases unixtime.VerifyTime env.now m.IssuedAt m.ExpiresAt with
  | some err => rfl
  | none =>
    cases env.VerifyWithSet m.jwtMsg K with
    | some err => rfl
    | none =>
      rcases hD : m.Delegation env with ⟨r, m1⟩
      rw [hD] at h1 h2 h3
      simp only at h1 h2 h3
      subst h1
      by_cases he : m.DelegationJWT = ""
      · simp [he]
      · cases hp : parseDelegationJWT env m.DelegationJWT with
        | error err => simp [he, errors.Wrap]
        | ok d =>
          simp only [he, if_false, h2, h3]
          by_cases c1 : d.TrustMarkType = m.TrustMarkType
          · by_cases c2 : d.Subject = m.Issuer
            · by_cases c3 : d.Issuer = o.ID <;> simp [c1, c2, c3]
            · simp [c1, c2]
          · simp [c1]
/-- The method `DelegationJWT.VerifyExternal` succeeds exactly when the time window is valid and
the signature verifies. -/
theorem DelegationJWT_VerifyExternal_eq_none {env : Env} {d : DelegationJWT} {K : jwks.JWKS} :
    d.VerifyExternal env K = none ↔
      unixtime.VerifyTime env.now d.IssuedAt d.ExpiresAt = none ∧
        env.VerifyWithSet d.jwtMsg K = none := by
  unfold DelegationJWT.VerifyExternal
  cases unixtime.VerifyTime env.now d.IssuedAt d.ExpiresAt with
  | some err => simp [errors.Wrap]
  | none => cases env.VerifyWithSet d.jwtMsg K <;> simp [errors.Wrap]

/-- The allow-list check passes exactly when every issuer list the anchor declares for the
type of the mark holds the issuer of the mark. -/
theorem issuerAllowed_eq_none_iff {tm : TrustMark} {ta : EntityStatementPayload} :
    issuerAllowed tm ta = none ↔
      ∀ issuers tmis, ta.TrustMarkIssuers = some issuers →
        issuers.lookup tm.TrustMarkType = some tmis → tm.Issuer ∈ tmis := by
  unfold issuerAllowed
  cases h1 : ta.TrustMarkIssuers with
  | none => simp
  | some issuers =>
    cases h2 : issuers.lookup tm.TrustMarkType with
    | none =>
      simp only [h2, true_iff]
      intro issuers1 tmis e h
      cases e
      rw [h2] at h
      cases h
    | some tmis =>
      simp only [h2]
      by_cases h3 : tm.Issuer ∈ tmis
      · have hc : tmis.contains tm.Issuer = true := by simpa using h3
        simp only [hc, Bool.not_true, Bool.false_eq_true, if_false, true_iff]
        intro issuers1 tmis1 e h
        cases e
        rw [h2] at h
        cases h
        exact h3
      · have hc : tmis.contains tm.Issuer = false := by simpa using h3
        simp only [hc, Bool.not_false, if_true, false_iff, reduceCtorEq]
        intro h
        exact h3 (h issuers tmis rfl h2)

/-- Under the cache invariant `TrustMarkInfo.TrustMark` fails as the parse of the raw token
fails, and else returns a mark of the type of the parsed one, keeping the type of the info. -/
theorem TrustMark_of_cacheOK {env : Env} {info : TrustMarkInfo} (hc : info.cacheOK env) :
    (∀ e, ParseTrustMark env info.TrustMarkJWT = .error e →
        info.TrustMark env = (.error e, info)) ∧
      (∀ t0, ParseTrustMark env info.TrustMarkJWT = .ok t0 →
        ∃ t info1, info.TrustMark env = (.ok t, info1) ∧
          t.TrustMarkType = t0.TrustMarkType ∧ info1.TrustMarkType = info.TrustMarkType) := by
  unfold TrustMarkInfo.TrustMark
  cases hT : info.trustmark with
  | none =>
    refine ⟨fun e he => ?_, fun t0 h0 => ?_⟩
    · simp only [he]
    · simp only [h0]
      exact ⟨_, _, rfl, rfl, rfl⟩
  | some t =>
    cases hM : t.jwtMsg with
    | none =>
      refine ⟨fun e he => ?_, fun t0 h0 => ?_⟩
      · simp only [he, hM]
      · simp only [h0, hM]
        exact ⟨_, _, rfl, rfl, rfl⟩
    | some msg =>
      have hp := hc t hT (by rw [hM]; exact Option.some_ne_none msg)
      refine ⟨fun e he => ?_, fun t0 h0 => ?_⟩
      · rw [hp] at he
        cases he
      · rw [hp] at h0
        cases h0
        simp only [hM]
        exact ⟨t, info, rfl, rfl, rfl⟩

/-! ## The cache invariants are kept -/

/-- The method `TrustMark.Delegation` changes at most the delegation cache. -/
theorem Delegation_snd_erase (env : Env) (tm : TrustMark) :
    { (tm.Delegation env).2 with delegation := none } = { tm with delegation := none } := by
  unfold TrustMark.Delegation
  cases tm.delegation with
  | some d => rfl
  | none =>
    by_cases he : tm.DelegationJWT = ""
    · simp only [he, if_true]
    · cases parseDelegationJWT env tm.DelegationJWT <;> simp only [he, if_false]

/-- The receiver after `TrustMark.VerifyExternal` is the receiver, or the receiver after
`TrustMark.Delegation`. -/
theorem VerifyExternal_snd (env : Env) (tm : TrustMark) (K : jwks.JWKS)
    (tmo : List TrustMarkOwnerSpec) :
    (tm.VerifyExternal env K tmo).2 = tm ∨
      (tm.VerifyExternal env K tmo).2 = (tm.Delegation env).2 := by
  unfold TrustMark.VerifyExternal
  cases unixtime.VerifyTime env.now tm.IssuedAt tm.ExpiresAt with
  | some err => exact Or.inl rfl
  | none =>
    cases env.VerifyWithSet tm.jwtMsg K with
    | some err => exact Or.inl rfl
    | none =>
      cases tmo with
      | nil => exact Or.inl rfl
      | cons o rest =>
        right
        rcases hD : tm.Delegation env with ⟨r, m1⟩
        cases r with
        | error err => rfl
        | ok od =>
          cases od with
          | none => rfl
          | some d =>
            simp only
            split
            · rfl
            · split
              · rfl
              · split <;> rfl

/-- The method `TrustMark.VerifyExternal` keeps the cache invariant of the mark. -/
theorem VerifyExternal_cacheOK {env : Env} {tm : TrustMark} (h : tm.cacheOK env)
    (K : jwks.JWKS) (tmo : List TrustMarkOwnerSpec) :
    (tm.VerifyExternal env K tmo).2.cacheOK env := by
  rcases VerifyExternal_snd env tm K tmo with e | e
  · rw [e]; exact h
  · rw [e]; exact (Delegation_of_cacheOK h).2.2.2

/-- The method `TrustMark.VerifyExternal` changes at most the delegation cache. -/
theorem VerifyExternal_snd_erase (env : Env) (tm : TrustMark) (K : jwks.JWKS)
    (tmo : List TrustMarkOwnerSpec) :
    { (tm.VerifyExternal env K tmo).2 with delegation := none } =
      { tm with delegation := none } := by
  rcases VerifyExternal_snd env tm K tmo with e | e
  · rw [e]
  · rw [e]; exact Delegation_snd_erase env tm

/-- The receiver after `TrustMark.VerifyFederation` is the receiver, or the receiver after a
call of `TrustMark.VerifyExternal`. -/
theorem VerifyFederation_snd (env : Env) (tm : TrustMark) (ta : EntityStatementPayload) :
    (tm.VerifyFederation env ta).2 = tm ∨
      ∃ K tmo, (tm.VerifyFederation env ta).2 = (tm.VerifyExternal env K tmo).2 := by
  unfold TrustMark.VerifyFederation
  cases issuerAllowed tm ta with
  | some err => exact Or.inl rfl
  | none =>
    cases getTrustMarkIssuerJWKS env tm.Issuer ta with
    | error err => exact Or.inl rfl
    | ok K =>
      cases ta.TrustMarkOwners.lookup tm.TrustMarkType with
      | none => exact Or.inr ⟨K, [], rfl⟩
      | some o => exact Or.inr ⟨K, [o], rfl⟩

/-- The method `TrustMark.VerifyFederation` keeps the cache invariant of the mark. -/
theorem VerifyFederation_cacheOK {env : Env} {tm : TrustMark} (h : tm.cacheOK env)
    (ta : EntityStatementPayload) : (tm.VerifyFederation env ta).2.cacheOK env := by
  rcases VerifyFederation_snd env tm ta with e | ⟨K, tmo, e⟩
  · rw [e]; exact h
  · rw [e]; exact VerifyExternal_cacheOK h K tmo

/-- An info without cached mark satisfies the cache invariant. -/
theorem cacheOK_of_trustmark_none {env : Env} {info : TrustMarkInfo}
    (h : info.trustmark = none) : info.cacheOK env := by
  intro t ht
  rw [h] at ht
  cases ht

/-- An info whose cached mark has no parsed message, as `IssueTrustMark` builds it, satisfies
the cache invariant. -/
theorem cacheOK_of_jwtMsg_none {env : Env} {info : TrustMarkInfo} {t : TrustMark}
    (h : info.trustmark = some t) (hm : t.jwtMsg = none) : info.cacheOK env := by
  intro t1 ht hne
  rw [h] at ht
  cases ht
  exact absurd hm hne

/-- The method `TrustMarkInfo.TrustMark` keeps the cache invariant of the info, and the mark it
returns is the one the info caches afterwards. -/
theorem TrustMark_cacheOK {env : Env} {info : TrustMarkInfo} (hc : info.cacheOK env) :
    (info.TrustMark env).2.cacheOK env ∧
      (info.TrustMark env).2.TrustMarkJWT = info.TrustMarkJWT ∧
      ∀ t, (info.TrustMark env).1 = .ok t →
        (info.TrustMark env).2.trustmark = some t ∧ t.jwtMsg ≠ none := by
  unfold TrustMarkInfo.TrustMark
  have hparsed : ∀ t0, ParseTrustMark env info.TrustMarkJWT = .ok t0 →
      TrustMarkInfo.cacheOK env { info with trustmark := some t0 } ∧ t0.jwtMsg ≠ none := by
    intro t0 h0
    obtain ⟨m, -, -, hmsg, hd⟩ := ParseTrustMark_ok h0
    refine ⟨?_, by rw [hmsg]; exact Option.some_ne_none m⟩
    have e : ({ t0 with delegation := none } : TrustMark) = t0 := by
      cases t0
      cases hd
      rfl
    intro t ht _
    cases ht
    rw [e]
    exact h0
  cases hT : info.trustmark with
  | none =>
    cases hp : ParseTrustMark env info.TrustMarkJWT with
    | error e =>
      refine ⟨?_, rfl, ?_⟩
      · simpa using hc
      · intro t ht
        cases ht
    | ok t0 =>
      refine ⟨(hparsed t0 hp).1, rfl, ?_⟩
      intro t ht
      cases ht
      exact ⟨rfl, (hparsed t0 hp).2⟩
  | some t1 =>
    cases hM : t1.jwtMsg with
    | none =>
      cases hp : ParseTrustMark env info.TrustMarkJWT with
      | error e =>
        simp only [hM]
        refine ⟨hc, trivial, ?_⟩
        intro t ht
        cases ht
      | ok t0 =>
        simp only [hM]
        refine ⟨(hparsed t0 hp).1, trivial, ?_⟩
        intro t ht
        cases ht
        exact ⟨rfl, (hparsed t0 hp).2⟩
    | some msg =>
      simp only [hM]
      refine ⟨hc, trivial, ?_⟩
      intro t ht
      cases ht
      exact ⟨hT, by rw [hM]; exact Option.some_ne_none msg⟩

/-- The method `TrustMarkInfo.VerifyExternal` keeps the cache invariant of the info. -/
theorem TrustMarkInfo_VerifyExternal_cacheOK {env : Env} {info : TrustMarkInfo}
    (hc : info.cacheOK env) (K : jwks.JWKS) (tmo : List TrustMarkOwnerSpec) :
    (info.VerifyExternal env K tmo).2.cacheOK env := by
  obtain ⟨h1, h2, h3⟩ := TrustMark_cacheOK hc
  unfold TrustMarkInfo.VerifyExternal
  rcases hT : info.TrustMark env with ⟨r, info1⟩
  rw [hT] at h1 h2 h3
  cases r with
  | error err => exact h1
  | ok mark =>
    simp only
    split
    · exact h1
    · obtain ⟨hc1, hne⟩ := h3 mark rfl
      intro t ht hmsg
      cases ht
      rw [VerifyExternal_snd_erase]
      exact h1 mark hc1 hne

/-- The method `TrustMarkInfo.VerifyFederation` keeps the cache invariant of the info. -/
theorem TrustMarkInfo_VerifyFederation_cacheOK {env : Env} {info : TrustMarkInfo}
    (hc : info.cacheOK env) (ta : EntityStatementPayload) :
    (info.VerifyFederation env ta).2.cacheOK env := by
  obtain ⟨h1, h2, h3⟩ := TrustMark_cacheOK hc
  unfold TrustMarkInfo.VerifyFederation
  rcases hT : info.TrustMark env with ⟨r, info1⟩
  rw [hT] at h1 h2 h3
  cases r with
  | error err => exact h1
  | ok mark =>
    simp only
    split
    · exact h1
    · obtain ⟨hc1, hne⟩ := h3 mark rfl
      intro t ht hmsg
      cases ht
      have e : ({ (mark.VerifyFederation env ta).2 with delegation := none } : TrustMark) =
          { mark with delegation := none } := by
        rcases VerifyFederation_snd env mark ta with e | ⟨K, tmo, e⟩
        · rw [e]
        · rw [e]; exact VerifyExternal_snd_erase env mark K tmo
      rw [e]
      exact h1 mark hc1 hne

/-! ## Lemmas on the registries -/

/-- After `m[k] = v` the entry for `k` is `v`. -/
theorem lookup_assign_self {V : Type} (m : GoMap V) (k : String) (v : V) :
    (m.assign k v).lookup k = some v := by
  induction m with
  | nil => simp [GoMap.assign, List.lookup]
  | cons e rest ih =>
    obtain ⟨k1, v1⟩ := e
    by_cases h : k1 = k
    · simp [GoMap.assign, h, List.lookup]
    · have h2 : (k == k1) = false := by simpa using fun e => h e.symm
      simp [GoMap.assign, h, List.lookup, h2, ih]

/-- After `m[k] = v` the entry for another key is what it was. -/
theorem lookup_assign_ne {V : Type} (m : GoMap V) (k k2 : String) (v : V) (hne : k2 ≠ k) :
    (m.assign k v).lookup k2 = m.lookup k2 := by
  induction m with
  | nil =>
    have h2 : (k2 == k) = false := by simpa using hne
    simp [GoMap.assign, List.lookup, h2]
  | cons e rest ih =>
    obtain ⟨k1, v1⟩ := e
    by_cases h : k1 = k
    · subst h
      have h2 : (k2 == k1) = false := by simpa using hne
      simp [GoMap.assign, List.lookup, h2]
    · by_cases h3 : k2 = k1
      · subst h3
        simp [GoMap.assign, h, List.lookup]
      · have h2 : (k2 == k1) = false := by simpa using h3
        simp [GoMap.assign, h, List.lookup, h2, ih]

/-- Assignments under keys other than `k` leave the entry for `k` as it was. -/
theorem lookup_foldl_assign_ne {V : Type} (key : V → String) (k : String) (post : List V) :
    ∀ m : GoMap V, (∀ x ∈ post, key x ≠ k) →
      (post.foldl (fun m x => m.assign (key x) x) m).lookup k = m.lookup k := by
  induction post with
  | nil => intro m _; rfl
  | cons x rest ih =>
    intro m h
    rw [List.foldl_cons, ih _ (fun y hy => h y (List.mem_cons_of_mem _ hy))]
    exact lookup_assign_ne m (key x) k x (fun e => h x (List.mem_cons_self _ _) e.symm)

/-- Filling a map from a list keeps, for each key, the last element of the list with that
key. -/
theorem lookup_foldl_assign_last {V : Type} (key : V → String) (pre post : List V) (x : V)
    (m : GoMap V) (h : ∀ y ∈ post, key y ≠ key x) :
    ((pre ++ x :: post).foldl (fun m x => m.assign (key x) x) m).lookup (key x) = some x := by
  rw [List.foldl_append, List.foldl_cons, lookup_foldl_assign_ne key (key x) post _ h]
  exact lookup_assign_self _ _ _

/-- Filling a map from a list keeps the keys in order: when every entry of the map is stored
under its own key before, so it is after. -/
theorem lookup_foldl_assign_key {V : Type} (key : V → String) (xs : List V) :
    ∀ m : GoMap V, (∀ k v, m.lookup k = some v → key v = k) →
      ∀ k v, (xs.foldl (fun m x => m.assign (key x) x) m).lookup k = some v → key v = k := by
  induction xs with
  | nil => intro m h; exact h
  | cons x rest ih =>
    intro m h
    rw [List.foldl_cons]
    apply ih
    intro k v hv
    by_cases hk : k = key x
    · subst hk
      rw [lookup_assign_self] at hv
      cases hv
      rfl
    · rw [lookup_assign_ne _ _ _ _ hk] at hv
      exact h k v hv

/-- An issuer built by `NewTrustMarkIssuer` has its registry in order. -/
theorem NewTrustMarkIssuer_registryOK (entityID : String) (signer : TrustMarkSigner)
    (specs : List TrustMarkSpec) : (NewTrustMarkIssuer entityID signer specs).registryOK := by
  refine ⟨by simp [NewTrustMarkIssuer], ?_⟩
  intro k spec h
  exact lookup_foldl_assign_key (fun s : TrustMarkSpec => s.TrustMarkType) specs []
    (fun _ _ h0 => by cases h0) k spec h

/-- The method `TrustMarkIssuer.AddTrustMark` keeps the registry in order. -/
theorem AddTrustMark_registryOK {tmi : TrustMarkIssuer} (h : tmi.registryOK)
    (spec : TrustMarkSpec) :
    ∃ tmi1, tmi.AddTrustMark spec = some tmi1 ∧ tmi1.registryOK := by
  obtain ⟨hn, hk⟩ := h
  unfold TrustMarkIssuer.AddTrustMark
  cases hm : tmi.trustMarks with
  | none => exact absurd hm hn
  | some m =>
    refine ⟨_, rfl, by simp, ?_⟩
    intro k v hv
    simp only [GoMap.index] at hv
    by_cases hkk : k = spec.TrustMarkType
    · subst hkk
      rw [lookup_assign_self] at hv
      cases hv
      rfl
    · rw [lookup_assign_ne _ _ _ _ hkk] at hv
      apply hk
      rw [hm]
      exact hv

/-- An owner built by `NewTrustMarkOwner` has its registry in order. -/
theorem NewTrustMarkOwner_registryOK (entityID : String) (signer : TrustMarkDelegationSigner)
    (owned : List OwnedTrustMark) : (NewTrustMarkOwner entityID signer owned).registryOK := by
  refine ⟨by simp [NewTrustMarkOwner], ?_⟩
  intro k spec h
  exact lookup_foldl_assign_key (fun s : OwnedTrustMark => s.ID) owned []
    (fun _ _ h0 => by cases h0) k spec h

/-- The method `TrustMarkOwner.AddTrustMark` keeps the registry in order. -/
theorem Owner_AddTrustMark_registryOK {tmo : TrustMarkOwner} (h : tmo.registryOK)
    (spec : OwnedTrustMark) :
    ∃ tmo1, tmo.AddTrustMark spec = some tmo1 ∧ tmo1.registryOK := by
  obtain ⟨hn, hk⟩ := h
  unfold TrustMarkOwner.AddTrustMark
  cases hm : tmo.ownedTrustMarks with
  | none => exact absurd hm hn
  | some m =>
    refine ⟨_, rfl, by simp, ?_⟩
    intro k v hv
    simp only [GoMap.index] at hv
    by_cases hkk : k = spec.ID
    · subst hkk
      rw [lookup_assign_self] at hv
      cases hv
      rfl
    · rw [lookup_assign_ne _ _ _ _ hkk] at hv
      apply hk
      rw [hm]
      exact hv


/-- The function `getTrustMarkIssuerJWKS` for an issuer other than the anchor, by the answer of
the resolver to the one request it makes. -/
theorem getTrustMarkIssuerJWKS_eq (env : Env) (issuer : String) (ta : EntityStatementPayload)
    (hne : issuer ≠ ta.Subject) :
    getTrustMarkIssuerJWKS env issuer ta =
      match env.DefaultMetadataResolver.resolve
          { Subject := issuer, TrustAnchor := [ta.Subject] } with
      | .error err => .error (Error.wrap err "error while resolving trust mark issuer")
      | .ok res =>
        match (match res.TrustChain with
               | first :: _ => env.ParseEntityStatement first.RawJWT
               | [] => env.GetEntityConfiguration issuer) with
        | .error err =>
          .error (Error.wrap err "error while parsing trust mark issuer entity statement")
        | .ok none => .error (errors.New "no jwks found for trust mark issuer")
        | .ok (some tmi) =>
          if tmi.JWKS.Len = 0 then .error (errors.New "no jwks found for trust mark issuer")
          else .ok tmi.JWKS := by
  unfold getTrustMarkIssuerJWKS MetadataResolver.resolve
  simp only [hne, if_false]

/-- The payload `IssueTrustMark` hands to the signer for a configured type, and its result. -/
theorem IssueTrustMark_of_spec (env : Env) (tmi : TrustMarkIssuer) (t sub : String)
    (lifetime : List time.Duration) (spec : TrustMarkSpec)
    (h : GoMap.index tmi.trustMarks t = some spec) :
    ∃ tm : TrustMark,
      (tmi.IssueTrustMark env t sub lifetime).2 = [tm] ∧
      tm.Issuer = tmi.EntityID ∧ tm.Subject = sub ∧ tm.TrustMarkType = spec.TrustMarkType ∧
      tm.IssuedAt = env.now ∧ tm.LogoURI = spec.LogoURI ∧ tm.Ref = spec.Ref ∧
      tm.DelegationJWT = spec.DelegationJWT ∧ tm.Extra = spec.Extra ∧
      tm.jwtMsg = none ∧ tm.delegation = none ∧
      tm.ExpiresAt =
        (if lifetime.headD spec.Lifetime.Duration = 0 then none
         else some (env.now + lifetime.headD spec.Lifetime.Duration)) ∧
      (tmi.IssueTrustMark env t sub lifetime).1 =
        (match tmi.TrustMarkSigner.JWT tm with
         | .error err => .error err
         | .ok jwt =>
           .ok { TrustMarkType := spec.TrustMarkType
                 TrustMarkJWT := jwt
                 Extra := if spec.IncludeExtraClaimsInInfo then spec.Extra else []
                 trustmark := some tm }) := by
  unfold TrustMarkIssuer.IssueTrustMark
  simp only [h]
  have hl : (match lifetime with
             | [] => spec.Lifetime.Duration
             | lifetime0 :: _ => lifetime0) = lifetime.headD spec.Lifetime.Duration := by
    cases lifetime <;> rfl
  rw [hl]
  by_cases h0 : lifetime.headD spec.Lifetime.Duration = 0
  · simp only [h0, ne_eq, not_true_eq_false, if_false, if_true]
    refine ⟨{ Issuer := tmi.EntityID, Subject := sub, TrustMarkType := spec.TrustMarkType,
              IssuedAt := env.now, LogoURI := spec.LogoURI, Ref := spec.Ref,
              DelegationJWT := spec.DelegationJWT, Extra := spec.Extra },
      ?_, rfl, rfl, rfl, rfl, rfl, rfl, rfl, rfl, rfl, rfl, rfl, ?_⟩
    · split <;> rfl
    · split <;> simp_all
  · simp only [h0, ne_eq, not_false_eq_true, if_true, if_false]
    refine ⟨{ Issuer := tmi.EntityID, Subject := sub, TrustMarkType := spec.TrustMarkType,
              IssuedAt := env.now, LogoURI := spec.LogoURI, Ref := spec.Ref,
              DelegationJWT := spec.DelegationJWT, Extra := spec.Extra,
              ExpiresAt := some (env.now + lifetime.headD spec.Lifetime.Duration) },
      ?_, rfl, rfl, rfl, rfl, rfl, rfl, rfl, rfl, rfl, rfl, rfl, ?_⟩
    · split <;> rfl
    · split <;> simp_all


/-- The delegation `TrustMarkOwner.DelegationJWT` hands to the signer for an owned type, and its
result. -/
theorem DelegationJWT_of_spec (env : Env) (tmo : TrustMarkOwner) (t sub : String)
    (lifetime : List time.Duration) (spec : OwnedTrustMark)
    (h : GoMap.index tmo.ownedTrustMarks t = some spec) :
    ∃ d : DelegationJWT,
      (tmo.DelegationJWT env t sub lifetime).2 = [d] ∧
      (tmo.DelegationJWT env t sub lifetime).1 = tmo.TrustMarkDelegationSigner.JWT d ∧
      d.Issuer = tmo.EntityID ∧ d.Subject = sub ∧ d.TrustMarkType = spec.ID ∧
      d.IssuedAt = env.now ∧ d.Ref = spec.Ref ∧ d.Extra = spec.Extra ∧
      d.ExpiresAt =
        (if spec.DelegationLifetime = 0 then none
         else some (env.now + lifetime.headD spec.DelegationLifetime)) := by
  unfold TrustMarkOwner.DelegationJWT
  simp only [h]
  have hl : (match lifetime with
             | [] => spec.DelegationLifetime
             | lifetime0 :: _ => lifetime0) = lifetime.headD spec.DelegationLifetime := by
    cases lifetime <;> rfl
  rw [hl]
  by_cases h0 : spec.DelegationLifetime = 0
  · simp only [h0, ne_eq, not_true_eq_false, if_false, if_true]
    exact ⟨_, rfl, rfl, rfl, rfl, rfl, rfl, rfl, rfl, rfl⟩
  · simp only [h0, ne_eq, not_false_eq_true, if_true, if_false]
    exact ⟨_, rfl, rfl, rfl, rfl, rfl, rfl, rfl, rfl, rfl⟩

/-! ## Lemmas on repeated calls, lists and JSON objects -/

/-- A mark that `TrustMarkInfo.TrustMark` returns is cached by the info afterwards and has a
parsed message. -/
theorem TrustMark_ok_cached {env : Env} {info : TrustMarkInfo} {t : TrustMark}
    (h : (info.TrustMark env).1 = .ok t) :
    (info.TrustMark env).2.trustmark = some t ∧ t.jwtMsg ≠ none := by
  have hparsed : ∀ t0, ParseTrustMark env info.TrustMarkJWT = .ok t0 → t0.jwtMsg ≠ none := by
    intro t0 h0
    obtain ⟨m, -, -, hmsg, -⟩ := ParseTrustMark_ok h0
    rw [hmsg]
    exact Option.some_ne_none m
  unfold TrustMarkInfo.TrustMark at h ⊢
  cases hT : info.trustmark with
  | none =>
    simp only [hT] at h ⊢
    cases hp : ParseTrustMark env info.TrustMarkJWT with
    | error e => simp only [hp] at h; cases h
    | ok t0 =>
      simp only [hp] at h ⊢
      cases h
      exact ⟨rfl, hparsed _ hp⟩
  | some t1 =>
    simp only [hT] at h ⊢
    cases hM : t1.jwtMsg with
    | none =>
      simp only [hM] at h ⊢
      cases hp : ParseTrustMark env info.TrustMarkJWT with
      | error e => simp only [hp] at h; cases h
      | ok t0 =>
        simp only [hp] at h ⊢
        cases h
        exact ⟨rfl, hparsed _ hp⟩
    | some msg =>
      simp only [hM] at h ⊢
      cases h
      exact ⟨hT, by rw [hM]; exact Option.some_ne_none msg⟩

/-- An info that caches a mark with a parsed message returns it, whatever the parser is, hands
nothing to the parser and stays as it is. -/
theorem TrustMark_of_cached {info : TrustMarkInfo} {t : TrustMark}
    (h : info.trustmark = some t) (hm : t.jwtMsg ≠ none) (env : Env) :
    info.TrustMark env = (.ok t, info) ∧ info.TrustMarkParses = [] := by
  unfold TrustMarkInfo.TrustMark TrustMarkInfo.TrustMarkParses
  cases hM : t.jwtMsg with
  | none => exact absurd hM hm
  | some msg => simp only [h, hM, and_self]

/-- A call of `TrustMarkInfo.TrustMark` that fails leaves the info as it was, and has handed
the raw token to the parser. -/
theorem TrustMark_error_unchanged {env : Env} {info : TrustMarkInfo} {e : Error}
    (h : (info.TrustMark env).1 = .error e) :
    (info.TrustMark env).2 = info ∧ info.TrustMarkParses = [info.TrustMarkJWT] := by
  unfold TrustMarkInfo.TrustMark TrustMarkInfo.TrustMarkParses at *
  cases hT : info.trustmark with
  | none =>
    simp only [hT] at h ⊢
    cases hp : ParseTrustMark env info.TrustMarkJWT with
    | error e1 => simp only [and_self]
    | ok t0 => simp only [hp] at h; cases h
  | some t1 =>
    simp only [hT] at h ⊢
    cases hM : t1.jwtMsg with
    | none =>
      simp only [hM] at h ⊢
      cases hp : ParseTrustMark env info.TrustMarkJWT with
      | error e1 => simp only [and_self]
      | ok t0 => simp only [hp] at h; cases h
    | some msg => simp only [hM] at h; cases h

/-- Successive calls on an info that caches a mark with a parsed message. -/
theorem TrustMarkTimes_of_cached {info : TrustMarkInfo} {t : TrustMark}
    (h : info.trustmark = some t) (hm : t.jwtMsg ≠ none) (env : Env) (n : Nat) :
    info.TrustMarkTimes env n = (List.replicate n (.ok t), [], info) := by
  induction n with
  | zero => rfl
  | succ n ih =>
    obtain ⟨h1, h2⟩ := TrustMark_of_cached h hm env
    unfold TrustMarkInfo.TrustMarkTimes
    rw [h1]
    simp only [ih, h2, List.replicate_succ, List.append_nil]

/-- Successive calls on an info whose call fails. -/
theorem TrustMarkTimes_of_error {env : Env} {info : TrustMarkInfo} {e : Error}
    (h : (info.TrustMark env).1 = .error e) (n : Nat) :
    info.TrustMarkTimes env n =
      (List.replicate n (.error e), List.replicate n info.TrustMarkJWT, info) := by
  induction n with
  | zero => rfl
  | succ n ih =>
    obtain ⟨h1, h2⟩ := TrustMark_error_unchanged h
    unfold TrustMarkInfo.TrustMarkTimes
    rw [h1, ih, h2, h]
    rfl

/-- A loop that appends the kept elements is a filter followed by a map. -/
theorem foldl_append_kept {α β : Type} (keep : α → Bool) (f : α → β) (xs : List α) :
    ∀ init : List β,
      xs.foldl (fun acc x => if keep x then acc ++ [f x] else acc) init =
        init ++ (xs.filter keep).map f := by
  induction xs with
  | nil => intro init; simp
  | cons x rest ih =>
    intro init
    rw [List.foldl_cons, ih]
    by_cases hk : keep x = true
    · simp [hk, List.filter_cons]
    · simp [hk, List.filter_cons]

/-- The method `TrustMarkInfo.TrustMark` leaves the exported fields of the info as they
were. -/
theorem TrustMark_snd_fields (env : Env) (info : TrustMarkInfo) :
    (info.TrustMark env).2.TrustMarkType = info.TrustMarkType ∧
      (info.TrustMark env).2.TrustMarkJWT = info.TrustMarkJWT ∧
      (info.TrustMark env).2.Extra = info.Extra := by
  unfold TrustMarkInfo.TrustMark
  cases hT : info.trustmark with
  | none =>
    simp only
    cases ParseTrustMark env info.TrustMarkJWT <;> exact ⟨rfl, rfl, rfl⟩
  | some t =>
    cases hM : t.jwtMsg with
    | none =>
      simp only [hM]
      cases ParseTrustMark env info.TrustMarkJWT <;> exact ⟨rfl, rfl, rfl⟩
    | some msg => simp only [hM, and_self]

/-- The method `TrustMarkInfo.VerifyExternal` leaves the exported fields of the info as they
were. -/
theorem TrustMarkInfo_VerifyExternal_fields (env : Env) (info : TrustMarkInfo)
    (K : jwks.JWKS) (tmo : List TrustMarkOwnerSpec) :
    (info.VerifyExternal env K tmo).2.TrustMarkType = info.TrustMarkType ∧
      (info.VerifyExternal env K tmo).2.TrustMarkJWT = info.TrustMarkJWT ∧
      (info.VerifyExternal env K tmo).2.Extra = info.Extra := by
  have hT := TrustMark_snd_fields env info
  unfold TrustMarkInfo.VerifyExternal
  rcases h : info.TrustMark env with ⟨r, info1⟩
  rw [h] at hT
  cases r with
  | error err => exact hT
  | ok mark =>
    simp only
    split
    · exact hT
    · exact hT

/-- The method `TrustMarkInfo.VerifyFederation` leaves the exported fields of the info as they
were. -/
theorem TrustMarkInfo_VerifyFederation_fields (env : Env) (info : TrustMarkInfo)
    (ta : EntityStatementPayload) :
    (info.VerifyFederation env ta).2.TrustMarkType = info.TrustMarkType ∧
      (info.VerifyFederation env ta).2.TrustMarkJWT = info.TrustMarkJWT ∧
      (info.VerifyFederation env ta).2.Extra = info.Extra := by
  have hT := TrustMark_snd_fields env info
  unfold TrustMarkInfo.VerifyFederation
  rcases h : info.TrustMark env with ⟨r, info1⟩
  rw [h] at hT
  cases r with
  | error err => exact hT
  | ok mark =>
    simp only
    split
    · exact hT
    · exact hT

/-- An assignment under a key that is not in the map adds the entry at the end. -/
theorem assign_of_not_mem {V : Type} (m : GoMap V) (k : String) (v : V)
    (h : ∀ e ∈ m, e.1 ≠ k) : m.assign k v = m ++ [(k, v)] := by
  induction m with
  | nil => rfl
  | cons e rest ih =>
    obtain ⟨k1, v1⟩ := e
    have h1 : k1 ≠ k := h (k1, v1) (List.mem_cons_self _ _)
    simp only [GoMap.assign, h1, if_false, List.cons_append]
    rw [ih (fun e he => h e (List.mem_cons_of_mem _ he))]

/-- Merging extra fields with distinct names, none of them in the object, adds them at the end
in their order. -/
theorem foldl_assign_append {V : Type} (extra : GoMap V) :
    ∀ base : GoMap V, (extra.map Prod.fst).Nodup →
      (∀ e ∈ extra, ∀ b ∈ base, b.1 ≠ e.1) →
      extra.foldl (fun m kv => GoMap.assign m kv.1 kv.2) base = base ++ extra := by
  induction extra with
  | nil => intro base _ _; simp
  | cons e rest ih =>
    intro base hnd hdis
    rw [List.foldl_cons, assign_of_not_mem base e.1 e.2 (hdis e (List.mem_cons_self _ _))]
    rw [List.map_cons, List.nodup_cons] at hnd
    rw [ih (base ++ [(e.1, e.2)]) hnd.2]
    · simp
    · intro e2 he2 b hb
      rcases List.mem_append.mp hb with hb | hb
      · exact hdis e2 (List.mem_cons_of_mem _ he2) b hb
      · rw [List.mem_singleton] at hb
        rw [hb]
        intro heq
        exact hnd.1 (List.mem_map.mpr ⟨e2, he2, heq.symm⟩)

/-- A loop that appends one element for each element of a list is a map. -/
theorem foldl_append_map {α β : Type} (f : α → β) (xs : List α) :
    ∀ init : List β, xs.foldl (fun acc x => acc ++ [f x]) init = init ++ xs.map f := by
  induction xs with
  | nil => intro init; simp
  | cons x rest ih =>
    intro init
    rw [List.foldl_cons, ih]
    simp

/-- The value of an integer in the range of `int64` is the integer. -/
theorem int64_of_range (x : Int) (h1 : -9223372036854775808 ≤ x)
    (h2 : x < 9223372036854775808) : int64 x = x := by
  unfold int64
  norm_num
  omega

/-! ## Lemmas on registry keys and on the signature check -/

/-- The keys of a map after `m[k] = v`: those it had, and `k` at the end when it is new. -/
theorem keys_assign {V : Type} (m : GoMap V) (k : String) (v : V) :
    (m.assign k v).map Prod.fst =
      if k ∈ m.map Prod.fst then m.map Prod.fst else m.map Prod.fst ++ [k] := by
  induction m with
  | nil => simp [GoMap.assign]
  | cons e rest ih =>
    obtain ⟨k1, v1⟩ := e
    by_cases h : k1 = k
    · subst h
      simp [GoMap.assign]
    · have h2 : ¬ k = k1 := fun e => h e.symm
      by_cases hin : k ∈ rest.map Prod.fst
      · simp only [GoMap.assign, h, if_false, List.map_cons, ih, hin, if_true,
          List.mem_cons, or_true]
      · simp only [GoMap.assign, h, if_false, List.map_cons, ih, hin, List.mem_cons, h2,
          or_self, List.cons_append]

/-- Filling a map whose keys are distinct keeps them distinct, and adds the keys of the
elements to those it had. -/
theorem keys_foldl_assign {V : Type} (key : V → String) (xs : List V) :
    ∀ m : GoMap V, (m.map Prod.fst).Nodup →
      ((xs.foldl (fun m x => m.assign (key x) x) m).map Prod.fst).Nodup ∧
        ∀ k, k ∈ (xs.foldl (fun m x => m.assign (key x) x) m).map Prod.fst ↔
          k ∈ m.map Prod.fst ∨ ∃ x ∈ xs, key x = k := by
  induction xs with
  | nil => intro m h; simpa using h
  | cons x rest ih =>
    intro m h
    rw [List.foldl_cons]
    have hnd : ((m.assign (key x) x).map Prod.fst).Nodup := by
      rw [keys_assign]
      by_cases hin : key x ∈ m.map Prod.fst
      · simpa [hin] using h
      · simp only [hin, if_false]
        refine List.Nodup.append h (List.nodup_singleton _) ?_
        intro a ha hb
        rw [List.mem_singleton] at hb
        exact hin (hb ▸ ha)
    obtain ⟨h1, h2⟩ := ih _ hnd
    refine ⟨h1, fun k => ?_⟩
    rw [h2, keys_assign]
    have hex : (∃ y ∈ x :: rest, key y = k) ↔ key x = k ∨ ∃ y ∈ rest, key y = k := by
      simp only [List.mem_cons, exists_eq_or_imp]
    rw [hex]
    by_cases hin : key x ∈ m.map Prod.fst
    · simp only [hin, if_true]
      constructor
      · rintro (h | h)
        · exact Or.inl h
        · exact Or.inr (Or.inr h)
      · rintro (h | h | h)
        · exact Or.inl h
        · exact Or.inl (h ▸ hin)
        · exact Or.inr h
    · simp only [hin, if_false, List.mem_append, List.mem_singleton]
      constructor
      · rintro ((h | h) | h)
        · exact Or.inl h
        · exact Or.inr (Or.inl h.symm)
        · exact Or.inr (Or.inr h)
      · rintro (h | h | h)
        · exact Or.inl (Or.inl h)
        · exact Or.inl (Or.inr h.symm)
        · exact Or.inr h

/-- The calls of `AddTrustMark` on an issuer whose registry is not nil do not panic, and fill
the registry in order. -/
theorem AddTrustMarks_eq (added : List TrustMarkSpec) :
    ∀ (tmi : TrustMarkIssuer) (m : GoMap TrustMarkSpec), tmi.trustMarks = some m →
      tmi.AddTrustMarks added =
        some { tmi with
               trustMarks := some (added.foldl (fun m s => m.assign s.TrustMarkType s) m) } := by
  induction added with
  | nil =>
    intro tmi m h
    unfold TrustMarkIssuer.AddTrustMarks
    rw [List.foldl_nil, ← h]
  | cons s rest ih =>
    intro tmi m h
    unfold TrustMarkIssuer.AddTrustMarks
    simp only [TrustMarkIssuer.AddTrustMark, h]
    rw [ih _ (m.assign s.TrustMarkType s) rfl]
    rfl

/-- The calls of `AddTrustMark` on an owner whose registry is not nil do not panic, and fill
the registry in order. -/
theorem Owner_AddTrustMarks_eq (added : List OwnedTrustMark) :
    ∀ (tmo : TrustMarkOwner) (m : GoMap OwnedTrustMark), tmo.ownedTrustMarks = some m →
      tmo.AddTrustMarks added =
        some { tmo with
               ownedTrustMarks := some (added.foldl (fun m s => m.assign s.ID s) m) } := by
  induction added with
  | nil =>
    intro tmo m h
    unfold TrustMarkOwner.AddTrustMarks
    rw [List.foldl_nil, ← h]
  | cons s rest ih =>
    intro tmo m h
    unfold TrustMarkOwner.AddTrustMarks
    simp only [TrustMarkOwner.AddTrustMark, h]
    rw [ih _ (m.assign s.ID s) rfl]
    rfl

/-- The types `TrustMarkTypes` lists are the keys of the registry. -/
theorem TrustMarkTypes_eq_keys (tmi : TrustMarkIssuer) (m : GoMap TrustMarkSpec)
    (h : tmi.trustMarks = some m) : tmi.TrustMarkTypes = m.map Prod.fst := by
  unfold TrustMarkIssuer.TrustMarkTypes
  rw [h]
  exact (foldl_append_map Prod.fst m []).trans (List.nil_append _)

/-- With each spec stored under its own type, a successful `IssueTrustMark(t, ...)` returns an
info of type `t` and has signed one mark, of type `t`. -/
theorem IssueTrustMark_type_of_keys {env : Env} {tmi : TrustMarkIssuer}
    {t sub : String} {lifetime : List time.Duration} {info : TrustMarkInfo}
    (hinfo : (tmi.IssueTrustMark env t sub lifetime).1 = .ok info)
    (hk : ∀ k spec, GoMap.index tmi.trustMarks k = some spec → spec.TrustMarkType = k) :
    info.TrustMarkType = t ∧
      ∃ tm, (tmi.IssueTrustMark env t sub lifetime).2 = [tm] ∧ tm.TrustMarkType = t := by
  cases hs : GoMap.index tmi.trustMarks t with
  | none =>
    unfold TrustMarkIssuer.IssueTrustMark at hinfo
    simp only [hs] at hinfo
    cases hinfo
  | some spec =>
    have hty : spec.TrustMarkType = t := hk t spec hs
    obtain ⟨tm, h2, -, -, h5, -, -, -, -, -, -, -, -, hres⟩ :=
      IssueTrustMark_of_spec env tmi t sub lifetime spec hs
    rw [hres] at hinfo
    refine ⟨?_, tm, h2, h5.trans hty⟩
    cases hj : tmi.TrustMarkSigner.JWT tm with
    | error e =>
      simp only [hj] at hinfo
      cases hinfo
    | ok jwt =>
      simp only [hj] at hinfo
      cases hinfo
      exact hty

/-- A delegation that `TrustMark.Delegation` returns for a mark with an empty cache carries a
parsed message. -/
theorem Delegation_msg_of_empty {env : Env} {p : TrustMark} (hd : p.delegation = none)
    {d : DelegationJWT} {p1 : TrustMark} (h : p.Delegation env = (.ok (some d), p1)) :
    d.jwtMsg ≠ none := by
  unfold TrustMark.Delegation at h
  simp only [hd] at h
  split at h
  · cases h
  · cases hp : parseDelegationJWT env p.DelegationJWT with
    | error e => simp only [hp] at h; cases h
    | ok d0 =>
      simp only [hp] at h
      cases h
      obtain ⟨m, -, -, hm⟩ := parseDelegationJWT_ok hp
      rw [hm]
      exact Option.some_ne_none m

/-- The verification of a delegation with a parsed message asks the signature check about a
message only. -/
theorem DelegationJWT_VerifyExternal_verifier {env : Env}
    {v2 : Option jwx.ParsedJWT → jwks.JWKS → Option Error}
    (hv : ∀ m K, v2 (some m) K = env.VerifyWithSet (some m) K)
    {d : DelegationJWT} (hd : d.jwtMsg ≠ none) (K : jwks.JWKS) :
    DelegationJWT.VerifyExternal { env with VerifyWithSet := v2 } d K =
      d.VerifyExternal env K := by
  obtain ⟨m, hm⟩ := Option.ne_none_iff_exists'.mp hd
  unfold DelegationJWT.VerifyExternal
  simp only [hm, hv]

/-- The verification of a mark with a parsed message and an empty delegation cache asks the
signature check about messages only: it is the same under every signature check that agrees
on the messages. -/
theorem VerifyExternal_verifier {env : Env}
    {v2 : Option jwx.ParsedJWT → jwks.JWKS → Option Error}
    (hv : ∀ m K, v2 (some m) K = env.VerifyWithSet (some m) K)
    {p : TrustMark} (hp : p.jwtMsg ≠ none) (hd : p.delegation = none)
    (K : jwks.JWKS) (tmo : List TrustMarkOwnerSpec) :
    p.VerifyExternal { env with VerifyWithSet := v2 } K tmo = p.VerifyExternal env K tmo := by
  obtain ⟨m, hm⟩ := Option.ne_none_iff_exists'.mp hp
  have hD : TrustMark.Delegation { env with VerifyWithSet := v2 } p = p.Delegation env := rfl
  unfold TrustMark.VerifyExternal
  rw [hD]
  simp only [hm, hv]
  cases unixtime.VerifyTime env.now p.IssuedAt p.ExpiresAt with
  | some err => rfl
  | none =>
    cases env.VerifyWithSet (some m) K with
    | some err => rfl
    | none =>
      cases tmo with
      | nil => rfl
      | cons tmo0 rest =>
        rcases hdl : p.Delegation env with ⟨r, p1⟩
        cases r with
        | error err => rfl
        | ok od =>
          cases od with
          | none => rfl
          | some d =>
            simp only
            rw [DelegationJWT_VerifyExternal_verifier hv (Delegation_msg_of_empty hd hdl)]

/-- The federation verification of a mark with a parsed message and an empty delegation cache
is the same under every signature check that agrees on the messages. -/
theorem VerifyFederation_verifier {env : Env}
    {v2 : Option jwx.ParsedJWT → jwks.JWKS → Option Error}
    (hv : ∀ m K, v2 (some m) K = env.VerifyWithSet (some m) K)
    {p : TrustMark} (hp : p.jwtMsg ≠ none) (hd : p.delegation = none)
    (ta : EntityStatementPayload) :
    p.VerifyFederation { env with VerifyWithSet := v2 } ta = p.VerifyFederation env ta := by
  have hJ : getTrustMarkIssuerJWKS { env with VerifyWithSet := v2 } p.Issuer ta =
      getTrustMarkIssuerJWKS env p.Issuer ta := rfl
  unfold TrustMark.VerifyFederation
  rw [hJ]
  cases issuerAllowed p ta with
  | some err => rfl
  | none =>
    cases getTrustMarkIssuerJWKS env p.Issuer ta with
    | error err => rfl
    | ok K =>
      cases ta.TrustMarkOwners.lookup p.TrustMarkType with
      | none => exact VerifyExternal_verifier hv hp hd K []
      | some tmo => exact VerifyExternal_verifier hv hp hd K [tmo]

/-- An info without a cached mark that has a parsed message parses its token. -/
theorem TrustMark_of_fresh (env : Env) {info : TrustMarkInfo}
    (hf : ∀ t, info.trustmark = some t → t.jwtMsg = none) :
    info.TrustMark env =
        (match ParseTrustMark env info.TrustMarkJWT with
         | .error err => (.error err, info)
         | .ok t => (.ok t, { info with trustmark := some t })) ∧
      info.TrustMarkParses = [info.TrustMarkJWT] := by
  unfold TrustMarkInfo.TrustMark TrustMarkInfo.TrustMarkParses
  cases hT : info.trustmark with
  | none => exact ⟨rfl, rfl⟩
  | some t =>
    have hm := hf t hT
    constructor
    · simp only [hm]
    · simp only [hm]

/-- The two verifications of an info without a cached mark that has a parsed message are the
same under every signature check that agrees on the messages. -/
theorem TrustMarkInfo_Verify_verifier {env : Env}
    {v2 : Option jwx.ParsedJWT → jwks.JWKS → Option Error}
    (hv : ∀ m K, v2 (some m) K = env.VerifyWithSet (some m) K)
    {info : TrustMarkInfo} (hf : ∀ t, info.trustmark = some t → t.jwtMsg = none) :
    (∀ K tmo, info.VerifyExternal { env with VerifyWithSet := v2 } K tmo =
        info.VerifyExternal env K tmo) ∧
      ∀ ta, info.VerifyFederation { env with VerifyWithSet := v2 } ta =
        info.VerifyFederation env ta := by
  have hT : TrustMarkInfo.TrustMark { env with VerifyWithSet := v2 } info = info.TrustMark env :=
    rfl
  have hP := (TrustMark_of_fresh env hf).1
  constructor
  · intro K tmo
    unfold TrustMarkInfo.VerifyExternal
    rw [hT, hP]
    cases hp : ParseTrustMark env info.TrustMarkJWT with
    | error err => rfl
    | ok p =>
      obtain ⟨m, -, -, hm, hd⟩ := ParseTrustMark_ok hp
      simp only
      rw [VerifyExternal_verifier hv (by rw [hm]; exact Option.some_ne_none m) hd]
  · intro ta
    unfold TrustMarkInfo.VerifyFederation
    rw [hT, hP]
    cases hp : ParseTrustMark env info.TrustMarkJWT with
    | error err => rfl
    | ok p =>
      obtain ⟨m, -, -, hm, hd⟩ := ParseTrustMark_ok hp
      simp only
      rw [VerifyFederation_verifier hv (by rw [hm]; exact Option.some_ne_none m) hd]

/-- An info that `IssueTrustMark` returns caches the mark handed to the signer, which has no
parsed message. -/
theorem IssueTrustMark_info_cache {env : Env} {tmi : TrustMarkIssuer} {t sub : String}
    {lifetime : List time.Duration} {info : TrustMarkInfo}
    (h : (tmi.IssueTrustMark env t sub lifetime).1 = .ok info) :
    ∃ tm, info.trustmark = some tm ∧ tm.jwtMsg = none ∧
      (tmi.IssueTrustMark env t sub lifetime).2 = [tm] := by
  cases hs : GoMap.index tmi.trustMarks t with
  | none =>
    unfold TrustMarkIssuer.IssueTrustMark at h
    simp only [hs] at h
    cases h
  | some spec =>
    obtain ⟨tm, h2, -, -, -, -, -, -, -, -, hmsg, -, -, hres⟩ :=
      IssueTrustMark_of_spec env tmi t sub lifetime spec hs
    rw [hres] at h
    cases hj : tmi.TrustMarkSigner.JWT tm with
    | error e =>
      simp only [hj] at h
      cases h
    | ok jwt =>
      simp only [hj] at h
      cases h
      exact ⟨tm, rfl, hmsg, h2⟩

/-! ## Lemmas on the generator -/

/-- The loop over the fields and, in it, the loop over their names is one loop over the pairs
of a field and one of its names. -/
theorem foldl_fields_names {σ : Type} (g : ast.Field → String → σ → σ)
    (fields : List ast.Field) :
    ∀ init : σ,
      fields.foldl
          (fun st field => field.Names.foldl (fun st fieldName => g field fieldName st) st)
          init =
        (fields.flatMap (fun field => field.Names.map (fun fieldName => (field, fieldName)))).foldl
          (fun st p => g p.1 p.2 st) init := by
  induction fields with
  | nil => intro init; rfl
  | cons f rest ih =>
    intro init
    rw [List.foldl_cons, List.flatMap_cons, List.foldl_append, List.foldl_map, ih]

/-- A loop that passes over some elements is the loop over the others. -/
theorem foldl_skip {σ α : Type} (skip : α → Bool) (g : α → σ → σ) (xs : List α) :
    ∀ init : σ,
      xs.foldl (fun st x => if skip x then st else g x st) init =
        (xs.filter (fun x => !skip x)).foldl (fun st x => g x st) init := by
  induction xs with
  | nil => intro init; rfl
  | cons x rest ih =>
    intro init
    rw [List.foldl_cons, ih]
    by_cases h : skip x = true
    · simp [h, List.filter_cons]
    · simp [h, List.filter_cons]

/-- The pairs of a field of a struct and one of its names. -/
theorem mem_fields_names (fields : List ast.Field) (p : ast.Field × String) :
    p ∈ fields.flatMap (fun field => field.Names.map (fun fieldName => (field, fieldName))) ↔
      p.1 ∈ fields ∧ p.2 ∈ p.1.Names := by
  obtain ⟨f, n⟩ := p
  simp only [List.mem_flatMap, List.mem_map, Prod.mk.injEq]
  constructor
  · rintro ⟨f1, hf1, n1, hn1, rfl, rfl⟩
    exact ⟨hf1, hn1⟩
  · rintro ⟨hf, hn⟩
    exact ⟨f, hf, n, hn, rfl, rfl⟩

/-- One run of the loop body keeps the names written to the second builder distinct and
marked as seen, and has the name among them afterwards: it was there and nothing is written,
or it was not and one line is written to each builder. -/
theorem writeField_inv (field : ast.Field) (fieldName : String)
    (st : GoMap Bool × List FieldLine × List FieldLine)
    (hnd : (st.2.2.map FieldLine.Name).Nodup)
    (hseen : ∀ n, (st.1.lookup n).getD false = true ↔ n ∈ st.2.2.map FieldLine.Name) :
    ((writeField field fieldName st).2.2.map FieldLine.Name).Nodup ∧
      (∀ n, ((writeField field fieldName st).1.lookup n).getD false = true ↔
        n ∈ (writeField field fieldName st).2.2.map FieldLine.Name) ∧
      ((fieldName ∈ st.2.2.map FieldLine.Name ∧ writeField field fieldName st = st) ∨
        (fieldName ∉ st.2.2.map FieldLine.Name ∧
          writeField field fieldName st =
            (st.1.assign fieldName true,
              st.2.1 ++ [⟨"    ", fieldName, fieldTypeAsString field.Typ, field.Tag⟩],
              st.2.2 ++ [⟨"    ", fieldName, fieldTypeAsPtrString field.Typ, field.Tag⟩]))) := by
  by_cases hin : fieldName ∈ st.2.2.map FieldLine.Name
  · have hs : (st.1.lookup fieldName).getD false = true := (hseen fieldName).mpr hin
    have hw : writeField field fieldName st = st := by
      unfold writeField
      simp only [hs, Bool.not_true, Bool.false_eq_true, if_false]
    rw [hw]
    exact ⟨hnd, hseen, Or.inl ⟨hin, rfl⟩⟩
  · have hs : (st.1.lookup fieldName).getD false = false := by
      cases h : (st.1.lookup fieldName).getD false with
      | false => rfl
      | true => exact absurd ((hseen fieldName).mp h) hin
    have hw : writeField field fieldName st =
        (st.1.assign fieldName true,
          st.2.1 ++ [⟨"    ", fieldName, fieldTypeAsString field.Typ, field.Tag⟩],
          st.2.2 ++ [⟨"    ", fieldName, fieldTypeAsPtrString field.Typ, field.Tag⟩]) := by
      unfold writeField
      simp only [hs, Bool.not_false, if_true]
    rw [hw]
    refine ⟨?_, ?_, Or.inr ⟨hin, rfl⟩⟩
    · simp only [List.map_append, List.map_cons, List.map_nil]
      refine List.Nodup.append hnd (List.nodup_singleton _) ?_
      intro a ha hb
      rw [List.mem_singleton] at hb
      exact hin (hb ▸ ha)
    · intro n
      simp only [List.map_append, List.map_cons, List.map_nil, List.mem_append,
        List.mem_singleton]
      by_cases hn : n = fieldName
      · subst hn
        rw [lookup_assign_self]
        simp
      · rw [lookup_assign_ne _ _ _ _ hn, hseen n]
        simp [hn]

/-- The loop body run over a list of pairs keeps the names written to the second builder
distinct and marked as seen; it writes, to the two builders, the lines of some of the pairs, in
order, and has the names of all the pairs among the names written afterwards. -/
theorem foldl_writeField_inv (ps : List (ast.Field × String)) :
    ∀ st : GoMap Bool × List FieldLine × List FieldLine,
      (st.2.2.map FieldLine.Name).Nodup →
      (∀ n, (st.1.lookup n).getD false = true ↔ n ∈ st.2.2.map FieldLine.Name) →
      (((ps.foldl (fun st p => writeField p.1 p.2 st) st).2.2.map FieldLine.Name).Nodup ∧
        (∀ n, ((ps.foldl (fun st p => writeField p.1 p.2 st) st).1.lookup n).getD false = true ↔
          n ∈ (ps.foldl (fun st p => writeField p.1 p.2 st) st).2.2.map FieldLine.Name) ∧
        ∃ ext : List (ast.Field × String),
          (∀ p ∈ ext, p ∈ ps) ∧
          (ps.foldl (fun st p => writeField p.1 p.2 st) st).2.1 =
            st.2.1 ++ ext.map (fun p => ⟨"    ", p.2, fieldTypeAsString p.1.Typ, p.1.Tag⟩) ∧
          (ps.foldl (fun st p => writeField p.1 p.2 st) st).2.2 =
            st.2.2 ++ ext.map (fun p => ⟨"    ", p.2, fieldTypeAsPtrString p.1.Typ, p.1.Tag⟩) ∧
          ∀ p ∈ ps, p.2 ∈ (ps.foldl (fun st p => writeField p.1 p.2 st) st).2.2.map
            FieldLine.Name) := by
  induction ps with
  | nil =>
    intro st hnd hseen
    exact ⟨hnd, hseen, [], fun _ h => h, by simp, by simp, fun _ h => by cases h⟩
  | cons p rest ih =>
    intro st hnd hseen
    rw [List.foldl_cons]
    obtain ⟨h1, h2, h3⟩ := writeField_inv p.1 p.2 st hnd hseen
    obtain ⟨g1, g2, ext, gsub, gb1, gb2, gall⟩ := ih (writeField p.1 p.2 st) h1 h2
    refine ⟨g1, g2, ?_⟩
    have hp : p.2 ∈ (rest.foldl (fun st p => writeField p.1 p.2 st)
        (writeField p.1 p.2 st)).2.2.map FieldLine.Name := by
      rw [gb2, List.map_append, List.mem_append]
      left
      rcases h3 with ⟨hin, hw⟩ | ⟨-, hw⟩
      · rw [hw]
        exact hin
      · rw [hw]
        simp
    have hcons : ∀ q ∈ p :: rest,
        q.2 ∈ (rest.foldl (fun st p => writeField p.1 p.2 st)
          (writeField p.1 p.2 st)).2.2.map FieldLine.Name := by
      intro q hq
      rcases List.mem_cons.mp hq with hq | hq
      · rw [hq]
        exact hp
      · exact gall q hq
    rcases h3 with ⟨-, hw⟩ | ⟨-, hw⟩
    · refine ⟨ext, fun q hq => List.mem_cons_of_mem _ (gsub q hq), ?_, ?_, hcons⟩
      · rw [gb1, hw]
      · rw [gb2, hw]
    · refine ⟨p :: ext, ?_, ?_, ?_, hcons⟩
      · intro q hq
        rcases List.mem_cons.mp hq with hq | hq
        · rw [hq]
          exact List.mem_cons_self _ _
        · exact List.mem_cons_of_mem _ (gsub q hq)
      · rw [gb1, hw]
        simp
      · rw [gb2, hw]
        simp

/-- A negated condition holds when the condition does not. -/
theorem not_eq_true_iff (b : Bool) : (!b) = true ↔ b = false := by
  cases b <;> decide

/-- The lines `generateCombinedStruct` writes: after the line of `wasSet` in the first builder,
both builders get the lines of the same pairs of a field and a name, first pairs of struct A,
then pairs of struct B that are not passed over and whose names struct A does not have; the
names of the pairs are distinct, and every name of struct A and every name of struct B that is
not passed over is among them. -/
theorem generateCombinedStructLines_eq (newStructName : String)
    (structA structB : ast.StructType) :
    ∃ extA extB : List (ast.Field × String),
      (∀ p ∈ extA, p.1 ∈ structA.Fields ∧ p.2 ∈ p.1.Names) ∧
      (∀ p ∈ extB, p.1 ∈ structB.Fields ∧ p.2 ∈ p.1.Names ∧
        (newStructName = "FederationEntityMetadata" && strings.Contains p.2 "JWKS") = false ∧
        ∀ f ∈ structA.Fields, p.2 ∉ f.Names) ∧
      (generateCombinedStructLines newStructName structA structB).1 =
        ⟨"\t", "wasSet", "map[string]bool", none⟩ ::
          (extA ++ extB).map (fun p => ⟨"    ", p.2, fieldTypeAsString p.1.Typ, p.1.Tag⟩) ∧
      (generateCombinedStructLines newStructName structA structB).2 =
        (extA ++ extB).map (fun p => ⟨"    ", p.2, fieldTypeAsPtrString p.1.Typ, p.1.Tag⟩) ∧
      ((extA ++ extB).map Prod.snd).Nodup ∧
      (∀ f ∈ structA.Fields, ∀ n ∈ f.Names, n ∈ extA.map Prod.snd) ∧
      ∀ f ∈ structB.Fields, ∀ n ∈ f.Names,
        (newStructName = "FederationEntityMetadata" && strings.Contains n "JWKS") = false →
        n ∈ (extA ++ extB).map Prod.snd := by
  have hname : ∀ ext : List (ast.Field × String),
      (ext.map (fun p => (⟨"    ", p.2, fieldTypeAsPtrString p.1.Typ, p.1.Tag⟩ : FieldLine))).map
        FieldLine.Name = ext.map Prod.snd := by
    intro ext
    rw [List.map_map]
    rfl
  obtain ⟨a1, a2, extA, asub, ab1, ab2, aall⟩ :=
    foldl_writeField_inv
      (structA.Fields.flatMap (fun field => field.Names.map (fun fieldName => (field, fieldName))))
      ([], [⟨"\t", "wasSet", "map[string]bool", none⟩], []) List.nodup_nil
      (fun n => by simp)
  obtain ⟨b1, -, extB, bsub, bb1, bb2, ball⟩ :=
    foldl_writeField_inv
      ((structB.Fields.flatMap
        (fun field => field.Names.map (fun fieldName => (field, fieldName)))).filter
          (fun p => !(newStructName = "FederationEntityMetadata" && strings.Contains p.2 "JWKS")))
      _ a1 a2
  have hL : generateCombinedStructLines newStructName structA structB =
      (([⟨"\t", "wasSet", "map[string]bool", none⟩] ++
          extA.map (fun p => ⟨"    ", p.2, fieldTypeAsString p.1.Typ, p.1.Tag⟩)) ++
        extB.map (fun p => ⟨"    ", p.2, fieldTypeAsString p.1.Typ, p.1.Tag⟩),
       ([] ++ extA.map (fun p => ⟨"    ", p.2, fieldTypeAsPtrString p.1.Typ, p.1.Tag⟩)) ++
        extB.map (fun p => ⟨"    ", p.2, fieldTypeAsPtrString p.1.Typ, p.1.Tag⟩)) := by
    unfold generateCombinedStructLines
    simp only
    rw [foldl_fields_names (fun field fieldName st => writeField field fieldName st),
      foldl_fields_names (fun field fieldName st =>
        if newStructName = "FederationEntityMetadata" && strings.Contains fieldName "JWKS"
        then st else writeField field fieldName st),
      foldl_skip (fun p : ast.Field × String =>
        newStructName = "FederationEntityMetadata" && strings.Contains p.2 "JWKS")
        (fun p st => writeField p.1 p.2 st)]
    rw [← ab1, ← ab2, ← bb1, ← bb2]
  rw [bb2, ab2, List.nil_append, ← List.map_append, hname] at b1
  have hA : ∀ f ∈ structA.Fields, ∀ n ∈ f.Names, n ∈ extA.map Prod.snd := by
    intro f hf n hn
    have := aall (f, n) ((mem_fields_names _ _).mpr ⟨hf, hn⟩)
    rw [ab2, List.nil_append, hname] at this
    exact this
  refine ⟨extA, extB, ?_, ?_, ?_, ?_, b1, hA, ?_⟩
  · intro p hp
    exact (mem_fields_names _ _).mp (asub p hp)
  · intro p hp
    have hmem := List.mem_filter.mp (bsub p hp)
    obtain ⟨hf, hn⟩ := (mem_fields_names _ _).mp hmem.1
    refine ⟨hf, hn, (not_eq_true_iff _).mp hmem.2, ?_⟩
    intro f hfA hnA
    have hdis := (List.nodup_append.mp (by rw [List.map_append] at b1; exact b1)).2.2
    exact hdis (hA f hfA p.2 hnA) (List.mem_map.mpr ⟨p, hp, rfl⟩)
  · rw [hL]
    simp
  · rw [hL]
    simp
  · intro f hf n hn hskip
    have := ball (f, n) (List.mem_filter.mpr ⟨(mem_fields_names _ _).mpr ⟨hf, hn⟩,
      (not_eq_true_iff _).mpr hskip⟩)
    rw [bb2, ab2, List.nil_append, ← List.map_append, hname] at this
    exact this

/-! ## The claims -/

/-- C1: for a parsed trust mark `m` (its delegation cache agrees with its embedded token), a key
set `K` and an owner `o`, `TrustMark.VerifyExternal(K, o)` returns no error if and only if the
time window of `m` is valid, its signature verifies against `K`, its embedded delegation token
is non-empty and parses as a delegation-typed JWT `d`, the type of `d` is the type of `m`, the
subject of `d` is the issuer of `m`, the issuer of `d` is the id of `o`, the time window of `d`
is valid and the signature of `d` verifies against the keys of `o`. -/
theorem C1_VerifyExternal_owner_iff (env : Env) (m : TrustMark) (K : jwks.JWKS)
    (o : TrustMarkOwnerSpec) (hm : m.cacheOK env) :
    (m.VerifyExternal env K [o]).1 = none ↔
      unixtime.VerifyTime env.now m.IssuedAt m.ExpiresAt = none ∧
      env.VerifyWithSet m.jwtMsg K = none ∧
      m.DelegationJWT ≠ "" ∧
      ∃ d msg, parseDelegationJWT env m.DelegationJWT = .ok d ∧
        d.jwtMsg = some msg ∧ msg.typ = some env.JWTTypeTrustMarkDelegation ∧
        d.TrustMarkType = m.TrustMarkType ∧ d.Subject = m.Issuer ∧ d.Issuer = o.ID ∧
        unixtime.VerifyTime env.now d.IssuedAt d.ExpiresAt = none ∧
        env.VerifyWithSet d.jwtMsg o.JWKS = none := by
  rw [VerifyExternal_owner_eq hm K o []]
  cases unixtime.VerifyTime env.now m.IssuedAt m.ExpiresAt with
  | some err => simp
  | none =>
    cases env.VerifyWithSet m.jwtMsg K with
    | some err => simp
    | none =>
      by_cases he : m.DelegationJWT = ""
      · simp [he]
      · cases hp : parseDelegationJWT env m.DelegationJWT with
        | error err => simp [he]
        | ok d =>
          obtain ⟨msg, -, hty, hmsg⟩ := parseDelegationJWT_ok hp
          by_cases c1 : d.TrustMarkType = m.TrustMarkType
          · by_cases c2 : d.Subject = m.Issuer
            · by_cases c3 : d.Issuer = o.ID
              · simp only [he, c1, c2, c3, not_true_eq_false, if_false, ne_eq, not_false_eq_true,
                  true_and, DelegationJWT_VerifyExternal_eq_none]
                constructor
                · rintro ⟨h1, h2⟩
                  exact ⟨d, msg, rfl, hmsg, hty, c1, c2, c3, h1, h2⟩
                · rintro ⟨d1, msg1, hd, -, -, -, -, -, h1, h2⟩
                  cases hd
                  exact ⟨h1, h2⟩
              · simp only [he, c1, c2, c3, not_true_eq_false, if_false, ne_eq,
                  not_false_eq_true, if_true, true_and]
                constructor
                · intro h; cases h
                · rintro ⟨d1, msg1, hd, -, -, -, -, h3, -⟩
                  cases hd
                  exact absurd h3 c3
            · simp only [he, c1, c2, not_true_eq_false, if_false, ne_eq,
                not_false_eq_true, if_true, true_and]
              constructor
              · intro h; cases h
              · rintro ⟨d1, msg1, hd, -, -, -, h3, -⟩
                cases hd
                exact absurd h3 c2
          · simp only [he, c1, ne_eq, not_false_eq_true, if_true, true_and]
            constructor
            · intro h; cases h
            · rintro ⟨d1, msg1, hd, -, -, h3, -⟩
              cases hd
              exact absurd h3 c1

/-- C1 at the mark `mark.jws`, whose embedded delegation is in order. -/
theorem C1_witness :
    ParseTrustMark demo.env "mark.jws" = .ok demo.mark ∧
      demo.mark.cacheOK demo.env ∧
      (demo.mark.VerifyExternal demo.env demo.issuerKeys [demo.owner]).1 = none ∧
      ∃ d msg, parseDelegationJWT demo.env "grant.jws" = .ok d ∧
        d.jwtMsg = some msg ∧ msg.typ = some "trust-mark-delegation+jwt" ∧
        d.TrustMarkType = "badge-A" ∧ d.Subject = "https://issuer1" ∧
        d.Issuer = "https://owner" ∧
        unixtime.VerifyTime 1000 d.IssuedAt d.ExpiresAt = none ∧
        demo.VerifyWithSet d.jwtMsg demo.owner.JWKS = none :=
  have h : demo.mark.cacheOK demo.env := fun _ hd => by cases hd
  ⟨rfl, h, by decide,
    ((C1_VerifyExternal_owner_iff demo.env demo.mark demo.issuerKeys demo.owner h).mp
      (by decide)).2.2.2⟩

/-- C2: for a trust mark `m` whose time window is valid and whose signature verifies against
`K`, `TrustMark.VerifyExternal(K)` without owner returns no error, and so does it for every
embedded delegation token and every cached delegation put in the place of those of `m`. -/
theorem C2_VerifyExternal_no_owner (env : Env) (m : TrustMark) (K : jwks.JWKS)
    (ht : unixtime.VerifyTime env.now m.IssuedAt m.ExpiresAt = none)
    (hs : env.VerifyWithSet m.jwtMsg K = none) :
    (m.VerifyExternal env K []).1 = none ∧
      ∀ (token : String) (cache : Option DelegationJWT),
        (TrustMark.VerifyExternal env { m with DelegationJWT := token, delegation := cache }
          K []).1 = none := by
  constructor
  · unfold TrustMark.VerifyExternal
    simp only [ht, hs]
  · intro token cache
    unfold TrustMark.VerifyExternal
    simp only [ht, hs]

/-- C2 at the mark `mark3.jws`, whose embedded delegation is for another issuer and type, and
at the same mark with a malformed embedded token. -/
theorem C2_witness :
    (demo.mark3.VerifyExternal demo.env demo.issuerKeys []).1 = none ∧
      (TrustMark.VerifyExternal demo.env { demo.mark3 with DelegationJWT := "not a token" }
        demo.issuerKeys []).1 = none :=
  have h := C2_VerifyExternal_no_owner demo.env demo.mark3 demo.issuerKeys (by decide)
    (by decide)
  ⟨h.1, h.2 "not a token" none⟩

/-- C3: for a trust mark `m` with a valid time window, a signature that verifies against `K`
and an empty embedded delegation token (and a delegation cache that agrees with it),
`TrustMark.VerifyExternal(K, o)` fails with the error `no delegation jwt in trust mark`, for
every owner `o`. -/
theorem C3_VerifyExternal_no_delegation (env : Env) (m : TrustMark) (K : jwks.JWKS)
    (o : TrustMarkOwnerSpec) (rest : List TrustMarkOwnerSpec) (hm : m.cacheOK env)
    (ht : unixtime.VerifyTime env.now m.IssuedAt m.ExpiresAt = none)
    (hs : env.VerifyWithSet m.jwtMsg K = none) (he : m.DelegationJWT = "") :
    (m.VerifyExternal env K (o :: rest)).1 =
      some (errors.New "verify trustmark: no delegation jwt in trust mark") := by
  rw [VerifyExternal_owner_eq hm K o rest]
  simp only [ht, hs, he, if_true]

/-- C3 at the mark `plain.jws`, which embeds no delegation. -/
theorem C3_witness :
    (demo.plain.VerifyExternal demo.env demo.issuerKeys [demo.owner]).1 =
      some (errors.New "verify trustmark: no delegation jwt in trust mark") :=
  C3_VerifyExternal_no_delegation demo.env demo.plain demo.issuerKeys demo.owner []
    (fun _ hd => by cases hd) (by decide) (by decide) rfl

/-- C4: for a trust mark whose issuedAt is after the current time, `TrustMark.VerifyExternal`
fails with the not-yet-valid error of the time validator, for every key set and every owner
list and whatever the signature verification answers; the mark is left as it was. -/
theorem C4_VerifyExternal_not_yet_valid (env : Env) (m : TrustMark) (K : jwks.JWKS)
    (tmo : List TrustMarkOwnerSpec) (h : env.now < m.IssuedAt) :
    m.VerifyExternal env K tmo = (some unixtime.ErrNotYetValid, m) := by
  unfold TrustMark.VerifyExternal
  simp [unixtime.VerifyTime, h]

/-- C4 at a mark issued one hour (3600 ticks) after the current time. -/
theorem C4_witness :
    TrustMark.VerifyExternal demo.env { demo.mark with IssuedAt := 1000 + 3600 }
        demo.issuerKeys [demo.owner] =
      (some unixtime.ErrNotYetValid, { demo.mark with IssuedAt := 1000 + 3600 }) :=
  C4_VerifyExternal_not_yet_valid demo.env { demo.mark with IssuedAt := 1000 + 3600 }
    demo.issuerKeys [demo.owner] (by decide)

/-- C5, as stated, fails: the mark `mark3.jws` and its embedded delegation `grant3.jws` both
have valid windows and valid signatures and the subject of the delegation is not the issuer of
the mark, yet the error is the one of the type check, which comes first, since the delegation is
for another type as well. -/
theorem C5_counterexample :
    parseDelegationJWT demo.env demo.mark3.DelegationJWT = .ok demo.grant3 ∧
      unixtime.VerifyTime demo.env.now demo.mark3.IssuedAt demo.mark3.ExpiresAt = none ∧
      demo.env.VerifyWithSet demo.mark3.jwtMsg demo.issuerKeys = none ∧
      unixtime.VerifyTime demo.env.now demo.grant3.IssuedAt demo.grant3.ExpiresAt = none ∧
      demo.env.VerifyWithSet demo.grant3.jwtMsg demo.owner.JWKS = none ∧
      demo.grant3.Subject ≠ demo.mark3.Issuer ∧
      (demo.mark3.VerifyExternal demo.env demo.issuerKeys [demo.owner]).1 =
        some (errors.New "verify trustmark: delegation jwt not for this trust mark") ∧
      (demo.mark3.VerifyExternal demo.env demo.issuerKeys [demo.owner]).1 ≠
        some (errors.New "verify trustmark: delegation jwt not for this trust mark issuer") :=
  ⟨rfl, by decide, by decide, by decide, by decide, by decide, by decide, by decide⟩

/-- C5, amended: for a trust mark `m` with a valid window and a valid signature whose embedded
delegation token parses as `d`, with the type of `d` the type of `m` and the subject of `d` not
the issuer of `m`, `TrustMark.VerifyExternal(keys, o)` fails with the error
`delegation jwt not for this trust mark issuer`, whether or not the window and the signature
of `d` are valid. -/
theorem C5_VerifyExternal_subject_mismatch (env : Env) (m : TrustMark) (K : jwks.JWKS)
    (o : TrustMarkOwnerSpec) (d : DelegationJWT) (hm : m.cacheOK env)
    (ht : unixtime.VerifyTime env.now m.IssuedAt m.ExpiresAt = none)
    (hs : env.VerifyWithSet m.jwtMsg K = none)
    (hne : m.DelegationJWT ≠ "")
    (hp : parseDelegationJWT env m.DelegationJWT = .ok d)
    (hty : d.TrustMarkType = m.TrustMarkType) (hsub : d.Subject ≠ m.Issuer) :
    (m.VerifyExternal env K [o]).1 =
      some (errors.New "verify trustmark: delegation jwt not for this trust mark issuer") := by
  rw [VerifyExternal_owner_eq hm K o []]
  simp [ht, hs, hne, hp, hty, hsub]

/-- C5, amended, at the mark `mark2.jws`, whose embedded delegation is valid and names another
subject. -/
theorem C5_witness :
    (unixtime.VerifyTime demo.env.now demo.grant2.IssuedAt demo.grant2.ExpiresAt = none ∧
      demo.env.VerifyWithSet demo.grant2.jwtMsg demo.owner.JWKS = none) ∧
    (demo.mark2.VerifyExternal demo.env demo.issuerKeys [demo.owner]).1 =
      some (errors.New "verify trustmark: delegation jwt not for this trust mark issuer") :=
  ⟨⟨by decide, by decide⟩,
    C5_VerifyExternal_subject_mismatch demo.env demo.mark2 demo.issuerKeys demo.owner
      demo.grant2 (fun _ hd => by cases hd) (by decide) (by decide) (by decide) rfl rfl
      (by decide)⟩

/-- C6: for a trust anchor whose `TrustMarkIssuers` map has, for the type of the mark, an entry
that does not contain the issuer of the mark, `TrustMark.VerifyFederation` fails with the error
`trust mark issuer is not allowed by trust anchor`, whatever the time window and the signature
of the mark are; the mark is left as it was. -/
theorem C6_VerifyFederation_issuer_not_allowed (env : Env) (tm : TrustMark)
    (ta : EntityStatementPayload) (issuers : GoMap (List String)) (tmis : List String)
    (h1 : ta.TrustMarkIssuers = some issuers)
    (h2 : issuers.lookup tm.TrustMarkType = some tmis) (h3 : tm.Issuer ∉ tmis) :
    tm.VerifyFederation env ta =
      (some (errors.New "verify trustmark: trust mark issuer is not allowed by trust anchor"),
        tm) := by
  unfold TrustMark.VerifyFederation issuerAllowed
  simp [h1, h2, h3]

/-- C6 at the anchor that lists issuer1 for badge-A and the badge-A mark of issuer2, whose
signature and window are valid. -/
theorem C6_witness :
    (demo.foreign.VerifyExternal demo.env demo.issuer2Keys []).1 = none ∧
      demo.foreign.VerifyFederation demo.env demo.anchor =
        (some (errors.New
          "verify trustmark: trust mark issuer is not allowed by trust anchor"),
          demo.foreign) :=
  ⟨by decide,
    C6_VerifyFederation_issuer_not_allowed demo.env demo.foreign demo.anchor
      [("badge-A", ["https://issuer1"])] ["https://issuer1"] rfl rfl (by decide)⟩

/-- C7: for a trust anchor that declares an owner for the type of the mark, and a mark with an
empty embedded delegation token (and a delegation cache that agrees with it) whose issuer the
anchor permits, whose issuer keys resolve to `K`, whose time window is valid and whose signature
verifies against `K`, `TrustMark.VerifyFederation` fails with the error
`no delegation jwt in trust mark`. -/
theorem C7_VerifyFederation_no_delegation (env : Env) (tm : TrustMark)
    (ta : EntityStatementPayload) (tmo : TrustMarkOwnerSpec) (K : jwks.JWKS)
    (hm : tm.cacheOK env)
    (ho : ta.TrustMarkOwners.lookup tm.TrustMarkType = some tmo)
    (he : tm.DelegationJWT = "")
    (hperm : ∀ issuers tmis, ta.TrustMarkIssuers = some issuers →
      issuers.lookup tm.TrustMarkType = some tmis → tm.Issuer ∈ tmis)
    (hk : getTrustMarkIssuerJWKS env tm.Issuer ta = .ok K)
    (ht : unixtime.VerifyTime env.now tm.IssuedAt tm.ExpiresAt = none)
    (hs : env.VerifyWithSet tm.jwtMsg K = none) :
    (tm.VerifyFederation env ta).1 =
      some (errors.New "verify trustmark: no delegation jwt in trust mark") := by
  unfold TrustMark.VerifyFederation
  simp only [issuerAllowed_eq_none_iff.mpr hperm, hk, ho]
  rw [VerifyExternal_owner_eq hm K tmo []]
  simp only [ht, hs, he, if_true]

/-- C7 at the anchor that declares an owner for badge-A and the badge-A mark of issuer1 without
delegation. -/
theorem C7_witness :
    (demo.plain.VerifyFederation demo.env demo.anchor).1 =
      some (errors.New "verify trustmark: no delegation jwt in trust mark") :=
  C7_VerifyFederation_no_delegation demo.env demo.plain demo.anchor demo.owner demo.issuerKeys
    (fun _ hd => by cases hd) rfl rfl (issuerAllowed_eq_none_iff.mp (by decide)) rfl
    (by decide) (by decide)

/-- C8: for a trust anchor without `TrustMarkOwners` entry for the type of the mark, once the
allow-list check passes and the issuer keys resolve to `K`, `TrustMark.VerifyFederation` is
`TrustMark.VerifyExternal(K)` without owner; it leaves the mark as it was (no delegation is
parsed or cached) and its error is the same for every embedded delegation token and every cached
delegation put in the place of those of the mark. -/
theorem C8_VerifyFederation_no_owner (env : Env) (tm : TrustMark)
    (ta : EntityStatementPayload) (K : jwks.JWKS)
    (ho : ta.TrustMarkOwners.lookup tm.TrustMarkType = none)
    (hperm : ∀ issuers tmis, ta.TrustMarkIssuers = some issuers →
      issuers.lookup tm.TrustMarkType = some tmis → tm.Issuer ∈ tmis)
    (hk : getTrustMarkIssuerJWKS env tm.Issuer ta = .ok K) :
    tm.VerifyFederation env ta = tm.VerifyExternal env K [] ∧
      (tm.VerifyFederation env ta).2 = tm ∧
      ∀ (token : String) (cache : Option DelegationJWT),
        (TrustMark.VerifyFederation env { tm with DelegationJWT := token, delegation := cache }
          ta).1 = (tm.VerifyFederation env ta).1 := by
  have e1 : tm.VerifyFederation env ta = tm.VerifyExternal env K [] := by
    unfold TrustMark.VerifyFederation
    simp only [issuerAllowed_eq_none_iff.mpr hperm, hk, ho]
  have e2 : ∀ (token : String) (cache : Option DelegationJWT),
      TrustMark.VerifyFederation env { tm with DelegationJWT := token, delegation := cache } ta
        = TrustMark.VerifyExternal env { tm with DelegationJWT := token, delegation := cache }
            K [] := by
    intro token cache
    unfold TrustMark.VerifyFederation
    have hp : issuerAllowed { tm with DelegationJWT := token, delegation := cache } ta = none :=
      issuerAllowed_eq_none_iff.mpr hperm
    simp only [hp, hk, ho]
  refine ⟨e1, ?_, ?_⟩
  · rw [e1]
    unfold TrustMark.VerifyExternal
    cases unixtime.VerifyTime env.now tm.IssuedAt tm.ExpiresAt with
    | some err => rfl
    | none => cases env.VerifyWithSet tm.jwtMsg K <;> rfl
  · intro token cache
    rw [e1, e2]
    unfold TrustMark.VerifyExternal
    simp only
    cases unixtime.VerifyTime env.now tm.IssuedAt tm.ExpiresAt with
    | some err => rfl
    | none => cases env.VerifyWithSet tm.jwtMsg K <;> rfl

/-- C8 at the anchor without owners and a mark whose embedded delegation is for another issuer
and another type. -/
theorem C8_witness :
    demo.mark3.VerifyFederation demo.env demo.anchorNoOwner =
        demo.mark3.VerifyExternal demo.env demo.issuerKeys [] ∧
      demo.mark3.VerifyFederation demo.env demo.anchorNoOwner = (none, demo.mark3) :=
  have h := C8_VerifyFederation_no_owner demo.env demo.mark3 demo.anchorNoOwner
    demo.issuerKeys rfl (issuerAllowed_eq_none_iff.mp (by decide)) rfl
  ⟨h.1, Prod.ext (by decide) h.2.1⟩

/-- C9: for a `TrustMarkInfo` (whose cached mark, if it has a parsed message, is the parse of
its raw token) whose `TrustMarkType` differs from the type of the trust mark parsed from its raw
token, `TrustMarkInfo.VerifyFederation` and `TrustMarkInfo.VerifyExternal` both fail with the
error `trust mark object claim 'trust_mark_type' does not match JWT claim`, for every anchor,
key set and owner list; and when either returns no error, the raw token parses and the two types
are equal. -/
theorem C9_TrustMarkInfo_type_mismatch (env : Env) (info : TrustMarkInfo)
    (ta : EntityStatementPayload) (K : jwks.JWKS) (tmo : List TrustMarkOwnerSpec)
    (hc : info.cacheOK env) :
    (∀ mark, ParseTrustMark env info.TrustMarkJWT = .ok mark →
        mark.TrustMarkType ≠ info.TrustMarkType →
        (info.VerifyFederation env ta).1 = some errTypeClaim ∧
          (info.VerifyExternal env K tmo).1 = some errTypeClaim) ∧
      ((info.VerifyFederation env ta).1 = none ∨ (info.VerifyExternal env K tmo).1 = none →
        ∃ mark, ParseTrustMark env info.TrustMarkJWT = .ok mark ∧
          mark.TrustMarkType = info.TrustMarkType) := by
  obtain ⟨hE, hO⟩ := TrustMark_of_cacheOK hc
  constructor
  · intro mark hp hne
    obtain ⟨t, info1, hT, h1, h2⟩ := hO mark hp
    have hne1 : t.TrustMarkType ≠ info1.TrustMarkType := by rw [h1, h2]; exact hne
    unfold TrustMarkInfo.VerifyFederation TrustMarkInfo.VerifyExternal
    simp [hT, hne1]
  · intro h
    cases hp : ParseTrustMark env info.TrustMarkJWT with
    | error e =>
      have hT := hE e hp
      unfold TrustMarkInfo.VerifyFederation TrustMarkInfo.VerifyExternal at h
      simp [hT] at h
    | ok t0 =>
      obtain ⟨t, info1, hT, h1, h2⟩ := hO t0 hp
      refine ⟨t0, rfl, ?_⟩
      by_contra hne
      have hne1 : t.TrustMarkType ≠ info1.TrustMarkType := by rw [h1, h2]; exact hne
      unfold TrustMarkInfo.VerifyFederation TrustMarkInfo.VerifyExternal at h
      simp [hT, hne1] at h

/-- C9 at an info that announces badge-B around a badge-A token which verifies by itself. -/
theorem C9_witness :
    ((demo.mislabelled.VerifyFederation demo.env demo.anchor).1 = some errTypeClaim ∧
        (demo.mislabelled.VerifyExternal demo.env demo.issuerKeys [demo.owner]).1 =
          some errTypeClaim) ∧
      (demo.labelled.VerifyExternal demo.env demo.issuerKeys [demo.owner]).1 = none ∧
      (demo.labelled.VerifyFederation demo.env demo.anchor).1 = none :=
  ⟨(C9_TrustMarkInfo_type_mismatch demo.env demo.mislabelled demo.anchor demo.issuerKeys
      [demo.owner] (fun _ ht => by cases ht)).1 demo.mark rfl (by decide),
    by decide, by decide⟩

/-- C10: for a token that parses as a signed statement `m`: if the declared type of `m` is not
the trust-mark type constant, `ParseTrustMark` fails with its type error whatever the payload
decoder would answer, so before the payload is decoded; likewise `parseDelegationJWT` for the
delegation type constant; and, the two constants being distinct, a token `parseDelegationJWT`
accepts is rejected by `ParseTrustMark` and a token `ParseTrustMark` accepts is rejected by
`parseDelegationJWT`. -/
theorem C10_type_checked_before_decode (env : Env) (data : String) (m : jwx.ParsedJWT)
    (hp : env.Parse data = .ok m) :
    (m.typ ≠ some env.JWTTypeTrustMark →
        ∀ dec, ParseTrustMark { env with unmarshalTrustMark := dec } data =
          .error (errTrustMarkType env)) ∧
      (m.typ ≠ some env.JWTTypeTrustMarkDelegation →
        ∀ dec, parseDelegationJWT { env with unmarshalDelegationJWT := dec } data =
          .error (errDelegationType env)) ∧
      (env.JWTTypeTrustMark ≠ env.JWTTypeTrustMarkDelegation →
        (∀ d, parseDelegationJWT env data = .ok d →
            ParseTrustMark env data = .error (errTrustMarkType env)) ∧
          (∀ t, ParseTrustMark env data = .ok t →
            parseDelegationJWT env data = .error (errDelegationType env))) := by
  have hT : ∀ env1 : Env, env1.Parse data = .ok m → m.typ ≠ some env1.JWTTypeTrustMark →
      ParseTrustMark env1 data = .error (errTrustMarkType env1) := by
    intro env1 h1 h2
    unfold ParseTrustMark
    simp [h1, jwx.ParsedJWT.VerifyType, h2]
  have hD : ∀ env1 : Env, env1.Parse data = .ok m →
      m.typ ≠ some env1.JWTTypeTrustMarkDelegation →
      parseDelegationJWT env1 data = .error (errDelegationType env1) := by
    intro env1 h1 h2
    unfold parseDelegationJWT
    simp [h1, jwx.ParsedJWT.VerifyType, h2]
  refine ⟨fun h dec => hT { env with unmarshalTrustMark := dec } hp h,
    fun h dec => hD { env with unmarshalDelegationJWT := dec } hp h, fun hne => ⟨?_, ?_⟩⟩
  · intro d hd
    obtain ⟨m1, hm1, hty, -⟩ := parseDelegationJWT_ok hd
    rw [hp] at hm1
    cases hm1
    apply hT env hp
    rw [hty]
    intro e
    exact hne (Option.some.inj e).symm
  · intro t ht
    obtain ⟨m1, hm1, hty, -⟩ := ParseTrustMark_ok ht
    rw [hp] at hm1
    cases hm1
    apply hD env hp
    rw [hty]
    intro e
    exact hne (Option.some.inj e)

/-- C10 at the delegation token `grant.jws` and the trust mark token `mark.jws`, with payload
decoders that accept every payload. -/
theorem C10_witness :
    ParseTrustMark { demo.env with unmarshalTrustMark := demo.acceptTrustMark } "grant.jws" =
        .error (errTrustMarkType demo.env) ∧
      parseDelegationJWT { demo.env with unmarshalDelegationJWT := demo.acceptDelegationJWT }
          "mark.jws" = .error (errDelegationType demo.env) ∧
      ParseTrustMark demo.env "grant.jws" = .error (errTrustMarkType demo.env) ∧
      parseDelegationJWT demo.env "mark.jws" = .error (errDelegationType demo.env) :=
  ⟨(C10_type_checked_before_decode demo.env "grant.jws"
      (demo.grantMsg "grant.jws" "grant.json") rfl).1 (by decide) demo.acceptTrustMark,
    (C10_type_checked_before_decode demo.env "mark.jws"
      (demo.markMsg "mark.jws" "mark.json") rfl).2.1 (by decide) demo.acceptDelegationJWT,
    ((C10_type_checked_before_decode demo.env "grant.jws"
      (demo.grantMsg "grant.jws" "grant.json") rfl).2.2 (by decide)).1 demo.grant rfl,
    ((C10_type_checked_before_decode demo.env "mark.jws"
      (demo.markMsg "mark.jws" "mark.json") rfl).2.2 (by decide)).2 demo.mark rfl⟩

/-- C11: for every trust anchor `ta`, `getTrustMarkIssuerJWKS(ta.Subject, ta)` returns `ta.JWKS`
and no error, and does so whatever the metadata resolver, the entity statement parser and the
entity configuration fetch are: none of them is consulted. -/
theorem C11_getTrustMarkIssuerJWKS_anchor (env : Env) (ta : EntityStatementPayload) :
    getTrustMarkIssuerJWKS env ta.Subject ta = .ok ta.JWKS ∧
      ∀ (r : MetadataResolver) (p g : String → Except Error (Option EntityStatement)),
        getTrustMarkIssuerJWKS
          { env with DefaultMetadataResolver := r, ParseEntityStatement := p,
                     GetEntityConfiguration := g } ta.Subject ta = .ok ta.JWKS := by
  constructor
  · unfold getTrustMarkIssuerJWKS
    simp
  · intro r p g
    unfold getTrustMarkIssuerJWKS
    simp

/-- C12: for an issuer other than the subject of the anchor for which the resolver, asked for
the issuer as subject and the subject of the anchor as only trust anchor, succeeds: when the
returned trust chain is not empty, `getTrustMarkIssuerJWKS` returns a key set exactly when the
parse of the first element of the chain gives a statement with that, non-empty, key set; when
the chain is empty, exactly when the entity configuration of the issuer does; and the result
depends on the resolver through its answer to that one request only. -/
theorem C12_getTrustMarkIssuerJWKS_source (env : Env) (issuer : String)
    (ta : EntityStatementPayload) (res : ResolveResponsePayload) (hne : issuer ≠ ta.Subject)
    (hres : env.DefaultMetadataResolver.resolve
      { Subject := issuer, TrustAnchor := [ta.Subject] } = .ok res) :
    (∀ first rest, res.TrustChain = first :: rest → ∀ K,
        (getTrustMarkIssuerJWKS env issuer ta = .ok K ↔
          ∃ tmi, env.ParseEntityStatement first.RawJWT = .ok (some tmi) ∧ tmi.JWKS = K ∧
            K.Len ≠ 0)) ∧
      (res.TrustChain = [] → ∀ K,
        (getTrustMarkIssuerJWKS env issuer ta = .ok K ↔
          ∃ tmi, env.GetEntityConfiguration issuer = .ok (some tmi) ∧ tmi.JWKS = K ∧
            K.Len ≠ 0)) ∧
      (∀ r : MetadataResolver,
        r.resolve { Subject := issuer, TrustAnchor := [ta.Subject] } =
          env.DefaultMetadataResolver.resolve
            { Subject := issuer, TrustAnchor := [ta.Subject] } →
        getTrustMarkIssuerJWKS { env with DefaultMetadataResolver := r } issuer ta =
          getTrustMarkIssuerJWKS env issuer ta) := by
  refine ⟨?_, ?_, ?_⟩
  · intro first rest hc K
    rw [getTrustMarkIssuerJWKS_eq env issuer ta hne, hres]
    simp only [hc]
    cases hp : env.ParseEntityStatement first.RawJWT with
    | error e => simp
    | ok o =>
      cases o with
      | none => simp
      | some tmi =>
        by_cases hl : tmi.JWKS.Len = 0
        · simp only [hl, if_true]
          constructor
          · intro h; cases h
          · rintro ⟨tmi1, h1, h2, h3⟩
            cases h1
            subst h2
            exact absurd hl h3
        · simp only [hl, if_false]
          constructor
          · intro h
            cases h
            exact ⟨tmi, rfl, rfl, hl⟩
          · rintro ⟨tmi1, h1, h2, -⟩
            cases h1
            rw [h2]
  · intro hc K
    rw [getTrustMarkIssuerJWKS_eq env issuer ta hne, hres]
    simp only [hc]
    cases hp : env.GetEntityConfiguration issuer with
    | error e => simp
    | ok o =>
      cases o with
      | none => simp
      | some tmi =>
        by_cases hl : tmi.JWKS.Len = 0
        · simp only [hl, if_true]
          constructor
          · intro h; cases h
          · rintro ⟨tmi1, h1, h2, h3⟩
            cases h1
            subst h2
            exact absurd hl h3
        · simp only [hl, if_false]
          constructor
          · intro h
            cases h
            exact ⟨tmi, rfl, rfl, hl⟩
          · rintro ⟨tmi1, h1, h2, -⟩
            cases h1
            rw [h2]
  · intro r hr
    rw [getTrustMarkIssuerJWKS_eq env issuer ta hne,
      getTrustMarkIssuerJWKS_eq { env with DefaultMetadataResolver := r } issuer ta hne]
    simp only [hr]


/-- C12 at issuer1, whose chain has one element, and at issuer2, whose chain is empty. -/
theorem C12_witness :
    getTrustMarkIssuerJWKS demo.env "https://issuer1" demo.anchor = .ok demo.issuerKeys ∧
      getTrustMarkIssuerJWKS demo.env "https://issuer2" demo.anchor = .ok demo.issuer2Keys :=
  ⟨((C12_getTrustMarkIssuerJWKS_source demo.env "https://issuer1" demo.anchor
      { TrustChain := [⟨"issuer1.statement"⟩] } (by decide) rfl).1 ⟨"issuer1.statement"⟩ []
      rfl demo.issuerKeys).mpr ⟨{ JWKS := demo.issuerKeys }, rfl, rfl, by decide⟩,
    ((C12_getTrustMarkIssuerJWKS_source demo.env "https://issuer2" demo.anchor
      { TrustChain := [] } (by decide) rfl).2.1 rfl demo.issuer2Keys).mpr
      ⟨{ JWKS := demo.issuer2Keys }, rfl, rfl, by decide⟩⟩

/-- C13, as stated, fails: for issuer3 the resolver succeeds with a chain whose first element
does not parse, and the entity configuration of issuer3 cannot be fetched either, so neither
yields a key set; yet the error is the wrapped parse error, not the no-keys-found error. -/
theorem C13_counterexample :
    "https://issuer3" ≠ demo.anchor.Subject ∧
      demo.envBrokenChain.ParseEntityStatement "garbage" =
        .error (Error.msg "invalid compact serialization") ∧
      demo.envBrokenChain.GetEntityConfiguration "https://issuer3" =
        .error (Error.msg "could not fetch") ∧
      getTrustMarkIssuerJWKS demo.envBrokenChain "https://issuer3" demo.anchor =
        .error (Error.wrap (Error.msg "invalid compact serialization")
          "error while parsing trust mark issuer entity statement") ∧
      getTrustMarkIssuerJWKS demo.envBrokenChain "https://issuer3" demo.anchor ≠
        .error (errors.New "no jwks found for trust mark issuer") :=
  ⟨by decide, rfl, rfl, rfl, fun h => by cases h⟩

/-- C13, amended: for an issuer other than the subject of the anchor, `getTrustMarkIssuerJWKS`
fails with the resolver's error wrapped as `error while resolving trust mark issuer` when the
resolver fails; when the resolver succeeds and the one source consulted (the parse of the first
element of a non-empty chain, else the entity configuration of the issuer) is obtained without
error but is nil or has an empty key set, it fails with `no jwks found for trust mark issuer`;
when obtaining that source fails, it fails with that error wrapped as
`error while parsing trust mark issuer entity statement`; and a key set it returns is never
empty. -/
theorem C13_getTrustMarkIssuerJWKS_errors (env : Env) (issuer : String)
    (ta : EntityStatementPayload) (hne : issuer ≠ ta.Subject) :
    (∀ e, env.DefaultMetadataResolver.resolve
          { Subject := issuer, TrustAnchor := [ta.Subject] } = .error e →
        getTrustMarkIssuerJWKS env issuer ta =
          .error (Error.wrap e "error while resolving trust mark issuer")) ∧
      (∀ res source, env.DefaultMetadataResolver.resolve
          { Subject := issuer, TrustAnchor := [ta.Subject] } = .ok res →
        ((∃ first rest, res.TrustChain = first :: rest ∧
            source = env.ParseEntityStatement first.RawJWT) ∨
          (res.TrustChain = [] ∧ source = env.GetEntityConfiguration issuer)) →
        ((source = .ok none ∨ ∃ tmi, source = .ok (some tmi) ∧ tmi.JWKS.Len = 0) →
          getTrustMarkIssuerJWKS env issuer ta =
            .error (errors.New "no jwks found for trust mark issuer")) ∧
        (∀ e, source = .error e →
          getTrustMarkIssuerJWKS env issuer ta =
            .error (Error.wrap e "error while parsing trust mark issuer entity statement"))) ∧
      (∀ K, getTrustMarkIssuerJWKS env issuer ta = .ok K → K.Len ≠ 0) := by
  rw [getTrustMarkIssuerJWKS_eq env issuer ta hne]
  refine ⟨?_, ?_, ?_⟩
  · intro e he
    rw [he]
  · intro res source hres hsrc
    rw [hres]
    have hs : (match res.TrustChain with
               | first :: _ => env.ParseEntityStatement first.RawJWT
               | [] => env.GetEntityConfiguration issuer) = source := by
      rcases hsrc with ⟨first, rest, hc, hs⟩ | ⟨hc, hs⟩
      · rw [hc, hs]
      · rw [hc, hs]
    simp only [hs]
    constructor
    · rintro (h | ⟨tmi, h, hl⟩)
      · rw [h]
      · rw [h]
        simp only [hl, if_true]
    · intro e he
      rw [he]
  · intro K
    cases env.DefaultMetadataResolver.resolve
        { Subject := issuer, TrustAnchor := [ta.Subject] } with
    | error e => intro h; cases h
    | ok res =>
      simp only
      cases (match res.TrustChain with
             | first :: _ => env.ParseEntityStatement first.RawJWT
             | [] => env.GetEntityConfiguration issuer) with
      | error e => intro h; cases h
      | ok o =>
        cases o with
        | none => intro h; cases h
        | some tmi =>
          simp only
          by_cases hl : tmi.JWKS.Len = 0
          · simp only [hl, if_true]
            intro h; cases h
          · simp only [hl, if_false]
            intro h
            cases h
            exact hl

/-- C13, amended, at an issuer for which the resolver fails, and at issuer1, whose keys are
found. -/
theorem C13_witness :
    getTrustMarkIssuerJWKS { demo.env with DefaultMetadataResolver := demo.failingResolver }
        "https://issuer1" demo.anchor =
      .error (Error.wrap (Error.msg "no trust chain") "error while resolving trust mark issuer")
    ∧ demo.issuerKeys.Len ≠ 0 :=
  ⟨(C13_getTrustMarkIssuerJWKS_errors
      { demo.env with DefaultMetadataResolver := demo.failingResolver } "https://issuer1"
      demo.anchor (by decide)).1 (Error.msg "no trust chain") rfl,
    (C13_getTrustMarkIssuerJWKS_errors demo.env "https://issuer1" demo.anchor
      (by decide)).2.2 demo.issuerKeys rfl⟩

/-- C14: `IssueTrustMark(t, sub, ...)` returns the unknown-trust-mark error and no info, having
handed nothing to the signer, if and only if `t` has no entry in the registry of the issuer; and
for a type with an entry and a signer that does not fail it returns an info. -/
theorem C14_IssueTrustMark_unknown (env : Env) (tmi : TrustMarkIssuer) (t sub : String)
    (lifetime : List time.Duration) :
    (GoMap.index tmi.trustMarks t = none ↔
        tmi.IssueTrustMark env t sub lifetime = (.error (errUnknownTrustMark t), [])) ∧
      ((∀ tm, ∃ jwt, tmi.TrustMarkSigner.JWT tm = .ok jwt) →
        (GoMap.index tmi.trustMarks t = none ↔
          (tmi.IssueTrustMark env t sub lifetime).1 = .error (errUnknownTrustMark t)) ∧
        (GoMap.index tmi.trustMarks t ≠ none →
          ∃ info, (tmi.IssueTrustMark env t sub lifetime).1 = .ok info)) := by
  have hnone : GoMap.index tmi.trustMarks t = none →
      tmi.IssueTrustMark env t sub lifetime = (.error (errUnknownTrustMark t), []) := by
    intro h
    unfold TrustMarkIssuer.IssueTrustMark
    simp only [h]
  refine ⟨⟨hnone, ?_⟩, ?_⟩
  · intro h
    cases hi : GoMap.index tmi.trustMarks t with
    | none => rfl
    | some spec =>
      obtain ⟨tm, h2, -⟩ := IssueTrustMark_of_spec env tmi t sub lifetime spec hi
      rw [h] at h2
      cases h2
  · intro hs
    have hsome : GoMap.index tmi.trustMarks t ≠ none →
        ∃ info, (tmi.IssueTrustMark env t sub lifetime).1 = .ok info := by
      intro hn
      cases hi : GoMap.index tmi.trustMarks t with
      | none => exact absurd hi hn
      | some spec =>
        obtain ⟨tm, -, -, -, -, -, -, -, -, -, -, -, -, h1⟩ :=
          IssueTrustMark_of_spec env tmi t sub lifetime spec hi
        obtain ⟨jwt, hj⟩ := hs tm
        rw [h1, hj]
        exact ⟨_, rfl⟩
    refine ⟨⟨fun h => by rw [hnone h], ?_⟩, hsome⟩
    intro h
    by_contra hn
    obtain ⟨info, hinfo⟩ := hsome hn
    rw [hinfo] at h
    cases h

/-- C14 at the issuer issuer1, which has no entry for badge-C and has one for badge-A. -/
theorem C14_witness :
    demo.issuer.IssueTrustMark demo.env "badge-C" "https://sub.example" [] =
        (.error (errUnknownTrustMark "badge-C"), []) ∧
      ∃ info, (demo.issuer.IssueTrustMark demo.env "badge-A" "https://sub.example" []).1 =
        .ok info :=
  ⟨(C14_IssueTrustMark_unknown demo.env demo.issuer "badge-C" "https://sub.example" []).1.mp
      rfl,
    ((C14_IssueTrustMark_unknown demo.env demo.issuer "badge-A" "https://sub.example" []).2
      (fun tm => by
        by_cases h : tm.DelegationJWT = ""
        · exact ⟨"plain.jws", by simp [demo.issuer, NewTrustMarkIssuer, demo.markSigner, h]⟩
        · exact ⟨"mark.jws", by simp [demo.issuer, NewTrustMarkIssuer, demo.markSigner, h]⟩)).2
      (by
        rw [show GoMap.index demo.issuer.trustMarks "badge-A" = some demo.badgeA from rfl]
        exact Option.some_ne_none _)⟩

/-- C15: for an issuer with its registry in order, a type `t` with entry `spec`, a subject
`sub` and an optional lifetime override, the trust mark `IssueTrustMark` hands to the signer has
the `EntityID` of the issuer as issuer, `sub` as subject, `t` as type, the current time as
issuedAt, the logo URI, ref and embedded delegation token of `spec`, and, with `L` the override
if one is passed and the lifetime of `spec` otherwise, no expiresAt when `L` is zero and
expiresAt `now + L` when it is not; the info returned on success carries the token the signer
made of that mark, and the type `t`. -/
theorem C15_IssueTrustMark_payload (env : Env) (tmi : TrustMarkIssuer) (t sub : String)
    (lifetime : List time.Duration) (spec : TrustMarkSpec) (hreg : tmi.registryOK)
    (h : GoMap.index tmi.trustMarks t = some spec) :
    ∃ tm : TrustMark,
      (tmi.IssueTrustMark env t sub lifetime).2 = [tm] ∧
      tm.Issuer = tmi.EntityID ∧ tm.Subject = sub ∧ tm.TrustMarkType = t ∧
      tm.IssuedAt = env.now ∧ tm.LogoURI = spec.LogoURI ∧ tm.Ref = spec.Ref ∧
      tm.DelegationJWT = spec.DelegationJWT ∧
      tm.ExpiresAt =
        (if lifetime.headD spec.Lifetime.Duration = 0 then none
         else some (env.now + lifetime.headD spec.Lifetime.Duration)) ∧
      ∀ info, (tmi.IssueTrustMark env t sub lifetime).1 = .ok info →
        tmi.TrustMarkSigner.JWT tm = .ok info.TrustMarkJWT ∧ info.TrustMarkType = t ∧
          info.trustmark = some tm := by
  obtain ⟨tm, h1, h2, h3, h4, h5, h6, h7, h8, -, -, -, h9, h10⟩ :=
    IssueTrustMark_of_spec env tmi t sub lifetime spec h
  have hk : spec.TrustMarkType = t := hreg.2 t spec h
  refine ⟨tm, h1, h2, h3, h4.trans hk, h5, h6, h7, h8, h9, ?_⟩
  intro info hinfo
  rw [h10] at hinfo
  cases hj : tmi.TrustMarkSigner.JWT tm with
  | error e =>
    rw [hj] at hinfo
    cases hinfo
  | ok jwt =>
    rw [hj] at hinfo
    cases hinfo
    exact ⟨rfl, hk, rfl⟩

/-- C15 at issuer1 and badge-A: the configured hour without override, no expiry with the
override 0, and the override 60. -/
theorem C15_witness :
    (∃ tm : TrustMark,
        (demo.issuer.IssueTrustMark (demo.envAt 100) "badge-A" "https://sub.example" []).2 =
          [tm] ∧
        tm.Issuer = "https://issuer1" ∧ tm.Subject = "https://sub.example" ∧
        tm.TrustMarkType = "badge-A" ∧ tm.IssuedAt = 100 ∧ tm.ExpiresAt = some 3700) ∧
      (demo.issuer.IssueTrustMark (demo.envAt 100) "badge-A" "https://sub.example" [0]).2.map
          (fun tm => tm.ExpiresAt) = [none] ∧
      (demo.issuer.IssueTrustMark (demo.envAt 100) "badge-A" "https://sub.example" [60]).2.map
          (fun tm => tm.ExpiresAt) = [some 160] := by
  obtain ⟨tm, h1, h2, h3, h4, h5, -, -, -, h9, -⟩ :=
    C15_IssueTrustMark_payload (demo.envAt 100) demo.issuer "badge-A" "https://sub.example" []
      demo.badgeA (NewTrustMarkIssuer_registryOK _ _ _) rfl
  exact ⟨⟨tm, h1, h2, h3, h4, h5, h9⟩, by decide, by decide⟩


/-- C16: for an issuer whose entry `spec` for the type has a lifetime `L > 0`, the trust mark
`IssueTrustMark` hands to the signer at time `T0`, without lifetime override, has issuedAt `T0`
and expiresAt `T0 + L`; and a mark with that issuedAt and expiresAt (as the issued mark has when
read back from its token) verifies without error against keys under which its signature is
valid at every time `t` with `T0 ≤ t < T0 + L`, and fails with the expired error of the time
validator at every time `t > T0 + L`, for every key set and owner list. -/
theorem C16_issued_mark_lifetime (env : Env) (tmi : TrustMarkIssuer) (t sub : String)
    (spec : TrustMarkSpec) (h : GoMap.index tmi.trustMarks t = some spec)
    (hL : 0 < spec.Lifetime.Duration) :
    ∃ tm : TrustMark,
      (tmi.IssueTrustMark env t sub []).2 = [tm] ∧
      tm.IssuedAt = env.now ∧ tm.ExpiresAt = some (env.now + spec.Lifetime.Duration) ∧
      ∀ (venv : Env) (m : TrustMark) (K : jwks.JWKS) (tmo : List TrustMarkOwnerSpec),
        m.IssuedAt = tm.IssuedAt → m.ExpiresAt = tm.ExpiresAt →
        (env.now ≤ venv.now → venv.now < env.now + spec.Lifetime.Duration →
          venv.VerifyWithSet m.jwtMsg K = none → (m.VerifyExternal venv K []).1 = none) ∧
        (env.now + spec.Lifetime.Duration < venv.now →
          (m.VerifyExternal venv K tmo).1 = some unixtime.ErrExpired) := by
  obtain ⟨tm, h1, -, -, -, h5, -, -, -, -, -, -, h9, -⟩ :=
    IssueTrustMark_of_spec env tmi t sub [] spec h
  have hne : spec.Lifetime.Duration ≠ 0 := fun e => by rw [e] at hL; exact lt_irrefl _ hL
  have h9b : tm.ExpiresAt = some (env.now + spec.Lifetime.Duration) := by
    rw [h9]
    simp only [List.headD_nil, hne, if_false]
  refine ⟨tm, h1, h5, h9b, ?_⟩
  intro venv m K tmo hi he
  rw [h5] at hi
  rw [h9b] at he
  constructor
  · intro hlo hhi hs
    unfold TrustMark.VerifyExternal
    have ht : unixtime.VerifyTime venv.now m.IssuedAt m.ExpiresAt = none := by
      unfold unixtime.VerifyTime
      rw [hi, he]
      simp only [not_lt.mpr hlo, if_false, not_lt.mpr (le_of_lt hhi)]
    simp only [ht, hs]
  · intro hlate
    unfold TrustMark.VerifyExternal
    have ht : unixtime.VerifyTime venv.now m.IssuedAt m.ExpiresAt =
        some unixtime.ErrExpired := by
      unfold unixtime.VerifyTime
      rw [hi, he]
      have h1 : ¬ venv.now < env.now := by
        intro hc
        have : env.now < env.now + spec.Lifetime.Duration := by linarith
        linarith
      simp only [h1, if_false, hlate, if_true]
    simp only [ht]

/-- C16 at issuer1 and badge-A, of 3600 ticks, issued at time 100: the info verifies at time
100 + 3599 and fails with the expired error at time 100 + 3601. -/
theorem C16_witness :
    (∃ tm : TrustMark,
        (demo.issuer.IssueTrustMark (demo.envAt 100) "badge-A" "https://sub.example" []).2 =
          [tm] ∧
        tm.IssuedAt = 100 ∧ tm.ExpiresAt = some (100 + 3600) ∧
        (demo.plain.VerifyExternal (demo.envAt (100 + 3599)) demo.issuerKeys []).1 = none ∧
        (demo.plain.VerifyExternal (demo.envAt (100 + 3601)) demo.issuerKeys []).1 =
          some unixtime.ErrExpired) ∧
      (demo.issuer.IssueTrustMark (demo.envAt 100) "badge-A" "https://sub.example" []).1.map
          (fun info => (info.VerifyExternal (demo.envAt (100 + 3599)) demo.issuerKeys []).1) =
        .ok none ∧
      (demo.issuer.IssueTrustMark (demo.envAt 100) "badge-A" "https://sub.example" []).1.map
          (fun info => (info.VerifyExternal (demo.envAt (100 + 3601)) demo.issuerKeys []).1) =
        .ok (some unixtime.ErrExpired) := by
  obtain ⟨tm, h1, h2, h3, h4⟩ :=
    C16_issued_mark_lifetime (demo.envAt 100) demo.issuer "badge-A" "https://sub.example"
      demo.badgeA rfl (by decide)
  refine ⟨⟨tm, h1, h2, h3, ?_, ?_⟩, rfl, rfl⟩
  · exact (h4 (demo.envAt (100 + 3599)) demo.plain demo.issuerKeys [] (h2.trans rfl).symm
      (h3.trans rfl).symm).1 (by decide) (by decide) (by decide)
  · exact (h4 (demo.envAt (100 + 3601)) demo.plain demo.issuerKeys [] (h2.trans rfl).symm
      (h3.trans rfl).symm).2 (by decide)

/-- C17: for a type with entry `spec`, the trust mark `IssueTrustMark` hands to the signer
carries the extra fields of `spec`, whatever the flag `IncludeExtraClaimsInInfo` says, and the
`Extra` of the info returned is that of `spec` if the flag is set and empty if not. -/
theorem C17_IssueTrustMark_extra (env : Env) (tmi : TrustMarkIssuer) (t sub : String)
    (lifetime : List time.Duration) (spec : TrustMarkSpec)
    (h : GoMap.index tmi.trustMarks t = some spec) :
    ∃ tm : TrustMark,
      (tmi.IssueTrustMark env t sub lifetime).2 = [tm] ∧ tm.Extra = spec.Extra ∧
      ∀ info, (tmi.IssueTrustMark env t sub lifetime).1 = .ok info →
        info.Extra = (if spec.IncludeExtraClaimsInInfo then spec.Extra else []) := by
  obtain ⟨tm, h1, -, -, -, -, -, -, -, h8, -, -, -, h10⟩ :=
    IssueTrustMark_of_spec env tmi t sub lifetime spec h
  refine ⟨tm, h1, h8, ?_⟩
  intro info hinfo
  rw [h10] at hinfo
  cases hj : tmi.TrustMarkSigner.JWT tm with
  | error e =>
    rw [hj] at hinfo
    cases hinfo
  | ok jwt =>
    rw [hj] at hinfo
    cases hinfo
    rfl

/-- C17 at issuer1: badge-A keeps its extra claims out of the info, badge-B copies them; both
marks carry them. -/
theorem C17_witness :
    (∃ tm : TrustMark,
        (demo.issuer.IssueTrustMark demo.env "badge-A" "https://sub.example" []).2 = [tm] ∧
        tm.Extra = [("assurance", JSONValue.string "high")]) ∧
      (demo.issuer.IssueTrustMark demo.env "badge-A" "https://sub.example" []).1.map
          (fun info => info.Extra) = .ok [] ∧
      (∃ tm : TrustMark,
        (demo.issuer.IssueTrustMark demo.env "badge-B" "https://sub.example" []).2 = [tm] ∧
        tm.Extra = [("assurance", JSONValue.string "low")]) ∧
      (demo.issuer.IssueTrustMark demo.env "badge-B" "https://sub.example" []).1.map
          (fun info => info.Extra) = .ok [("assurance", JSONValue.string "low")] := by
  obtain ⟨tmA, a1, a2, -⟩ :=
    C17_IssueTrustMark_extra demo.env demo.issuer "badge-A" "https://sub.example" []
      demo.badgeA rfl
  obtain ⟨tmB, b1, b2, -⟩ :=
    C17_IssueTrustMark_extra demo.env demo.issuer "badge-B" "https://sub.example" []
      demo.badgeB rfl
  exact ⟨⟨tmA, a1, a2⟩, rfl, ⟨tmB, b1, b2⟩, rfl⟩

/-- C18 fails on the code: the owner entry of badge-A has `DelegationLifetime` 0, and with the
override 3600 the delegation handed to the signer has no expiresAt, though the effective
lifetime is not zero; the owner entry of badge-B has `DelegationLifetime` 3600, and with the
override 0 the delegation has expiresAt `now + 0`, though the effective lifetime is zero. -/
theorem C18_DelegationJWT_expiry_at_failing_input :
    GoMap.index demo.ownerEntity.ownedTrustMarks "badge-A" = some demo.ownedA ∧
      demo.ownedA.DelegationLifetime = 0 ∧
      (demo.ownerEntity.DelegationJWT demo.env "badge-A" "https://issuer1" [3600]).2.map
          (fun d => d.ExpiresAt) = [none] ∧
      GoMap.index demo.ownerEntity.ownedTrustMarks "badge-B" = some demo.ownedB ∧
      demo.ownedB.DelegationLifetime = 3600 ∧
      (demo.ownerEntity.DelegationJWT demo.env "badge-B" "https://issuer1" [0]).2.map
          (fun d => d.ExpiresAt) = [some (demo.env.now + 0)] :=
  ⟨rfl, rfl, by decide, rfl, rfl, by decide⟩

/-- C19: `TrustMarkOwner.DelegationJWT(t, sub, ...)` fails with the unknown-trust-mark error,
having handed nothing to the signer, when `t` has no entry in the registry of the owner; and
when the registry is in order and `t` has the entry `spec`, it returns what the signer makes of
one delegation, which has the `EntityID` of the owner as issuer, `sub` as subject, `t` as type,
the current time as issuedAt, and the ref and extra fields of `spec`. -/
theorem C19_DelegationJWT_payload (env : Env) (tmo : TrustMarkOwner) (t sub : String)
    (lifetime : List time.Duration) :
    (GoMap.index tmo.ownedTrustMarks t = none →
        tmo.DelegationJWT env t sub lifetime = (.error (errUnknownTrustMark t), [])) ∧
      (∀ spec, tmo.registryOK → GoMap.index tmo.ownedTrustMarks t = some spec →
        ∃ d : DelegationJWT,
          (tmo.DelegationJWT env t sub lifetime).2 = [d] ∧
          (tmo.DelegationJWT env t sub lifetime).1 = tmo.TrustMarkDelegationSigner.JWT d ∧
          d.Issuer = tmo.EntityID ∧ d.Subject = sub ∧ d.TrustMarkType = t ∧
          d.IssuedAt = env.now ∧ d.Ref = spec.Ref ∧ d.Extra = spec.Extra) := by
  constructor
  · intro h
    unfold TrustMarkOwner.DelegationJWT
    simp only [h]
  · intro spec hreg h
    obtain ⟨d, h1, h2, h3, h4, h5, h6, h7, h8, -⟩ :=
      DelegationJWT_of_spec env tmo t sub lifetime spec h
    exact ⟨d, h1, h2, h3, h4, h5.trans (hreg.2 t spec h), h6, h7, h8⟩

/-- C19 at the owner entity, which has no entry for badge-C and has one for badge-A. -/
theorem C19_witness :
    demo.ownerEntity.DelegationJWT demo.env "badge-C" "https://issuer1" [] =
        (.error (errUnknownTrustMark "badge-C"), []) ∧
      ∃ d : DelegationJWT,
        (demo.ownerEntity.DelegationJWT demo.env "badge-A" "https://issuer1" []).2 = [d] ∧
        (demo.ownerEntity.DelegationJWT demo.env "badge-A" "https://issuer1" []).1 =
          .ok "grant.jws" ∧
        d.Issuer = "https://owner" ∧ d.Subject = "https://issuer1" ∧
        d.TrustMarkType = "badge-A" ∧ d.IssuedAt = 1000 ∧ d.Ref = "https://ref.example/a" := by
  have h := C19_DelegationJWT_payload demo.env demo.ownerEntity "badge-C" "https://issuer1" []
  obtain ⟨d, h1, h2, h3, h4, h5, h6, h7, -⟩ :=
    (C19_DelegationJWT_payload demo.env demo.ownerEntity "badge-A" "https://issuer1" []).2
      demo.ownedA (NewTrustMarkOwner_registryOK _ _ _) rfl
  exact ⟨h.1 rfl, d, h1, h2, h3, h4, h5, h6, h7⟩


/-- C20: the registries are last-write-wins maps. For an issuer whose registry is not nil,
`AddTrustMark(s)` returns, and afterwards the entry for the type of `s` is `s`, the entry for
every other type is what it was, so that no entry is removed, and the registry is still not
nil; likewise for an owner and the id of the entry; `NewTrustMarkIssuer` and
`NewTrustMarkOwner` build a registry that is not nil and keep, of several elements of their
list with one type, the last in list order. -/
theorem C20_registries_last_write_wins :
    (∀ (tmi : TrustMarkIssuer) (s : TrustMarkSpec), tmi.trustMarks ≠ none →
        ∃ tmi1, tmi.AddTrustMark s = some tmi1 ∧
          GoMap.index tmi1.trustMarks s.TrustMarkType = some s ∧
          (∀ k, k ≠ s.TrustMarkType →
            GoMap.index tmi1.trustMarks k = GoMap.index tmi.trustMarks k) ∧
          (∀ k, GoMap.index tmi.trustMarks k ≠ none → GoMap.index tmi1.trustMarks k ≠ none) ∧
          tmi1.EntityID = tmi.EntityID ∧ tmi1.trustMarks ≠ none) ∧
      (∀ (tmo : TrustMarkOwner) (s : OwnedTrustMark), tmo.ownedTrustMarks ≠ none →
        ∃ tmo1, tmo.AddTrustMark s = some tmo1 ∧
          GoMap.index tmo1.ownedTrustMarks s.ID = some s ∧
          (∀ k, k ≠ s.ID →
            GoMap.index tmo1.ownedTrustMarks k = GoMap.index tmo.ownedTrustMarks k) ∧
          (∀ k, GoMap.index tmo.ownedTrustMarks k ≠ none →
            GoMap.index tmo1.ownedTrustMarks k ≠ none) ∧
          tmo1.EntityID = tmo.EntityID ∧ tmo1.ownedTrustMarks ≠ none) ∧
      (∀ (entityID : String) (signer : TrustMarkSigner) (pre post : List TrustMarkSpec)
          (s : TrustMarkSpec), (∀ y ∈ post, y.TrustMarkType ≠ s.TrustMarkType) →
        GoMap.index (NewTrustMarkIssuer entityID signer (pre ++ s :: post)).trustMarks
          s.TrustMarkType = some s) ∧
      (∀ (entityID : String) (signer : TrustMarkDelegationSigner)
          (pre post : List OwnedTrustMark) (s : OwnedTrustMark), (∀ y ∈ post, y.ID ≠ s.ID) →
        GoMap.index (NewTrustMarkOwner entityID signer (pre ++ s :: post)).ownedTrustMarks
          s.ID = some s) ∧
      (∀ (entityID : String) (signer : TrustMarkSigner) (specs : List TrustMarkSpec),
        (NewTrustMarkIssuer entityID signer specs).trustMarks ≠ none) ∧
      (∀ (entityID : String) (signer : TrustMarkDelegationSigner)
          (owned : List OwnedTrustMark),
        (NewTrustMarkOwner entityID signer owned).ownedTrustMarks ≠ none) := by
  refine ⟨?_, ?_, ?_, ?_, fun _ _ _ => Option.some_ne_none _,
    fun _ _ _ => Option.some_ne_none _⟩
  · intro tmi s hn
    unfold TrustMarkIssuer.AddTrustMark
    cases hm : tmi.trustMarks with
    | none => exact absurd hm hn
    | some m =>
      have hself : GoMap.index (some (m.assign s.TrustMarkType s)) s.TrustMarkType = some s :=
        lookup_assign_self m s.TrustMarkType s
      have hother : ∀ k, k ≠ s.TrustMarkType →
          GoMap.index (some (m.assign s.TrustMarkType s)) k = GoMap.index (some m) k :=
        fun k hk => lookup_assign_ne m s.TrustMarkType k s hk
      refine ⟨_, rfl, hself, hother, ?_, rfl, Option.some_ne_none _⟩
      intro k hk
      by_cases hks : k = s.TrustMarkType
      · rw [hks]
        exact fun e => by rw [hself] at e; cases e
      · exact fun e => hk ((hother k hks).symm.trans e)
  · intro tmo s hn
    unfold TrustMarkOwner.AddTrustMark
    cases hm : tmo.ownedTrustMarks with
    | none => exact absurd hm hn
    | some m =>
      have hself : GoMap.index (some (m.assign s.ID s)) s.ID = some s :=
        lookup_assign_self m s.ID s
      have hother : ∀ k, k ≠ s.ID →
          GoMap.index (some (m.assign s.ID s)) k = GoMap.index (some m) k :=
        fun k hk => lookup_assign_ne m s.ID k s hk
      refine ⟨_, rfl, hself, hother, ?_, rfl, Option.some_ne_none _⟩
      intro k hk
      by_cases hks : k = s.ID
      · rw [hks]
        exact fun e => by rw [hself] at e; cases e
      · exact fun e => hk ((hother k hks).symm.trans e)
  · intro entityID signer pre post s h
    exact lookup_foldl_assign_last (fun x : TrustMarkSpec => x.TrustMarkType) pre post s [] h
  · intro entityID signer pre post s h
    exact lookup_foldl_assign_last (fun x : OwnedTrustMark => x.ID) pre post s [] h

/-- C20 at issuer1, built from a list with two specs of badge-A, and after a third is added;
the entry of badge-B stays. -/
theorem C20_witness :
    GoMap.index demo.issuer.trustMarks "badge-A" = some demo.badgeA ∧
      ∃ tmi1, demo.issuer.AddTrustMark demo.badgeAOld = some tmi1 ∧
        GoMap.index tmi1.trustMarks "badge-A" = some demo.badgeAOld ∧
        GoMap.index tmi1.trustMarks "badge-B" = some demo.badgeB := by
  obtain ⟨tmi1, h1, h2, h3, -⟩ :=
    C20_registries_last_write_wins.1 demo.issuer demo.badgeAOld
      (C20_registries_last_write_wins.2.2.2.2.1 _ _ _)
  refine ⟨C20_registries_last_write_wins.2.2.1 "https://issuer1" demo.markSigner
    [demo.badgeAOld, demo.badgeB] [] demo.badgeA (fun y hy => by cases hy), tmi1, h1, h2, ?_⟩
  rw [h3 "badge-B" (by decide)]
  rfl

/-- C21: for a delegation `d` with a valid time window and a trust anchor `ta`,
`DelegationJWT.VerifyFederation(ta)` fails with the error `unknown trust mark owner` if
`ta.TrustMarkOwners` has no entry for the type of `d`, and with an entry returns no error if and
only if the signature of `d` verifies against the key set of that entry; with an invalid time
window it fails with the wrapped error of the time validator whatever the owners of the anchor
are. -/
theorem C21_DelegationJWT_VerifyFederation (env : Env) (d : DelegationJWT)
    (ta : EntityStatementPayload) :
    (unixtime.VerifyTime env.now d.IssuedAt d.ExpiresAt = none →
        (ta.TrustMarkOwners.lookup d.TrustMarkType = none →
          d.VerifyFederation env ta =
            some (errors.New "verify delegation jwt: unknown trust mark owner")) ∧
        (∀ owner, ta.TrustMarkOwners.lookup d.TrustMarkType = some owner →
          (d.VerifyFederation env ta = none ↔ env.VerifyWithSet d.jwtMsg owner.JWKS = none))) ∧
      (∀ e, unixtime.VerifyTime env.now d.IssuedAt d.ExpiresAt = some e →
        ∀ owners : GoMap TrustMarkOwnerSpec,
          DelegationJWT.VerifyFederation env d { ta with TrustMarkOwners := owners } =
            some (Error.wrap e "verify delegation jwt")) := by
  constructor
  · intro ht
    constructor
    · intro ho
      unfold DelegationJWT.VerifyFederation
      simp only [ht, ho]
    · intro owner ho
      unfold DelegationJWT.VerifyFederation
      simp only [ht, ho]
      cases env.VerifyWithSet d.jwtMsg owner.JWKS <;> simp [errors.Wrap]
  · intro e he owners
    unfold DelegationJWT.VerifyFederation
    simp only [he, errors.Wrap]

/-- C21 at the delegation `grant`: the anchor with the owner of badge-A accepts it, the anchor
without owners does not know the owner, and issued in the future it fails on the time. -/
theorem C21_witness :
    demo.grant.VerifyFederation demo.env demo.anchor = none ∧
      demo.grant.VerifyFederation demo.env demo.anchorNoOwner =
        some (errors.New "verify delegation jwt: unknown trust mark owner") ∧
      demo.grantEarly.VerifyFederation demo.env demo.anchorNoOwner =
        some (Error.wrap unixtime.ErrNotYetValid "verify delegation jwt") :=
  ⟨(((C21_DelegationJWT_VerifyFederation demo.env demo.grant demo.anchor).1 (by decide)).2
      demo.owner rfl).mpr (by decide),
    ((C21_DelegationJWT_VerifyFederation demo.env demo.grant demo.anchorNoOwner).1
      (by decide)).1 rfl,
    (C21_DelegationJWT_VerifyFederation demo.env demo.grantEarly demo.anchorNoOwner).2
      unixtime.ErrNotYetValid (by decide) []⟩

/-- C22: for a trust mark with nothing cached: with an empty embedded token
`TrustMark.Delegation()` returns (nil, nil), parses nothing and leaves the mark as it was; with
a non-empty token it hands that token to the parser, and when the parse gives `d` it returns `d`
and caches it, after which every call, whatever the parser would answer, returns `d`, parses
nothing and leaves the mark as it is; when the parse fails it returns the error and leaves the
mark, so its empty cache, as it was, and the next call hands the token to the parser again and
returns what the parser then answers. -/
theorem C22_Delegation_cache (env : Env) (tm : TrustMark) (hc : tm.delegation = none) :
    (tm.DelegationJWT = "" → tm.Delegation env = (.ok none, tm) ∧ tm.DelegationParses = []) ∧
      (tm.DelegationJWT ≠ "" →
        tm.DelegationParses = [tm.DelegationJWT] ∧
        (∀ d, parseDelegationJWT env tm.DelegationJWT = .ok d →
          tm.Delegation env = (.ok (some d), { tm with delegation := some d }) ∧
          TrustMark.DelegationParses { tm with delegation := some d } = [] ∧
          ∀ env2 : Env, TrustMark.Delegation env2 { tm with delegation := some d } =
            (.ok (some d), { tm with delegation := some d })) ∧
        (∀ e, parseDelegationJWT env tm.DelegationJWT = .error e →
          tm.Delegation env = (.error e, tm) ∧
          (tm.Delegation env).2.delegation = none ∧
          (tm.Delegation env).2.DelegationParses = [tm.DelegationJWT] ∧
          ∀ env2 : Env, ((tm.Delegation env).2.Delegation env2).1 =
            (match parseDelegationJWT env2 tm.DelegationJWT with
             | .error err => .error err
             | .ok d => .ok (some d)))) := by
  constructor
  · intro he
    unfold TrustMark.Delegation TrustMark.DelegationParses
    simp only [hc, he, if_true, and_self]
  · intro hne
    refine ⟨?_, ?_, ?_⟩
    · unfold TrustMark.DelegationParses
      simp only [hc, hne, if_false]
    · intro d hd
      refine ⟨?_, rfl, fun env2 => rfl⟩
      unfold TrustMark.Delegation
      simp only [hc, hne, if_false, hd]
    · intro e he
      have h1 : tm.Delegation env = (.error e, tm) := by
        unfold TrustMark.Delegation
        simp only [hc, hne, if_false, he]
      refine ⟨h1, ?_, ?_, ?_⟩
      · rw [h1]; exact hc
      · rw [h1]
        unfold TrustMark.DelegationParses
        simp only [hc, hne, if_false]
      · intro env2
        rw [h1]
        unfold TrustMark.Delegation
        simp only [hc, hne, if_false]
        cases parseDelegationJWT env2 tm.DelegationJWT <;> rfl

/-- C22 at the mark `plain.jws`, without embedded token, and at the mark `mark.jws`, whose
embedded token parses as `grant`. -/
theorem C22_witness :
    demo.plain.Delegation demo.env = (.ok none, demo.plain) ∧
      demo.mark.Delegation demo.env =
        (.ok (some demo.grant), { demo.mark with delegation := some demo.grant }) ∧
      TrustMark.Delegation { demo.env with Parse := fun _ => .error (Error.msg "no parser") }
          { demo.mark with delegation := some demo.grant } =
        (.ok (some demo.grant), { demo.mark with delegation := some demo.grant }) :=
  ⟨((C22_Delegation_cache demo.env demo.plain rfl).1 rfl).1,
    (((C22_Delegation_cache demo.env demo.mark rfl).2 (by decide)).2.1 demo.grant rfl).1,
    (((C22_Delegation_cache demo.env demo.mark rfl).2 (by decide)).2.1 demo.grant rfl).2.2 _⟩


/-- C23, as stated, fails: two calls of `TrustMarkInfo.TrustMark` on the info around a token
that does not parse return the same error and hand the token to the parser twice. -/
theorem C23_counterexample :
    (demo.broken.TrustMarkTimes demo.env 2).1 =
        [.error (Error.msg "invalid compact serialization"),
         .error (Error.msg "invalid compact serialization")] ∧
      (demo.broken.TrustMarkTimes demo.env 2).2.1 = ["garbage", "garbage"] ∧
      ¬ (demo.broken.TrustMarkTimes demo.env 2).2.1.length ≤ 1 :=
  ⟨rfl, by decide, by decide⟩

/-- C23, amended: any number `n` of successive calls of `TrustMarkInfo.TrustMark` on one info
return `n` results that are all the result of the first call; when that result is a mark the raw
token is handed to the parser at most once over all the calls; when it is an error the token is
handed to the parser by every one of the calls. -/
theorem C23_TrustMark_repeated (env : Env) (info : TrustMarkInfo) (n : Nat) :
    (info.TrustMarkTimes env n).1 = List.replicate n (info.TrustMark env).1 ∧
      (∀ t, (info.TrustMark env).1 = .ok t → (info.TrustMarkTimes env n).2.1.length ≤ 1) ∧
      (∀ e, (info.TrustMark env).1 = .error e →
        (info.TrustMarkTimes env n).2.1 = List.replicate n info.TrustMarkJWT) := by
  cases hr : (info.TrustMark env).1 with
  | error e =>
    rw [TrustMarkTimes_of_error hr n]
    refine ⟨rfl, ?_, fun _ _ => rfl⟩
    intro t ht
    cases ht
  | ok t =>
    obtain ⟨hc, hm⟩ := TrustMark_ok_cached hr
    cases n with
    | zero =>
      refine ⟨rfl, fun _ _ => Nat.zero_le _, ?_⟩
      intro e he
      cases he
    | succ n =>
      unfold TrustMarkInfo.TrustMarkTimes
      rw [TrustMarkTimes_of_cached hc hm env n, hr]
      refine ⟨rfl, fun _ _ => ?_, ?_⟩
      · simp only [List.append_nil]
        unfold TrustMarkInfo.TrustMarkParses
        split
        · simp
        · split <;> simp
      · intro e he
        cases he

/-- C23, amended, at the info around `mark.jws`: three calls return the mark `mark` three times
and parse the token once. -/
theorem C23_witness :
    (demo.labelled.TrustMarkTimes demo.env 3).1 =
        [.ok demo.mark, .ok demo.mark, .ok demo.mark] ∧
      (demo.labelled.TrustMarkTimes demo.env 3).2.1 = ["mark.jws"] ∧
      (demo.labelled.TrustMarkTimes demo.env 3).2.1.length ≤ 1 :=
  ⟨(C23_TrustMark_repeated demo.env demo.labelled 3).1.trans rfl, by decide,
    (C23_TrustMark_repeated demo.env demo.labelled 3).2.1 demo.mark rfl⟩


/-- C24: `TrustMarkInfos.VerifiedExternal` returns, in the order of the list, the infos for
which `TrustMarkInfo.VerifyExternal` returns no error, each as that call leaves it, which is
with its `TrustMarkType`, `TrustMarkJWT` and `Extra` as they were; the result for a list `xs`
followed by a list `ys` is the result for `xs` followed by the result for `ys`, so that no item
changes whether another is included; and likewise `TrustMarkInfos.VerifiedFederation` with
`TrustMarkInfo.VerifyFederation`. -/
theorem C24_Verified_filter (env : Env) (tms : TrustMarkInfos) (K : jwks.JWKS)
    (tmo : List TrustMarkOwnerSpec) (ta : EntityStatementPayload) :
    (TrustMarkInfos.VerifiedExternal env tms K tmo =
        (tms.filter (fun tm => (tm.VerifyExternal env K tmo).1.isNone)).map
          (fun tm => (tm.VerifyExternal env K tmo).2) ∧
      (TrustMarkInfos.VerifiedExternal env tms K tmo).map
          (fun tm => (tm.TrustMarkType, tm.TrustMarkJWT, tm.Extra)) =
        (tms.filter (fun tm => (tm.VerifyExternal env K tmo).1.isNone)).map
          (fun tm => (tm.TrustMarkType, tm.TrustMarkJWT, tm.Extra)) ∧
      ∀ xs ys : TrustMarkInfos,
        TrustMarkInfos.VerifiedExternal env (xs ++ ys) K tmo =
          TrustMarkInfos.VerifiedExternal env xs K tmo ++
            TrustMarkInfos.VerifiedExternal env ys K tmo) ∧
    (TrustMarkInfos.VerifiedFederation env tms ta =
        (tms.filter (fun tm => (tm.VerifyFederation env ta).1.isNone)).map
          (fun tm => (tm.VerifyFederation env ta).2) ∧
      (TrustMarkInfos.VerifiedFederation env tms ta).map
          (fun tm => (tm.TrustMarkType, tm.TrustMarkJWT, tm.Extra)) =
        (tms.filter (fun tm => (tm.VerifyFederation env ta).1.isNone)).map
          (fun tm => (tm.TrustMarkType, tm.TrustMarkJWT, tm.Extra)) ∧
      ∀ xs ys : TrustMarkInfos,
        TrustMarkInfos.VerifiedFederation env (xs ++ ys) ta =
          TrustMarkInfos.VerifiedFederation env xs ta ++
            TrustMarkInfos.VerifiedFederation env ys ta) := by
  have hE : ∀ l : TrustMarkInfos, TrustMarkInfos.VerifiedExternal env l K tmo =
      (l.filter (fun tm => (tm.VerifyExternal env K tmo).1.isNone)).map
        (fun tm => (tm.VerifyExternal env K tmo).2) := by
    intro l
    have h := foldl_append_kept (fun tm : TrustMarkInfo => (tm.VerifyExternal env K tmo).1.isNone)
      (fun tm => (tm.VerifyExternal env K tmo).2) l []
    rw [List.nil_append] at h
    rw [← h]
    unfold TrustMarkInfos.VerifiedExternal
    congr 1
    funext verified tm
    rcases hv : tm.VerifyExternal env K tmo with ⟨err, tm1⟩
    cases err <;> simp
  have hF : ∀ l : TrustMarkInfos, TrustMarkInfos.VerifiedFederation env l ta =
      (l.filter (fun tm => (tm.VerifyFederation env ta).1.isNone)).map
        (fun tm => (tm.VerifyFederation env ta).2) := by
    intro l
    have h := foldl_append_kept (fun tm : TrustMarkInfo => (tm.VerifyFederation env ta).1.isNone)
      (fun tm => (tm.VerifyFederation env ta).2) l []
    rw [List.nil_append] at h
    rw [← h]
    unfold TrustMarkInfos.VerifiedFederation
    congr 1
    funext verified tm
    rcases hv : tm.VerifyFederation env ta with ⟨err, tm1⟩
    cases err <;> simp
  refine ⟨⟨hE tms, ?_, ?_⟩, ⟨hF tms, ?_, ?_⟩⟩
  · rw [hE tms, List.map_map]
    apply List.map_congr_left
    intro tm _
    obtain ⟨h1, h2, h3⟩ := TrustMarkInfo_VerifyExternal_fields env tm K tmo
    simp only [Function.comp, h1, h2, h3]
  · intro xs ys
    rw [hE, hE, hE, List.filter_append, List.map_append]
  · rw [hF tms, List.map_map]
    apply List.map_congr_left
    intro tm _
    obtain ⟨h1, h2, h3⟩ := TrustMarkInfo_VerifyFederation_fields env tm ta
    simp only [Function.comp, h1, h2, h3]
  · intro xs ys
    rw [hF, hF, hF, List.filter_append, List.map_append]

/-- C25: `TrustMarkInfos.Find(matcher)` returns nil if and only if no element satisfies the
matcher, and returns `x` if and only if `x` is the first element, in list order, that satisfies
it; `TrustMarkInfos.FindByID(id)` is `Find` with the matcher `TrustMarkType == id`, and returns
`x` if and only if `x` is the first info whose type is `id`. -/
theorem C25_Find_first (tms : TrustMarkInfos) (matcher : TrustMarkInfo → Bool) :
    (TrustMarkInfos.Find tms matcher = none ↔ ∀ x ∈ tms, matcher x = false) ∧
      (∀ x, TrustMarkInfos.Find tms matcher = some x ↔
        ∃ pre post, tms = pre ++ x :: post ∧ matcher x = true ∧
          ∀ y ∈ pre, matcher y = false) ∧
      (∀ id, TrustMarkInfos.FindByID tms id =
        TrustMarkInfos.Find tms (fun info => info.TrustMarkType == id)) ∧
      (∀ id x, TrustMarkInfos.FindByID tms id = some x ↔
        ∃ pre post, tms = pre ++ x :: post ∧ x.TrustMarkType = id ∧
          ∀ y ∈ pre, y.TrustMarkType ≠ id) := by
  have hnone : ∀ (l : TrustMarkInfos) (m : TrustMarkInfo → Bool),
      TrustMarkInfos.Find l m = none ↔ ∀ x ∈ l, m x = false := by
    intro l m
    induction l with
    | nil => simp [TrustMarkInfos.Find]
    | cons a rest ih =>
      unfold TrustMarkInfos.Find
      by_cases ha : m a = true
      · simp [ha]
      · simp [ha, ih]
  have hsome : ∀ (l : TrustMarkInfos) (m : TrustMarkInfo → Bool) (x : TrustMarkInfo),
      TrustMarkInfos.Find l m = some x ↔
        ∃ pre post, l = pre ++ x :: post ∧ m x = true ∧ ∀ y ∈ pre, m y = false := by
    intro l m x
    induction l with
    | nil => simp [TrustMarkInfos.Find]
    | cons a rest ih =>
      unfold TrustMarkInfos.Find
      by_cases ha : m a = true
      · simp only [ha, if_true]
        constructor
        · intro h
          cases h
          exact ⟨[], rest, rfl, ha, fun y hy => by cases hy⟩
        · rintro ⟨pre, post, hl, hx, hpre⟩
          cases pre with
          | nil =>
            simp only [List.nil_append, List.cons.injEq] at hl
            rw [hl.1]
          | cons b pre1 =>
            simp only [List.cons_append, List.cons.injEq] at hl
            have := hpre b (List.mem_cons_self _ _)
            rw [← hl.1, ha] at this
            cases this
      · have ha2 : m a = false := by simpa using ha
        simp only [ha2, Bool.false_eq_true, if_false, ih]
        constructor
        · rintro ⟨pre, post, hl, hx, hpre⟩
          refine ⟨a :: pre, post, by rw [hl]; rfl, hx, ?_⟩
          intro y hy
          rcases List.mem_cons.mp hy with e | e
          · rw [e]; exact ha2
          · exact hpre y e
        · rintro ⟨pre, post, hl, hx, hpre⟩
          cases pre with
          | nil =>
            simp only [List.nil_append, List.cons.injEq] at hl
            rw [← hl.1, ha2] at hx
            cases hx
          | cons b pre1 =>
            simp only [List.cons_append, List.cons.injEq] at hl
            exact ⟨pre1, post, hl.2, hx, fun y hy => hpre y (List.mem_cons_of_mem _ hy)⟩
  refine ⟨hnone tms matcher, hsome tms matcher, fun id => rfl, ?_⟩
  intro id x
  unfold TrustMarkInfos.FindByID
  rw [hsome]
  constructor
  · rintro ⟨pre, post, hl, hx, hpre⟩
    refine ⟨pre, post, hl, by simpa using hx, ?_⟩
    intro y hy
    simpa using hpre y hy
  · rintro ⟨pre, post, hl, hx, hpre⟩
    refine ⟨pre, post, hl, by simpa using hx, ?_⟩
    intro y hy
    simpa using hpre y hy



/-- C24 at a list of four infos: the mislabelled and the unparsable one are left out, the other
two stay in their order. -/
theorem C24_witness :
    (TrustMarkInfos.VerifiedExternal demo.env
        [demo.labelled, demo.mislabelled, demo.broken, demo.plainInfo] demo.issuerKeys []).map
        (fun tm => (tm.TrustMarkType, tm.TrustMarkJWT)) =
      [("badge-A", "mark.jws"), ("badge-A", "plain.jws")] ∧
    (TrustMarkInfos.VerifiedFederation demo.env
        [demo.broken, demo.plainInfo, demo.labelled] demo.anchor).map
        (fun tm => (tm.TrustMarkType, tm.TrustMarkJWT)) =
      [("badge-A", "mark.jws")] := by
  have h := C24_Verified_filter demo.env
    [demo.labelled, demo.mislabelled, demo.broken, demo.plainInfo] demo.issuerKeys []
    demo.anchor
  have h2 := C24_Verified_filter demo.env [demo.broken, demo.plainInfo, demo.labelled]
    demo.issuerKeys [] demo.anchor
  constructor
  · rw [h.1.1]
    decide
  · rw [h2.2.1]
    decide

/-- C25 at a list of three infos, two of them of type badge-A. -/
theorem C25_witness :
    (TrustMarkInfos.FindByID [demo.mislabelled, demo.plainInfo, demo.labelled] "badge-A").map
        (fun tm => tm.TrustMarkJWT) = some "plain.jws" ∧
      TrustMarkInfos.FindByID [demo.mislabelled, demo.plainInfo, demo.labelled] "badge-C" =
        none :=
  ⟨congrArg (Option.map fun tm => tm.TrustMarkJWT)
      (((C25_Find_first [demo.mislabelled, demo.plainInfo, demo.labelled]
        (fun _ => true)).2.2.2 "badge-A" demo.plainInfo).mpr
        ⟨[demo.mislabelled], [demo.labelled], rfl, rfl, fun y hy => by
          rcases List.mem_singleton.mp hy with rfl
          decide⟩),
    (C25_Find_first [demo.mislabelled, demo.plainInfo, demo.labelled]
      (fun info => info.TrustMarkType == "badge-C")).1.mpr (fun x hx => by
        simp only [List.mem_cons, List.mem_singleton, List.not_mem_nil, or_false] at hx
        rcases hx with rfl | rfl | rfl <;> decide)⟩

/-- C26: for an info `i` whose extra fields have distinct names, none of them a name of the
fixed schema, `MarshalJSON` gives the JSON object with `trust_mark_type`, `trust_mark` (the raw
token as a string) and the extra fields at the same top level, and `UnmarshalJSON` of that
object, into any info, gives an info with the `TrustMarkType`, the `TrustMarkJWT` and the
`Extra` of `i`. -/
theorem C26_TrustMarkInfo_roundtrip (i target : TrustMarkInfo)
    (hnodup : (i.Extra.map Prod.fst).Nodup)
    (hschema : ∀ kv ∈ i.Extra, kv.1 ≠ "trust_mark_type" ∧ kv.1 ≠ "trust_mark") :
    i.MarshalJSON =
        .ok (JSONValue.object
          (("trust_mark_type", JSONValue.string i.TrustMarkType) ::
            ("trust_mark", JSONValue.string i.TrustMarkJWT) :: i.Extra)) ∧
      ∃ i2, i.MarshalJSON.bind target.UnmarshalJSON = .ok i2 ∧
        i2.TrustMarkType = i.TrustMarkType ∧ i2.TrustMarkJWT = i.TrustMarkJWT ∧
        i2.Extra = i.Extra := by
  have hM : i.MarshalJSON =
      .ok (JSONValue.object
        (("trust_mark_type", JSONValue.string i.TrustMarkType) ::
          ("trust_mark", JSONValue.string i.TrustMarkJWT) :: i.Extra)) := by
    unfold TrustMarkInfo.MarshalJSON TrustMarkInfo.explicitFields extraMarshalHelper
    simp only
    rw [foldl_assign_append i.Extra _ hnodup]
    · rfl
    · intro e he b hb
      simp only [List.mem_cons, List.mem_singleton, List.not_mem_nil, or_false] at hb
      rcases hb with rfl | rfl
      · exact fun h => (hschema e he).1 h.symm
      · exact fun h => (hschema e he).2 h.symm
  refine ⟨hM, ?_⟩
  rw [hM]
  have hfilter : i.Extra.filter (fun kv => kv.1 != "trust_mark_type" && kv.1 != "trust_mark") =
      i.Extra := by
    apply List.filter_eq_self.mpr
    intro kv hkv
    obtain ⟨h1, h2⟩ := hschema kv hkv
    simp [h1, h2]
  simp only [Except.bind, TrustMarkInfo.UnmarshalJSON, unmarshalWithExtraInfo,
    decodeStringField, List.lookup, beq_self_eq_true]
  have hb : ("trust_mark" == "trust_mark_type") = false := by decide
  simp only [hb, beq_self_eq_true]
  refine ⟨_, rfl, rfl, rfl, ?_⟩
  simp only [List.filter_cons, bne_self_eq_false, Bool.false_and, Bool.and_false,
    Bool.false_eq_true, if_false]
  exact hfilter

/-- C26 at an info with two extra fields, read back into an empty info. -/
theorem C26_witness :
    demo.richInfo.MarshalJSON =
        .ok (JSONValue.object
          [("trust_mark_type", JSONValue.string "badge-A"),
           ("trust_mark", JSONValue.string "mark.jws"),
           ("assurance", JSONValue.string "high"), ("level", JSONValue.number 3)]) ∧
      ∃ i2, demo.richInfo.MarshalJSON.bind (TrustMarkInfo.UnmarshalJSON {}) = .ok i2 ∧
        i2.TrustMarkType = "badge-A" ∧ i2.TrustMarkJWT = "mark.jws" ∧
        i2.Extra = [("assurance", JSONValue.string "high"), ("level", JSONValue.number 3)] :=
  C26_TrustMarkInfo_roundtrip demo.richInfo {} (by decide) (by
    intro kv hkv
    simp only [demo.richInfo, List.mem_cons, List.mem_singleton, List.not_mem_nil,
      or_false] at hkv
    rcases hkv with rfl | rfl <;> exact ⟨by decide, by decide⟩)


/-- C27: for a list `ids` of entity ids, the `EntityIDs()` of
`NewTrustAnchorsFromEntityIDs(ids...)` is `ids`, there is one anchor for each id and every
anchor has the zero `JWKS`; and for a list of anchors the `i`-th element of `EntityIDs()` is the
`EntityID` of the `i`-th anchor, the two lists having one length. -/
theorem C27_TrustAnchors_EntityIDs (ids : List String) (anchors : TrustAnchors) :
    TrustAnchors.EntityIDs (NewTrustAnchorsFromEntityIDs ids) = ids ∧
      (NewTrustAnchorsFromEntityIDs ids).length = ids.length ∧
      (∀ ta ∈ NewTrustAnchorsFromEntityIDs ids, ta.JWKS = {}) ∧
      (TrustAnchors.EntityIDs anchors).length = anchors.length ∧
      ∀ i : Nat, (TrustAnchors.EntityIDs anchors)[i]? =
        (anchors[i]?).map (fun ta => ta.EntityID) := by
  have hE : ∀ l : TrustAnchors, TrustAnchors.EntityIDs l = l.map (fun ta => ta.EntityID) := by
    intro l
    unfold TrustAnchors.EntityIDs
    rw [foldl_append_map (fun ta : TrustAnchor => ta.EntityID) l []]
    rfl
  have hN : NewTrustAnchorsFromEntityIDs ids =
      ids.map (fun id => ({ EntityID := id } : TrustAnchor)) := by
    unfold NewTrustAnchorsFromEntityIDs
    rw [foldl_append_map (fun id => ({ EntityID := id } : TrustAnchor)) ids []]
    rfl
  refine ⟨?_, ?_, ?_, ?_, ?_⟩
  · rw [hE, hN, List.map_map]
    exact List.map_id _
  · rw [hN, List.length_map]
  · intro ta hta
    rw [hN] at hta
    obtain ⟨id, -, rfl⟩ := List.mem_map.mp hta
    rfl
  · rw [hE, List.length_map]
  · intro i
    rw [hE, List.getElem?_map]

/-- C28, as stated, fails: with the lifetime argument 9223372037, which is positive, the
nanoseconds of the lifetime do not fit an `int64` and the payload expires before it is issued,
not 9223372037 seconds after. -/
theorem C28_counterexample :
    (NewFederationEntity demo.env "https://issuer1" [] none demo.statementSigner 9223372037
        []).map (fun f => ((f.EntityConfigurationPayload demo.env).IssuedAt,
          (f.EntityConfigurationPayload demo.env).ExpiresAt)) =
      .ok (1000, 1000 - 9223372036709551616) ∧
      (1000 - 9223372036709551616 : Int) ≠ 1000 + 9223372037 * 1000000000 :=
  ⟨rfl, by decide⟩

/-- C28, amended: `NewFederationEntity` returns an entity and no error, and the payload that
`EntityConfigurationPayload` builds for that entity has `Issuer` and `Subject` the `EntityID`,
`IssuedAt` the current time, and, with `c` the lifetime argument `n` if `n > 0` and the default
entity configuration lifetime if `n ≤ 0`, `ExpiresAt` `c` seconds after `IssuedAt` whenever `c`
seconds fit a `time.Duration`, which is for `c` from -9223372036 to 9223372036. -/
theorem C28_EntityConfigurationPayload_lifetime (env : Env) (entityID : String)
    (authorityHints : List String) (metadata : Option Metadata)
    (signer : EntityStatementSigner) (n : Int) (extra : Extra) :
    ∃ f, NewFederationEntity env entityID authorityHints metadata signer n extra = .ok f ∧
      f.EntityID = entityID ∧
      f.ConfigurationLifetime = (if 0 < n then n else env.defaultEntityConfigurationLifetime) ∧
      (f.EntityConfigurationPayload env).Issuer = entityID ∧
      (f.EntityConfigurationPayload env).Subject = entityID ∧
      (f.EntityConfigurationPayload env).IssuedAt = env.now ∧
      ∀ c : Int, c = (if 0 < n then n else env.defaultEntityConfigurationLifetime) →
        -9223372036 ≤ c → c ≤ 9223372036 →
        (f.EntityConfigurationPayload env).ExpiresAt =
          (f.EntityConfigurationPayload env).IssuedAt + c * 1000000000 := by
  have hl : (if n ≤ 0 then env.defaultEntityConfigurationLifetime else n) =
      (if 0 < n then n else env.defaultEntityConfigurationLifetime) := by
    by_cases h : 0 < n
    · simp [h, not_le.mpr h]
    · simp [h, not_lt.mp h]
  refine ⟨_, rfl, rfl, hl, rfl, rfl, rfl, ?_⟩
  intro c hc h1 h2
  show env.now + int64 (time.Second *
    (if n ≤ 0 then env.defaultEntityConfigurationLifetime else n)) = env.now + c * 1000000000
  rw [hl, ← hc]
  have : time.Second * c = c * 1000000000 := by
    unfold time.Second
    ring
  rw [this, int64_of_range _ (by omega) (by omega)]

/-- C28, amended, at issuer1 with a lifetime of one hour, and with the lifetime 0, for which
the default of one day is taken. -/
theorem C28_witness :
    (NewFederationEntity demo.env "https://issuer1" [] none demo.statementSigner 3600 []).map
        (fun f => ((f.EntityConfigurationPayload demo.env).Issuer,
          (f.EntityConfigurationPayload demo.env).Subject,
          (f.EntityConfigurationPayload demo.env).IssuedAt,
          (f.EntityConfigurationPayload demo.env).ExpiresAt)) =
      .ok ("https://issuer1", "https://issuer1", 1000, 1000 + 3600 * 1000000000) ∧
    (NewFederationEntity demo.env "https://issuer1" [] none demo.statementSigner 0 []).map
        (fun f => (f.EntityConfigurationPayload demo.env).ExpiresAt) =
      .ok (1000 + 86400 * 1000000000) := by
  obtain ⟨f, hf, -, -, h1, h2, h3, h4⟩ :=
    C28_EntityConfigurationPayload_lifetime demo.env "https://issuer1" [] none
      demo.statementSigner 3600 []
  obtain ⟨g, hg, -, -, -, -, g3, g4⟩ :=
    C28_EntityConfigurationPayload_lifetime demo.env "https://issuer1" [] none
      demo.statementSigner 0 []
  constructor
  · rw [hf]
    simp only [Except.map]
    rw [h4 3600 (by decide) (by decide) (by decide), h1, h2, h3]
    rfl
  · rw [hg]
    simp only [Except.map]
    rw [g4 86400 (by decide) (by decide) (by decide), g3]
    rfl


/-- C29: `TrustMark.VerifyFederation` checks in the order allow-list, issuer keys, time,
signature, delegation, and stops at the first failure. An issuer that a declared allow-list
excludes gets the issuer-not-allowed error whatever the environment, so whatever key resolution
would answer; when the allow-list passes and key resolution fails, its error is returned
whatever the clock, the signature verification and the token parser are; when the keys resolve
and the time check fails, its error is returned whatever the signature verification is and
whether or not an owner is declared; when the time check passes and the signature check fails,
its error is returned, wrapped, whether or not an owner is declared and whatever the token
parser is; and when no error is returned, the allow-list passes, the keys resolve, the time and
the signature are valid and, if the anchor declares an owner for the type, the mark has a
delegation that passes the three cross-checks and its own verification against the keys of the
owner. -/
theorem C29_VerifyFederation_order (env : Env) (tm : TrustMark)
    (ta : EntityStatementPayload) :
    (∀ issuers tmis, ta.TrustMarkIssuers = some issuers →
        issuers.lookup tm.TrustMarkType = some tmis → tm.Issuer ∉ tmis →
        ∀ env2 : Env, tm.VerifyFederation env2 ta =
          (some (errors.New
            "verify trustmark: trust mark issuer is not allowed by trust anchor"), tm)) ∧
      (issuerAllowed tm ta = none →
        ∀ err, getTrustMarkIssuerJWKS env tm.Issuer ta = .error err →
        ∀ (now2 : unixtime.Unixtime)
          (verify2 : Option jwx.ParsedJWT → jwks.JWKS → Option Error)
          (parse2 : String → Except Error jwx.ParsedJWT),
          TrustMark.VerifyFederation
            { env with now := now2, VerifyWithSet := verify2, Parse := parse2 } tm ta =
            (some err, tm)) ∧
      (issuerAllowed tm ta = none →
        ∀ K, getTrustMarkIssuerJWKS env tm.Issuer ta = .ok K →
        ∀ e, unixtime.VerifyTime env.now tm.IssuedAt tm.ExpiresAt = some e →
        ∀ (verify2 : Option jwx.ParsedJWT → jwks.JWKS → Option Error)
          (owners : GoMap TrustMarkOwnerSpec),
          TrustMark.VerifyFederation { env with VerifyWithSet := verify2 } tm
            { ta with TrustMarkOwners := owners } = (some e, tm)) ∧
      (issuerAllowed tm ta = none →
        ∀ K, getTrustMarkIssuerJWKS env tm.Issuer ta = .ok K →
        unixtime.VerifyTime env.now tm.IssuedAt tm.ExpiresAt = none →
        ∀ e, env.VerifyWithSet tm.jwtMsg K = some e →
        ∀ (parse2 : String → Except Error jwx.ParsedJWT) (owners : GoMap TrustMarkOwnerSpec),
          TrustMark.VerifyFederation { env with Parse := parse2 } tm
            { ta with TrustMarkOwners := owners } =
            (some (Error.wrap e "verify trustmark"), tm)) ∧
      ((tm.VerifyFederation env ta).1 = none →
        issuerAllowed tm ta = none ∧
        ∃ K, getTrustMarkIssuerJWKS env tm.Issuer ta = .ok K ∧
          unixtime.VerifyTime env.now tm.IssuedAt tm.ExpiresAt = none ∧
          env.VerifyWithSet tm.jwtMsg K = none ∧
          ∀ owner, ta.TrustMarkOwners.lookup tm.TrustMarkType = some owner →
            ∃ d, (tm.Delegation env).1 = .ok (some d) ∧
              d.TrustMarkType = tm.TrustMarkType ∧ d.Subject = tm.Issuer ∧
              d.Issuer = owner.ID ∧
              unixtime.VerifyTime env.now d.IssuedAt d.ExpiresAt = none ∧
              env.VerifyWithSet d.jwtMsg owner.JWKS = none) := by
  refine ⟨?_, ?_, ?_, ?_, ?_⟩
  · intro issuers tmis h1 h2 h3 env2
    unfold TrustMark.VerifyFederation issuerAllowed
    simp [h1, h2, h3]
  · intro ha err hk now2 verify2 parse2
    have hk2 : getTrustMarkIssuerJWKS
        { env with now := now2, VerifyWithSet := verify2, Parse := parse2 } tm.Issuer ta =
        .error err := hk
    unfold TrustMark.VerifyFederation
    simp only [ha, hk2]
  · intro ha K hk e ht verify2 owners
    have ha2 : issuerAllowed tm { ta with TrustMarkOwners := owners } = none := ha
    have hk2 : getTrustMarkIssuerJWKS { env with VerifyWithSet := verify2 } tm.Issuer
        { ta with TrustMarkOwners := owners } = .ok K := hk
    unfold TrustMark.VerifyFederation
    simp only [ha2, hk2]
    cases owners.lookup tm.TrustMarkType with
    | none =>
      unfold TrustMark.VerifyExternal
      simp only [ht]
    | some o =>
      unfold TrustMark.VerifyExternal
      simp only [ht]
  · intro ha K hk ht e hs parse2 owners
    have ha2 : issuerAllowed tm { ta with TrustMarkOwners := owners } = none := ha
    have hk2 : getTrustMarkIssuerJWKS { env with Parse := parse2 } tm.Issuer
        { ta with TrustMarkOwners := owners } = .ok K := hk
    unfold TrustMark.VerifyFederation
    simp only [ha2, hk2]
    cases owners.lookup tm.TrustMarkType with
    | none =>
      unfold TrustMark.VerifyExternal
      simp only [ht, hs, errors.Wrap]
    | some o =>
      unfold TrustMark.VerifyExternal
      simp only [ht, hs, errors.Wrap]
  · intro h
    unfold TrustMark.VerifyFederation at h
    cases ha : issuerAllowed tm ta with
    | some err => simp [ha] at h
    | none =>
      simp only [ha] at h
      refine ⟨rfl, ?_⟩
      cases hk : getTrustMarkIssuerJWKS env tm.Issuer ta with
      | error err => simp [hk] at h
      | ok K =>
        simp only [hk] at h
        refine ⟨K, rfl, ?_⟩
        cases ht : unixtime.VerifyTime env.now tm.IssuedAt tm.ExpiresAt with
        | some e =>
          exfalso
          cases ho : ta.TrustMarkOwners.lookup tm.TrustMarkType <;>
            simp [TrustMark.VerifyExternal, ht, ho] at h
        | none =>
          refine ⟨rfl, ?_⟩
          cases hs : env.VerifyWithSet tm.jwtMsg K with
          | some e =>
            exfalso
            cases ho : ta.TrustMarkOwners.lookup tm.TrustMarkType <;>
              simp [TrustMark.VerifyExternal, ht, hs, errors.Wrap, ho] at h
          | none =>
            refine ⟨rfl, ?_⟩
            intro owner ho
            simp only [ho] at h
            unfold TrustMark.VerifyExternal at h
            simp only [ht, hs] at h
            rcases hD : tm.Delegation env with ⟨r, tm1⟩
            rw [hD] at h
            cases r with
            | error err => simp [errors.Wrap] at h
            | ok od =>
              cases od with
              | none => simp at h
              | some d =>
                simp only at h
                have hf := Delegation_snd_erase env tm
                rw [hD] at hf
                have e1 : tm1.TrustMarkType = tm.TrustMarkType := by
                  have h0 := congrArg (fun x : TrustMark => x.TrustMarkType) hf
                  exact h0
                have e2 : tm1.Issuer = tm.Issuer := by
                  have h0 := congrArg (fun x : TrustMark => x.Issuer) hf
                  exact h0
                rw [e1, e2] at h
                by_cases c1 : d.TrustMarkType = tm.TrustMarkType
                · by_cases c2 : d.Subject = tm.Issuer
                  · by_cases c3 : d.Issuer = owner.ID
                    · simp only [c1, c2, c3, bne_self_eq_false, Bool.false_eq_true,
                        if_false] at h
                      obtain ⟨h1, h2⟩ := DelegationJWT_VerifyExternal_eq_none.mp h
                      exact ⟨d, rfl, c1, c2, c3, h1, h2⟩
                    · simp [c1, c2, c3] at h
                  · simp [c1, c2] at h
                · simp [c1] at h


/-- C29 at the concrete federation: the mark of issuer2 is refused by the allow-list though
its keys would resolve; a mark of the unknown issuer3 gets the error of key resolution at an
anchor without allow-list, though at time 0 it is not yet valid and no signature verifies; and
the mark `mark.jws`, reported valid, has the delegation `grant`. -/
theorem C29_witness :
    demo.foreign.VerifyFederation demo.env demo.anchor =
        (some (errors.New
          "verify trustmark: trust mark issuer is not allowed by trust anchor"),
          demo.foreign) ∧
      TrustMark.VerifyFederation
          { demo.env with now := 0, VerifyWithSet := fun _ _ => some (Error.msg "no keys"),
                          Parse := demo.Parse }
          { demo.plain with Issuer := "https://issuer3" }
          { demo.anchorNoOwner with TrustMarkIssuers := none } =
        (some (Error.wrap (Error.msg "no trust chain")
          "error while resolving trust mark issuer"),
          { demo.plain with Issuer := "https://issuer3" }) ∧
      ∃ d, (demo.mark.Delegation demo.env).1 = .ok (some d) ∧
        d.Subject = "https://issuer1" ∧ d.Issuer = "https://owner" :=
  ⟨(C29_VerifyFederation_order demo.env demo.foreign demo.anchor).1
      [("badge-A", ["https://issuer1"])] ["https://issuer1"] rfl rfl (by decide) demo.env,
    (C29_VerifyFederation_order demo.env { demo.plain with Issuer := "https://issuer3" }
      { demo.anchorNoOwner with TrustMarkIssuers := none }).2.1 rfl
      (Error.wrap (Error.msg "no trust chain") "error while resolving trust mark issuer") rfl
      0 (fun _ _ => some (Error.msg "no keys")) demo.Parse,
    match ((C29_VerifyFederation_order demo.env demo.mark demo.anchor).2.2.2.2
      (by decide)).2 with
    | ⟨_, _, _, _, h⟩ => (h demo.owner rfl).imp (fun _ h => ⟨h.1, h.2.2.1, h.2.2.2.1⟩)⟩

/-- C30: for a trust anchor whose `TrustMarkIssuers` map has the type of the mark with an empty
list of issuers, `TrustMark.VerifyFederation` fails with the issuer-not-allowed error for every
issuer of the mark, the subject of the anchor among them; and when the map is nil or has no
entry for the type, the allow-list check passes for every issuer, and the call goes on to
resolve the keys of the issuer and to verify the mark against them. -/
theorem C30_VerifyFederation_empty_allow_list (env : Env) (tm : TrustMark)
    (ta : EntityStatementPayload) :
    (∀ issuers, ta.TrustMarkIssuers = some issuers →
        issuers.lookup tm.TrustMarkType = some [] →
        (∀ issuer : String,
          TrustMark.VerifyFederation env { tm with Issuer := issuer } ta =
            (some (errors.New
              "verify trustmark: trust mark issuer is not allowed by trust anchor"),
              { tm with Issuer := issuer })) ∧
        TrustMark.VerifyFederation env { tm with Issuer := ta.Subject } ta =
          (some (errors.New
            "verify trustmark: trust mark issuer is not allowed by trust anchor"),
            { tm with Issuer := ta.Subject })) ∧
      ((ta.TrustMarkIssuers = none ∨
          ∃ issuers, ta.TrustMarkIssuers = some issuers ∧
            issuers.lookup tm.TrustMarkType = none) →
        ∀ issuer : String,
          issuerAllowed { tm with Issuer := issuer } ta = none ∧
          TrustMark.VerifyFederation env { tm with Issuer := issuer } ta =
            (match getTrustMarkIssuerJWKS env issuer ta with
             | .error err => (some err, { tm with Issuer := issuer })
             | .ok K =>
               match ta.TrustMarkOwners.lookup tm.TrustMarkType with
               | none => TrustMark.VerifyExternal env { tm with Issuer := issuer } K []
               | some tmo =>
                 TrustMark.VerifyExternal env { tm with Issuer := issuer } K [tmo])) := by
  constructor
  · intro issuers h1 h2
    have h : ∀ issuer : String,
        TrustMark.VerifyFederation env { tm with Issuer := issuer } ta =
          (some (errors.New
            "verify trustmark: trust mark issuer is not allowed by trust anchor"),
            { tm with Issuer := issuer }) := by
      intro issuer
      unfold TrustMark.VerifyFederation issuerAllowed
      simp [h1, h2]
    exact ⟨h, h ta.Subject⟩
  · intro h issuer
    have ha : issuerAllowed { tm with Issuer := issuer } ta = none := by
      unfold issuerAllowed
      rcases h with h | ⟨issuers, h1, h2⟩
      · simp only [h]
      · simp only [h1, h2]
    refine ⟨ha, ?_⟩
    unfold TrustMark.VerifyFederation
    simp only [ha]

/-- C30 at the anchor with an empty issuer list for badge-A, which is itself the issuer of the
mark `plain.jws`, and at the anchor with a nil map, which accepts the mark of issuer2. -/
theorem C30_witness :
    demo.plain.VerifyFederation demo.env demo.anchorNobody =
        (some (errors.New
          "verify trustmark: trust mark issuer is not allowed by trust anchor"),
          demo.plain) ∧
      demo.plain.Issuer = demo.anchorNobody.Subject ∧
      (demo.plain.VerifyFederation demo.env
        { demo.anchorNobody with TrustMarkIssuers := none }).1 = none ∧
      issuerAllowed demo.foreign { demo.anchorNoOwner with TrustMarkIssuers := none } = none ∧
      (demo.foreign.VerifyFederation demo.env
        { demo.anchorNoOwner with TrustMarkIssuers := none }).1 = none :=
  ⟨((C30_VerifyFederation_empty_allow_list demo.env demo.plain demo.anchorNobody).1
      [("badge-A", [])] rfl rfl).1 "https://issuer1",
    rfl, by decide,
    ((C30_VerifyFederation_empty_allow_list demo.env demo.foreign
      { demo.anchorNoOwner with TrustMarkIssuers := none }).2 (Or.inl rfl)
      "https://issuer2").1,
    by decide⟩

/-- C31: the result of `DelegationJWT.VerifyFederation(ta)` is fixed by the time window of the
delegation, its trust mark type and the outcome of its signature check against the keys of the
owner the anchor names for that type: two delegations that agree on these get the same result,
whatever their issuer and subject claims are. In particular a delegation keeps its result when
its issuer and subject claims are replaced, so the issuer is not compared with the id of the
owner. -/
theorem C31_VerifyFederation_ignores_issuer_subject (env : Env) (d1 d2 : DelegationJWT)
    (ta : EntityStatementPayload)
    (hiat : d1.IssuedAt = d2.IssuedAt) (hexp : d1.ExpiresAt = d2.ExpiresAt)
    (htype : d1.TrustMarkType = d2.TrustMarkType)
    (hsig : ∀ owner, ta.TrustMarkOwners.lookup d1.TrustMarkType = some owner →
      env.VerifyWithSet d1.jwtMsg owner.JWKS = env.VerifyWithSet d2.jwtMsg owner.JWKS) :
    d1.VerifyFederation env ta = d2.VerifyFederation env ta ∧
      ∀ issuer subject : String,
        DelegationJWT.VerifyFederation env { d1 with Issuer := issuer, Subject := subject } ta =
          d1.VerifyFederation env ta := by
  refine ⟨?_, fun _ _ => rfl⟩
  unfold DelegationJWT.VerifyFederation
  rw [← hiat, ← hexp, ← htype]
  cases unixtime.VerifyTime env.now d1.IssuedAt d1.ExpiresAt with
  | some err => rfl
  | none =>
    cases ho : ta.TrustMarkOwners.lookup d1.TrustMarkType with
    | none => rfl
    | some owner =>
      simp only
      rw [hsig owner ho]

/-- C31 at the delegation `grant` of the owner and at the same token under the issuer claim
`https://mallory`, which is not the id of the owner of badge-A: the anchor accepts both. -/
theorem C31_witness :
    demo.grant.VerifyFederation demo.env demo.anchor = none ∧
      demo.grantForged.VerifyFederation demo.env demo.anchor = none ∧
      demo.grantForged.Issuer ≠ demo.owner.ID ∧
      demo.anchor.TrustMarkOwners.lookup demo.grantForged.TrustMarkType = some demo.owner :=
  ⟨by decide,
    ((C31_VerifyFederation_ignores_issuer_subject demo.env demo.grant demo.grantForged
      demo.anchor rfl rfl rfl (fun _ _ => rfl)).1).symm.trans (by decide),
    by decide, by decide⟩

/-- C32: of the owners passed to `TrustMark.VerifyExternal` only the first is used: for every
key set `K`, owner `o` and further owners `rest`, the call with `o, rest...` returns what
the call with `o` alone returns, and leaves the mark in the same state. -/
theorem C32_VerifyExternal_first_owner (env : Env) (m : TrustMark) (K : jwks.JWKS)
    (o : TrustMarkOwnerSpec) (rest : List TrustMarkOwnerSpec) :
    m.VerifyExternal env K (o :: rest) = m.VerifyExternal env K [o] := by
  unfold TrustMark.VerifyExternal
  rfl

/-- C33: every issuer reached from `NewTrustMarkIssuer` by `AddTrustMark` calls exists (no call
panics) and stores each spec under its own `TrustMarkType`, and every owner reached from
`NewTrustMarkOwner` by `AddTrustMark` calls stores each entry under its own `ID`; so a
successful `IssueTrustMark(t, ...)` of such an issuer returns an info of type `t` and has
signed one mark, of type `t`, and `TrustMarkTypes()` lists exactly the types of the specs
passed to the constructor and to the `AddTrustMark` calls, each of them once. -/
theorem C33_registry_keys (env : Env) (entityID : String) (signer : TrustMarkSigner)
    (specs added : List TrustMarkSpec) (ownerID : String)
    (delegationSigner : TrustMarkDelegationSigner) (owned addedOwned : List OwnedTrustMark) :
    (∃ tmi, (NewTrustMarkIssuer entityID signer specs).AddTrustMarks added = some tmi ∧
      (∀ k spec, GoMap.index tmi.trustMarks k = some spec → spec.TrustMarkType = k) ∧
      (∀ t sub lifetime info, (tmi.IssueTrustMark env t sub lifetime).1 = .ok info →
        info.TrustMarkType = t ∧
          ∃ tm, (tmi.IssueTrustMark env t sub lifetime).2 = [tm] ∧ tm.TrustMarkType = t) ∧
      tmi.TrustMarkTypes.Nodup ∧
      ∀ t, t ∈ tmi.TrustMarkTypes ↔ ∃ s ∈ specs ++ added, s.TrustMarkType = t) ∧
    (∃ tmo, (NewTrustMarkOwner ownerID delegationSigner owned).AddTrustMarks addedOwned =
        some tmo ∧
      ∀ k e, GoMap.index tmo.ownedTrustMarks k = some e → e.ID = k) := by
  constructor
  · refine ⟨_, AddTrustMarks_eq added (NewTrustMarkIssuer entityID signer specs) _ rfl, ?_⟩
    have hkey := lookup_foldl_assign_key (fun s : TrustMarkSpec => s.TrustMarkType) added _
      (lookup_foldl_assign_key (fun s : TrustMarkSpec => s.TrustMarkType) specs []
        (fun _ _ h0 => by cases h0))
    refine ⟨hkey, fun t sub lifetime info hinfo => IssueTrustMark_type_of_keys hinfo hkey, ?_⟩
    have hk := keys_foldl_assign (fun s : TrustMarkSpec => s.TrustMarkType) (specs ++ added) []
      List.nodup_nil
    rw [List.foldl_append] at hk
    rw [TrustMarkTypes_eq_keys _ _ rfl]
    refine ⟨hk.1, fun t => ?_⟩
    rw [hk.2 t]
    simp
  · refine ⟨_, Owner_AddTrustMarks_eq addedOwned (NewTrustMarkOwner ownerID delegationSigner owned)
      _ rfl, ?_⟩
    exact lookup_foldl_assign_key (fun s : OwnedTrustMark => s.ID) addedOwned _
      (lookup_foldl_assign_key (fun s : OwnedTrustMark => s.ID) owned []
        (fun _ _ h0 => by cases h0))

/-- C33 at issuer1, built with an old spec of badge-A and the spec of badge-B and given the
spec of badge-A afterwards: its types are badge-A and badge-B, once each, and the info and the
mark it issues for badge-A are of type badge-A. -/
theorem C33_witness :
    ∃ tmi, (NewTrustMarkIssuer "https://issuer1" demo.markSigner
        [demo.badgeAOld, demo.badgeB]).AddTrustMarks [demo.badgeA] = some tmi ∧
      tmi.TrustMarkTypes.Nodup ∧ "badge-A" ∈ tmi.TrustMarkTypes ∧
      "badge-B" ∈ tmi.TrustMarkTypes ∧
      (tmi.IssueTrustMark demo.env "badge-A" "https://sub.example" []).1.map
          (fun i => i.TrustMarkType) = .ok "badge-A" ∧
      (tmi.IssueTrustMark demo.env "badge-A" "https://sub.example" []).2.map
          (fun tm => tm.TrustMarkType) = ["badge-A"] :=
  match C33_registry_keys demo.env "https://issuer1" demo.markSigner
      [demo.badgeAOld, demo.badgeB] [demo.badgeA] "https://owner" demo.delegationSigner
      [demo.ownedA] [demo.ownedB] with
  | ⟨⟨tmi, h, _, hissue, hnd, hmem⟩, _⟩ =>
    ⟨tmi, h, hnd, (hmem "badge-A").mpr ⟨demo.badgeA, by simp, rfl⟩,
      (hmem "badge-B").mpr ⟨demo.badgeB, by simp, rfl⟩,
      by
        have h0 : (NewTrustMarkIssuer "https://issuer1" demo.markSigner
            [demo.badgeAOld, demo.badgeB]).AddTrustMarks [demo.badgeA] =
            some { EntityID := "https://issuer1", TrustMarkSigner := demo.markSigner,
                   trustMarks := some [("badge-A", demo.badgeA), ("badge-B", demo.badgeB)] } :=
          rfl
        rw [h0] at h
        cases h
        exact ⟨rfl, rfl⟩⟩

/-- C34: for a type configured with a spec and a signer that signs every mark,
`IssueTrustMark` succeeds whatever the embedded delegation token of the spec is: the mark it
signs carries that token as it stands and has nothing parsed from it, the result is the same
in every environment with the same clock, so whatever the parser, the decoder and the signature
check would say of the token, and the expiry of the mark is fixed by the time and the
lifetime alone: with any other token in the spec the mark signed has the same expiry. -/
theorem C34_IssueTrustMark_delegation_verbatim (env : Env) (tmi : TrustMarkIssuer)
    (t sub : String) (lifetime : List time.Duration) (spec : TrustMarkSpec)
    (h : GoMap.index tmi.trustMarks t = some spec)
    (hs : ∀ tm, ∃ jwt, tmi.TrustMarkSigner.JWT tm = .ok jwt) :
    ∃ info tm, tmi.IssueTrustMark env t sub lifetime = (.ok info, [tm]) ∧
      tm.DelegationJWT = spec.DelegationJWT ∧ tm.delegation = none ∧
      tm.ExpiresAt =
        (if lifetime.headD spec.Lifetime.Duration = 0 then none
         else some (env.now + lifetime.headD spec.Lifetime.Duration)) ∧
      (∀ env2 : Env, env2.now = env.now →
        tmi.IssueTrustMark env2 t sub lifetime = tmi.IssueTrustMark env t sub lifetime) ∧
      ∀ (tmi2 : TrustMarkIssuer) (token : String),
        GoMap.index tmi2.trustMarks t = some { spec with DelegationJWT := token } →
        ∃ tm2, (tmi2.IssueTrustMark env t sub lifetime).2 = [tm2] ∧
          tm2.DelegationJWT = token ∧ tm2.ExpiresAt = tm.ExpiresAt := by
  obtain ⟨tm, h2, -, -, -, -, -, -, hd, -, -, hdel, hexp, hres⟩ :=
    IssueTrustMark_of_spec env tmi t sub lifetime spec h
  obtain ⟨jwt, hjwt⟩ := hs tm
  rw [hjwt] at hres
  refine ⟨_, tm, Prod.ext hres h2, hd, hdel, hexp, ?_, ?_⟩
  · intro env2 hnow
    unfold TrustMarkIssuer.IssueTrustMark
    rw [hnow]
  · intro tmi2 token h3
    obtain ⟨tm2, g2, -, -, -, -, -, -, gd, -, -, -, gexp, -⟩ :=
      IssueTrustMark_of_spec env tmi2 t sub lifetime _ h3
    exact ⟨tm2, g2, gd, gexp.trans hexp.symm⟩

/-- C34 at issuer1: badge-B, whose spec embeds a text that is no token, is issued, and so is
badge-A with an embedded delegation that expired at 500: the mark signed at 1000 carries it and
expires at 4600, although the delegation parses and fails its own verification as expired. -/
theorem C34_witness :
    (∃ info tm, demo.issuer.IssueTrustMark demo.env "badge-B" "https://sub.example" [] =
        (.ok info, [tm]) ∧ tm.DelegationJWT = "not a token" ∧
        parseDelegationJWT demo.env "not a token" =
          .error (Error.msg "invalid compact serialization")) ∧
    (∃ info tm, demo.issuerExpired.IssueTrustMark demo.envOld "badge-A" "https://sub.example" [] =
        (.ok info, [tm]) ∧ tm.DelegationJWT = "old.jws" ∧ tm.ExpiresAt = some 4600 ∧
        (parseDelegationJWT demo.envOld "old.jws").map
            (fun d => (d.ExpiresAt, d.VerifyExternal demo.envOld demo.owner.JWKS)) =
          .ok (some 500, some (Error.wrap unixtime.ErrExpired "verify delegation jwt"))) := by
  have hsigner : ∀ tm, ∃ jwt, demo.markSigner.JWT tm = .ok jwt := by
    intro tm
    unfold demo.markSigner
    by_cases h : tm.DelegationJWT = ""
    · exact ⟨"plain.jws", by simp only [h, if_true]⟩
    · exact ⟨"mark.jws", by simp only [h, if_false]⟩
  constructor
  · obtain ⟨info, tm, h1, h2, -⟩ :=
      C34_IssueTrustMark_delegation_verbatim demo.env demo.issuer "badge-B"
        "https://sub.example" [] demo.badgeB rfl hsigner
    exact ⟨info, tm, h1, h2, rfl⟩
  · obtain ⟨info, tm, h1, h2, -, h3, -⟩ :=
      C34_IssueTrustMark_delegation_verbatim demo.envOld demo.issuerExpired "badge-A"
        "https://sub.example" [] demo.badgeAExpired rfl hsigner
    exact ⟨info, tm, h1, h2, h3, rfl⟩

/-- C35: every mark that `TrustMarkInfo.TrustMark()` returns without error has a parsed
message. An info returned by `IssueTrustMark` caches the mark that was signed, which has none:
its `TrustMark()` call hands the signed token to the parser, fails with the error of the parse
and leaves the info as it was, or returns the parsed mark and caches it in place of the signed
one; and its `VerifyExternal` and `VerifyFederation` give the same under every signature
check that agrees on the parsed messages, so they never ask for the signature of a missing
message. For every info, `VerifyExternal` and `VerifyFederation` either return the error of
`TrustMark()` or go by the mark it returned, which has a parsed message. -/
theorem C35_verified_mark_has_message (env : Env) :
    (∀ (info : TrustMarkInfo) (t : TrustMark),
      (info.TrustMark env).1 = .ok t → t.jwtMsg ≠ none) ∧
    (∀ (tmi : TrustMarkIssuer) (ty sub : String) (lifetime : List time.Duration)
        (info : TrustMarkInfo),
      (tmi.IssueTrustMark env ty sub lifetime).1 = .ok info →
      (∃ tm, info.trustmark = some tm ∧ tm.jwtMsg = none) ∧
        info.TrustMarkParses = [info.TrustMarkJWT] ∧
        info.TrustMark env =
          (match ParseTrustMark env info.TrustMarkJWT with
           | .error err => (.error err, info)
           | .ok t => (.ok t, { info with trustmark := some t })) ∧
        ∀ v2 : Option jwx.ParsedJWT → jwks.JWKS → Option Error,
          (∀ m K, v2 (some m) K = env.VerifyWithSet (some m) K) →
          (∀ K tmo, info.VerifyExternal { env with VerifyWithSet := v2 } K tmo =
              info.VerifyExternal env K tmo) ∧
            ∀ ta, info.VerifyFederation { env with VerifyWithSet := v2 } ta =
              info.VerifyFederation env ta) ∧
    (∀ (info : TrustMarkInfo) (K : jwks.JWKS) (tmo : List TrustMarkOwnerSpec),
      (∃ err, (info.TrustMark env).1 = .error err ∧
          (info.VerifyExternal env K tmo).1 = some err) ∨
        ∃ mark, (info.TrustMark env).1 = .ok mark ∧ mark.jwtMsg ≠ none ∧
          (info.VerifyExternal env K tmo).1 =
            if mark.TrustMarkType != info.TrustMarkType then some errTypeClaim
            else (mark.VerifyExternal env K tmo).1) ∧
    (∀ (info : TrustMarkInfo) (ta : EntityStatementPayload),
      (∃ err, (info.TrustMark env).1 = .error err ∧
          (info.VerifyFederation env ta).1 = some err) ∨
        ∃ mark, (info.TrustMark env).1 = .ok mark ∧ mark.jwtMsg ≠ none ∧
          (info.VerifyFederation env ta).1 =
            if mark.TrustMarkType != info.TrustMarkType then some errTypeClaim
            else (mark.VerifyFederation env ta).1) := by
  refine ⟨fun info t h => (TrustMark_ok_cached h).2, ?_, ?_, ?_⟩
  · intro tmi ty sub lifetime info h
    obtain ⟨tm, hc, hmsg, -⟩ := IssueTrustMark_info_cache h
    have hf : ∀ t, info.trustmark = some t → t.jwtMsg = none := by
      intro t ht
      rw [hc] at ht
      cases ht
      exact hmsg
    obtain ⟨h1, h2⟩ := TrustMark_of_fresh env hf
    exact ⟨⟨tm, hc, hmsg⟩, h2, h1, fun v2 hv => TrustMarkInfo_Verify_verifier hv hf⟩
  · intro info K tmo
    have hfld := (TrustMark_snd_fields env info).1
    unfold TrustMarkInfo.VerifyExternal
    rcases hT : info.TrustMark env with ⟨r, info1⟩
    rw [hT] at hfld
    cases r with
    | error err => exact Or.inl ⟨err, rfl, rfl⟩
    | ok mark =>
      have hm : mark.jwtMsg ≠ none := (TrustMark_ok_cached (by rw [hT])).2
      refine Or.inr ⟨mark, rfl, hm, ?_⟩
      simp only
      rw [← hfld]
      split <;> rfl
  · intro info ta
    have hfld := (TrustMark_snd_fields env info).1
    unfold TrustMarkInfo.VerifyFederation
    rcases hT : info.TrustMark env with ⟨r, info1⟩
    rw [hT] at hfld
    cases r with
    | error err => exact Or.inl ⟨err, rfl, rfl⟩
    | ok mark =>
      have hm : mark.jwtMsg ≠ none := (TrustMark_ok_cached (by rw [hT])).2
      refine Or.inr ⟨mark, rfl, hm, ?_⟩
      simp only
      rw [← hfld]
      split <;> rfl

/-- C35 at the info that issuer1 issues for badge-A: it caches the mark that was signed, which
has no parsed message; its `TrustMark()` call hands the token `plain.jws` to the parser and
returns the parse, which has a parsed message, and its verification against the keys of issuer1
passes. -/
theorem C35_witness :
    ∃ info,
      (demo.issuer.IssueTrustMark demo.env "badge-A" "https://sub.example" []).1 = .ok info ∧
      (∃ tm, info.trustmark = some tm ∧ tm.jwtMsg = none) ∧
      info.TrustMarkParses = ["plain.jws"] ∧
      (info.TrustMark demo.env).1 = .ok demo.plain ∧
      demo.plain.jwtMsg ≠ none ∧
      (info.VerifyExternal demo.env demo.issuerKeys []).1 = none :=
  ⟨_, rfl,
    ((C35_verified_mark_has_message demo.env).2.1 demo.issuer "badge-A" "https://sub.example"
      [] _ rfl).1,
    ((C35_verified_mark_has_message demo.env).2.1 demo.issuer "badge-A" "https://sub.example"
      [] _ rfl).2.1,
    rfl,
    (C35_verified_mark_has_message demo.env).1 demo.plainInfo demo.plain rfl,
    by decide⟩

/-- C36: for every federation entity the `TrustMarks` of the payload that
`EntityConfigurationPayload` builds are, in the order of the configuration, one info for each
configured trust mark whose token retrieval succeeds, with the type of the configuration and
the token obtained, no extra fields and nothing cached; a configuration whose retrieval fails
adds nothing, so the list is the same as without that configuration. -/
theorem C36_EntityConfigurationPayload_TrustMarks (env : Env) (f : FederationEntity) :
    (f.EntityConfigurationPayload env).TrustMarks =
        f.TrustMarks.filterMap (fun tmc =>
          match tmc.TrustMarkJWT with
          | .error _ => none
          | .ok tm =>
            some { TrustMarkType := tmc.TrustMarkType, TrustMarkJWT := tm, Extra := [],
                   trustmark := none }) ∧
      ∀ (pre post : List EntityConfigurationTrustMarkConfig)
        (bad : EntityConfigurationTrustMarkConfig) (e : Error),
        f.TrustMarks = pre ++ bad :: post → bad.TrustMarkJWT = .error e →
          (f.EntityConfigurationPayload env).TrustMarks =
            (FederationEntity.EntityConfigurationPayload env
              { f with TrustMarks := pre ++ post }).TrustMarks := by
  have key : ∀ (xs : List EntityConfigurationTrustMarkConfig) (init : List TrustMarkInfo),
      xs.foldl
          (fun tms tmc =>
            match tmc.TrustMarkJWT with
            | .error _ => tms
            | .ok tm => tms ++ [{ TrustMarkType := tmc.TrustMarkType, TrustMarkJWT := tm }])
          init =
        init ++ xs.filterMap (fun tmc =>
          match tmc.TrustMarkJWT with
          | .error _ => none
          | .ok tm =>
            some { TrustMarkType := tmc.TrustMarkType, TrustMarkJWT := tm, Extra := [],
                   trustmark := none }) := by
    intro xs
    induction xs with
    | nil => intro init; simp
    | cons x rest ih =>
      intro init
      rw [List.foldl_cons, ih]
      cases hx : x.TrustMarkJWT with
      | error e => simp [List.filterMap_cons, hx]
      | ok tm => simp [List.filterMap_cons, hx]
  have hall : ∀ g : FederationEntity, (g.EntityConfigurationPayload env).TrustMarks =
      g.TrustMarks.filterMap (fun tmc =>
          match tmc.TrustMarkJWT with
          | .error _ => none
          | .ok tm =>
            some { TrustMarkType := tmc.TrustMarkType, TrustMarkJWT := tm, Extra := [],
                   trustmark := none }) := by
    intro g
    exact (key g.TrustMarks []).trans (List.nil_append _)
  refine ⟨hall f, ?_⟩
  intro pre post bad e hf hbad
  rw [hall f, hall, hf]
  simp [List.filterMap_append, List.filterMap_cons, hbad]

/-- C36 at issuer1 with three configured trust marks, of which the second fails: the payload
lists the first and the third. -/
theorem C36_witness :
    (demo.entity.EntityConfigurationPayload demo.env).TrustMarks.map
        (fun i => (i.TrustMarkType, i.TrustMarkJWT, i.Extra.length, i.trustmark.isNone)) =
      [("badge-A", "mark.jws", 0, true), ("badge-B", "plain.jws", 0, true)] ∧
    (demo.entity.EntityConfigurationPayload demo.env).TrustMarks =
      (FederationEntity.EntityConfigurationPayload demo.env
        { demo.entity with TrustMarks := [demo.configA] ++ [demo.configB] }).TrustMarks :=
  ⟨by
    rw [(C36_EntityConfigurationPayload_TrustMarks demo.env demo.entity).1]
    rfl,
   (C36_EntityConfigurationPayload_TrustMarks demo.env demo.entity).2 [demo.configA]
     [demo.configB] demo.configFailing (Error.msg "could not fetch") rfl rfl⟩

/-- C37, as stated, fails: for a struct A with one field, of the name `wasSet`, and a struct B
without fields, the first generated struct holds the field name `wasSet` twice, once for the
fixed field of the generator and once for the field of struct A. -/
theorem C37_counterexample :
    (generateCombinedStructLines "X" demo.structWasSet demo.structEmpty).1.map FieldLine.Name =
        ["wasSet", "wasSet"] ∧
      ¬ ((generateCombinedStructLines "X" demo.structWasSet demo.structEmpty).1.map
        FieldLine.Name).Nodup ∧
      generateCombinedStruct "X" "XWithPtrs" demo.structWasSet demo.structEmpty =
        "type X struct \x7b\n\twasSet map[string]bool\n    wasSet bool\n\x7d\n\n" ++
          "type XWithPtrs struct \x7b\n    wasSet *bool\n\x7d\n" := by
  refine ⟨by decide, by decide, by decide⟩

/-- C37, amended: for every pair of input structs, with `forType` and `forTypeWithPtrs` the
field lines of the two generated structs: the names in the second struct are distinct; the
first struct has the fixed field `wasSet` and then the same names, so its names are distinct
exactly when no field of the inputs is named `wasSet`; the names are those of struct A and
those of struct B that are not passed over, which for `FederationEntityMetadata` are the
names containing `JWKS`; every line is the line of a field of struct A with that name, or
struct A has no such name and it is the line of a field of struct B; so for
`FederationEntityMetadata` a name containing `JWKS` is written only for a field of struct A. -/
theorem C37_generateCombinedStruct_fields (newStructName : String)
    (structA structB : ast.StructType) (forType forTypeWithPtrs : List FieldLine)
    (hL : generateCombinedStructLines newStructName structA structB =
      (forType, forTypeWithPtrs)) :
    (forTypeWithPtrs.map FieldLine.Name).Nodup ∧
    forType.map FieldLine.Name = "wasSet" :: forTypeWithPtrs.map FieldLine.Name ∧
    ((forType.map FieldLine.Name).Nodup ↔
      (∀ f ∈ structA.Fields, "wasSet" ∉ f.Names) ∧ ∀ f ∈ structB.Fields, "wasSet" ∉ f.Names) ∧
    (∀ n, n ∈ forTypeWithPtrs.map FieldLine.Name ↔
      (∃ f ∈ structA.Fields, n ∈ f.Names) ∨
        ∃ f ∈ structB.Fields, n ∈ f.Names ∧
          (newStructName = "FederationEntityMetadata" && strings.Contains n "JWKS") = false) ∧
    (∀ l ∈ forType.tail,
      (∃ f ∈ structA.Fields, l.Name ∈ f.Names ∧
          l = ⟨"    ", l.Name, fieldTypeAsString f.Typ, f.Tag⟩) ∨
        ((∀ f ∈ structA.Fields, l.Name ∉ f.Names) ∧
          ∃ f ∈ structB.Fields, l.Name ∈ f.Names ∧
            l = ⟨"    ", l.Name, fieldTypeAsString f.Typ, f.Tag⟩)) ∧
    (∀ l ∈ forTypeWithPtrs,
      (∃ f ∈ structA.Fields, l.Name ∈ f.Names ∧
          l = ⟨"    ", l.Name, fieldTypeAsPtrString f.Typ, f.Tag⟩) ∨
        ((∀ f ∈ structA.Fields, l.Name ∉ f.Names) ∧
          ∃ f ∈ structB.Fields, l.Name ∈ f.Names ∧
            l = ⟨"    ", l.Name, fieldTypeAsPtrString f.Typ, f.Tag⟩)) ∧
    (newStructName = "FederationEntityMetadata" →
      ∀ n ∈ forType.map FieldLine.Name, strings.Contains n "JWKS" = true →
        ∃ f ∈ structA.Fields, n ∈ f.Names) := by
  obtain ⟨extA, extB, hA, hB, h1, h2, hnd, hallA, hallB⟩ :=
    generateCombinedStructLines_eq newStructName structA structB
  rw [hL] at h1 h2
  simp only at h1 h2
  have hn2 : forTypeWithPtrs.map FieldLine.Name = (extA ++ extB).map Prod.snd := by
    rw [h2, List.map_map]
    rfl
  have hn1 : forType.map FieldLine.Name = "wasSet" :: (extA ++ extB).map Prod.snd := by
    rw [h1, List.map_cons, List.map_map]
    rfl
  have hmem : ∀ n, n ∈ (extA ++ extB).map Prod.snd ↔
      (∃ f ∈ structA.Fields, n ∈ f.Names) ∨
        ∃ f ∈ structB.Fields, n ∈ f.Names ∧
          (newStructName = "FederationEntityMetadata" && strings.Contains n "JWKS") = false := by
    intro n
    constructor
    · intro hn
      obtain ⟨p, hp, rfl⟩ := List.mem_map.mp hn
      rcases List.mem_append.mp hp with hp | hp
      · exact Or.inl ⟨p.1, (hA p hp).1, (hA p hp).2⟩
      · exact Or.inr ⟨p.1, (hB p hp).1, (hB p hp).2.1, (hB p hp).2.2.1⟩
    · rintro (⟨f, hf, hn⟩ | ⟨f, hf, hn, hs⟩)
      · rw [List.map_append, List.mem_append]
        exact Or.inl (hallA f hf n hn)
      · exact hallB f hf n hn hs
  have hline : ∀ (render : ast.Expr → String) (l : FieldLine),
      l ∈ (extA ++ extB).map (fun p => (⟨"    ", p.2, render p.1.Typ, p.1.Tag⟩ : FieldLine)) →
      (∃ f ∈ structA.Fields, l.Name ∈ f.Names ∧ l = ⟨"    ", l.Name, render f.Typ, f.Tag⟩) ∨
        ((∀ f ∈ structA.Fields, l.Name ∉ f.Names) ∧
          ∃ f ∈ structB.Fields, l.Name ∈ f.Names ∧
            l = ⟨"    ", l.Name, render f.Typ, f.Tag⟩) := by
    intro render l hl
    obtain ⟨p, hp, rfl⟩ := List.mem_map.mp hl
    rcases List.mem_append.mp hp with hp | hp
    · exact Or.inl ⟨p.1, (hA p hp).1, (hA p hp).2, rfl⟩
    · exact Or.inr ⟨(hB p hp).2.2.2, p.1, (hB p hp).1, (hB p hp).2.1, rfl⟩
  refine ⟨hn2 ▸ hnd, hn1.trans (by rw [hn2]), ?_, fun n => by rw [hn2]; exact hmem n, ?_, ?_, ?_⟩
  · rw [hn1, List.nodup_cons]
    have hw : (newStructName = "FederationEntityMetadata" && strings.Contains "wasSet" "JWKS") =
        false := by
      rw [show strings.Contains "wasSet" "JWKS" = false by decide, Bool.and_false]
    constructor
    · rintro ⟨hnot, -⟩
      constructor
      · intro f hf hn
        exact hnot ((hmem "wasSet").mpr (Or.inl ⟨f, hf, hn⟩))
      · intro f hf hn
        exact hnot ((hmem "wasSet").mpr (Or.inr ⟨f, hf, hn, hw⟩))
    · rintro ⟨hnA, hnB⟩
      refine ⟨?_, hnd⟩
      intro hin
      rcases (hmem "wasSet").mp hin with ⟨f, hf, hn⟩ | ⟨f, hf, hn, -⟩
      · exact hnA f hf hn
      · exact hnB f hf hn
  · intro l hl
    rw [h1, List.tail_cons] at hl
    exact hline fieldTypeAsString l hl
  · intro l hl
    rw [h2] at hl
    exact hline fieldTypeAsPtrString l hl
  · intro hname n hn hc
    rw [hn1, List.mem_cons] at hn
    rcases hn with hn | hn
    · rw [hn] at hc
      exact absurd hc (by decide)
    · rcases (hmem n).mp hn with h | ⟨f, hf, hnf, hs⟩
      · exact h
      · rw [hname, hc] at hs
        exact absurd hs (by decide)

set_option maxRecDepth 100000 in
/-- C37, amended, at the structs of `metadata_input.go`. For `openIDRelyingPartyMetadata` and
`commonMetadata`, neither of which has a field `wasSet`, the names of the first generated
struct are distinct, and `Contacts`, `LogoURI` and `PolicyURI` stand once, at the place they
have in `openIDRelyingPartyMetadata`, before the names that only `commonMetadata` has. For
`federationEntityMetadata` and `commonMetadata` the names written are the eight of the first
and nine of the second: `SignedJWKSURI`, `JWKSURI` and `JWKS` are left out. -/
theorem C37_witness :
    ((generateCombinedStructLines "OpenIDRelyingPartyMetadata" demo.openIDRelyingPartyMetadata
        demo.commonMetadata).1.map FieldLine.Name).Nodup ∧
      ((generateCombinedStructLines "OpenIDRelyingPartyMetadata" demo.openIDRelyingPartyMetadata
        demo.commonMetadata).1.map FieldLine.Name).filter
          (fun n => n ∈ ["ApplicationType", "Contacts", "LogoURI", "PolicyURI", "Extra",
            "SignedJWKSURI", "DisplayName"]) =
        ["ApplicationType", "Contacts", "LogoURI", "PolicyURI", "Extra", "SignedJWKSURI",
          "DisplayName"] ∧
      (generateCombinedStructLines "FederationEntityMetadata" demo.federationEntityMetadata
        demo.commonMetadata).2.map FieldLine.Name =
        ["FederationFetchEndpoint", "FederationListEndpoint", "FederationResolveEndpoint",
          "FederationTrustMarkStatusEndpoint", "FederationTrustMarkListEndpoint",
          "FederationTrustMarkEndpoint", "FederationHistoricalLKeysEndpoint", "Extra",
          "DisplayName", "Description", "Keywords", "Contacts", "LogoURI", "PolicyURI",
          "InformationURI", "OrganizationName", "OrganizationURI"] :=
  ⟨(C37_generateCombinedStruct_fields "OpenIDRelyingPartyMetadata"
      demo.openIDRelyingPartyMetadata demo.commonMetadata _ _ rfl).2.2.1.mpr
      ⟨by decide, by decide⟩,
    by decide, by decide⟩

end oidfed
